import Mathlib

/-!
# GPS driver (Core/Src/gps.c): NMEA framing, checksum validation and field decoding

Shallow embedding of `gps.c`.

* A byte (`char`, `uint8_t`) is a `Nat` below 256; a buffer is a `List Nat`. A `char*`
  argument is the list of bytes from the pointed-to position to the end of the array it
  points into; reading or writing past the end of an array is undefined behaviour in C
  and is `none` here.
* `float` / `double` values are exact rationals (`ℚ`); the cast `(int)` is truncation
  toward zero.
* The static variables of the translation unit and of its functions are the fields of
  `State`.
* `HAL_UART_Receive` delivers the raw block `a`; `HAL_Delay` has no effect on the state.
-/

set_option autoImplicit false

namespace GPSDriver

/-! ## Constants and character helpers -/

/-- Capacity of `gga_buffer`, `vtg_buffer`, `uart_buffer` and of the raw block `a`. -/
def GPS_UART_BUFFER_SIZE : Nat := 500

/-- The string literal `GPS_GGA_MESSAGE`, "GNGGA". -/
def GPS_GGA_MESSAGE : List Nat := [0x47, 0x4E, 0x47, 0x47, 0x41]

/-- The string literal `GPS_VTG_MESSAGE`, "GNVTG". -/
def GPS_VTG_MESSAGE : List Nat := [0x47, 0x4E, 0x56, 0x54, 0x47]

/-- Source `byteToHexString`: `charOut` stays 0 when the argument is above 0xF. -/
def byteToHexString (checkSumHalf : Nat) : Nat :=
  if checkSumHalf ≤ 9 then checkSumHalf + 0x30
  else if 0xA ≤ checkSumHalf ∧ checkSumHalf ≤ 0xF then checkSumHalf + 0x37
  else 0

/-- Source `asciiToHex`: '.' becomes 0x10, a digit or an uppercase hex letter becomes its
value, every other byte becomes 0. -/
def asciiToHex (asciiSymbol : Nat) : Nat :=
  if asciiSymbol = 0x2E then 0x10
  else if 0x30 ≤ asciiSymbol ∧ asciiSymbol ≤ 0x39 then asciiSymbol - 0x30
  else if 0x41 ≤ asciiSymbol ∧ asciiSymbol ≤ 0x46 then asciiSymbol - 0x37
  else 0

/-! ## Checksum validation -/

/-- The loop `while (string[i] != '*') { checksum ^= string[i]; i++; }` of
`isNMEAChecksumValid`, followed by the `i++` after it. The list is `string` from index `i`
on; the result is the `uint8_t` checksum and `string` from the index after the '*' on.
Running off the array is `none`. (The arrays passed hold 500 bytes, so the `uint16_t`
index never wraps.) -/
def checksumScan : List Nat → Nat → Option (Nat × List Nat)
  | [], _ => none
  | c :: rest, checksum =>
    if c = 0x2A then some (checksum, rest)
    else checksumScan rest ((checksum ^^^ c) % 256)

/-- Source `isNMEAChecksumValid`. The `&&` reads `string[i+1]` only when the first
comparison succeeded. -/
def isNMEAChecksumValid (string : List Nat) : Option Bool :=
  match checksumScan string 0 with
  | none => none
  | some (_, []) => none
  | some (checksum, c1 :: rest) =>
    if byteToHexString ((checksum &&& 0xF0) >>> 4) = c1 then
      match rest with
      | [] => none
      | c2 :: _ => some (decide (byteToHexString (checksum &&& 0x0F) = c2))
    else some false

/-! ## The published record and the driver state -/

/-- Modelled from the spec: the `GPSData` declaration of `gps.h`, which is not among the
sources. Section 3 of the specification lists the fields: time, latitude, longitude and
ground speed are decimal numbers, altitude, satellite count and heading are integers. -/
structure GPSData where
  utcTime : ℚ
  latitude : ℚ
  longitude : ℚ
  altitude : Int
  numSatellites : Int
  heading : Int
  groundSpeed : ℚ
  deriving DecidableEq

/-- The function-local static arrays of `parseVTG`. -/
structure VTGScratch where
  /-- Array `rawHeading[6]`. -/
  rawHeading : List Nat
  /-- Array `rawGroundSpeed[8]`. -/
  rawGroundSpeed : List Nat
  deriving DecidableEq

/-- The function-local static variables of `parseGGA`. -/
structure GGAScratch where
  /-- Array `rawTime[11]`. -/
  rawTime : List Nat
  /-- Array `rawLatitude[10]`. -/
  rawLatitude : List Nat
  /-- Array `rawLongitude[11]`. -/
  rawLongitude : List Nat
  /-- Array `rawSatellites[3]`. -/
  rawSatellites : List Nat
  /-- Array `rawAltitude[8]`. -/
  rawAltitude : List Nat
  latitudeNS : Nat
  longitudeEW : Nat
  positionFix : Nat
  deriving DecidableEq

/-- All file-level and function-level static variables of `gps.c` that the parsing path
reads or writes. -/
structure State where
  gps_data : GPSData
  data_available : Bool
  new_vtg_data : Bool
  new_gga_data : Bool
  gga_buffer : List Nat
  vtg_buffer : List Nat
  uart_buffer : List Nat
  /-- Static local of `parseIncomingGPSData`. -/
  currently_parsing : Bool
  /-- Static local of `parseIncomingGPSData` (`uint16_t`, always below 500). -/
  buffer_index : Nat
  vtg : VTGScratch
  gga : GGAScratch
  deriving DecidableEq

/-- Initial values of the static arrays of `parseVTG`. -/
def vtgScratch0 : VTGScratch :=
  { rawHeading := [0, 0, 0, 0, 0, 0]
    rawGroundSpeed := [0, 0, 0, 0, 0, 0, 0, 0] }

/-- Initial values of the static variables of `parseGGA`; `rawSatellites` starts as
`{0, 0, 10}`. -/
def ggaScratch0 : GGAScratch :=
  { rawTime := [0, 0, 0, 0, 0, 0, 0, 0, 0, 0, 0]
    rawLatitude := [0, 0, 0, 0, 0, 0, 0, 0, 0, 0]
    rawLongitude := [0, 0, 0, 0, 0, 0, 0, 0, 0, 0, 0]
    rawSatellites := [0, 0, 10]
    rawAltitude := [0, 0, 0, 0, 0, 0, 0, 0]
    latitudeNS := 0
    longitudeEW := 0
    positionFix := 0 }

/-- Zero-initialised record (`gps_data` is a global without initialiser). -/
def gpsData0 : GPSData :=
  { utcTime := 0, latitude := 0, longitude := 0, altitude := 0, numSatellites := 0,
    heading := 0, groundSpeed := 0 }

/-- The state at program start. -/
def initialState : State :=
  { gps_data := gpsData0
    data_available := false
    new_vtg_data := false
    new_gga_data := false
    gga_buffer := List.replicate GPS_UART_BUFFER_SIZE 0
    vtg_buffer := List.replicate GPS_UART_BUFFER_SIZE 0
    uart_buffer := List.replicate GPS_UART_BUFFER_SIZE 0
    currently_parsing := false
    buffer_index := 0
    vtg := vtgScratch0
    gga := ggaScratch0 }

/-! ## The field walk of the two sentence decoders -/

/-- The loop that `parseGGA` and `parseVTG` both open with:
```
while (data[j] != '*') {
    char numData = asciiToHex(data[j]);
    if (data[j] == ',') { comma++; i = 0; }
    <store>            // the if / else-if chain of the function
    i++; j++;
}
```
The list is `data` from index `j` on; `store comma i c s` runs the chain for the byte
`c = data[j]` and is `none` when it writes outside an array. Running off the end of
`data` without meeting '*' is `none`. (`data` is one of the 500-byte staging buffers, so
the `int` counters stay far below their limit.) -/
def fieldWalk {σ : Type} (store : Nat → Nat → Nat → σ → Option σ) :
    List Nat → Nat → Nat → σ → Option σ
  | [], _, _, _ => none
  | c :: rest, comma, i, s =>
    if c = 0x2A then some s
    else
      let comma1 := if c = 0x2C then comma + 1 else comma
      let i1 := if c = 0x2C then 0 else i
      match store comma1 i1 c s with
      | none => none
      | some s1 => fieldWalk store rest comma1 (i1 + 1) s1

/-- Store chain of `parseVTG` (lines 267-271). -/
def storeVTG (comma i c : Nat) (s : VTGScratch) : Option VTGScratch :=
  let numData := asciiToHex c
  if comma = 1 ∧ i ≠ 0 then
    if i < 6 then some { s with rawHeading := s.rawHeading.set i numData } else none
  else if comma = 7 ∧ i ≠ 0 then
    if i < 8 then some { s with rawGroundSpeed := s.rawGroundSpeed.set i numData } else none
  else some s

/-- Store chain of `parseGGA` (lines 358-379). -/
def storeGGA (comma i c : Nat) (s : GGAScratch) : Option GGAScratch :=
  let numData := asciiToHex c
  if comma = 1 ∧ i ≠ 0 then
    if i < 11 then some { s with rawTime := s.rawTime.set i numData } else none
  else if comma = 2 ∧ i ≠ 0 then
    if i < 10 then some { s with rawLatitude := s.rawLatitude.set i numData } else none
  else if comma = 3 ∧ i ≠ 0 then
    some { s with latitudeNS := c }
  else if comma = 4 ∧ i ≠ 0 then
    if i < 11 then some { s with rawLongitude := s.rawLongitude.set i numData } else none
  else if comma = 5 ∧ i ≠ 0 then
    some { s with longitudeEW := c }
  else if comma = 6 ∧ i ≠ 0 then
    some { s with positionFix := numData }
  else if comma = 7 ∧ i ≠ 0 then
    if i < 3 then some { s with rawSatellites := s.rawSatellites.set i numData } else none
  else if comma = 9 ∧ i ≠ 0 then
    if i < 8 then some { s with rawAltitude := s.rawAltitude.set i numData } else none
  else some s

/-! ## The fixed-point rescale blocks -/

/-- The accumulation loop of the three rescale blocks,
```
for (i = 1; i < n; i++) {
    if (raw[i] == 0x10) decimalPoint = i;
    else { acc += (float) (raw[i]*scale / multiplier); multiplier *= 10; }
}
```
The list holds the values of `i` that are still to run; `acc`, `multiplier` and
`decimalPoint` are the loop variables. The quotient is an integer division. The result is
the accumulator and `decimalPoint` after the loop (`multiplier` is reassigned right after
it). -/
def accumLoop (raw : List Nat) (scale : Nat) : List Nat → ℚ → Nat → Int → ℚ × Int
  | [], acc, _, decimalPoint => (acc, decimalPoint)
  | i :: rest, acc, multiplier, decimalPoint =>
    if raw.getD i 0 = 0x10 then accumLoop raw scale rest acc multiplier (i : Int)
    else
      accumLoop raw scale rest (acc + ((raw.getD i 0 * scale / multiplier : Nat) : ℚ))
        (multiplier * 10) decimalPoint

/-- The loop `for (i = 1; i < n; i++)` entered with `acc = 0`, `multiplier = 10` and
`decimalPoint = 0`. -/
def accumulate (raw : List Nat) (scale n : Nat) : ℚ × Int :=
  accumLoop raw scale (List.range' 1 (n - 1)) 0 10 0

/-- The loop `while (decimalPoint > 0) { multiplier = multiplier / 10; decimalPoint--; }`,
given the number of iterations it makes. -/
def divideDown (multiplier : Nat) : Nat → Nat
  | 0 => multiplier
  | n + 1 => divideDown (multiplier / 10) n

/-- The lines `decimalPoint = decimalPoint - 2; multiplier = base; while (...) ...`:
the final divisor. The loop runs `decimalPoint - 2` times when that is positive, and not
at all otherwise. -/
def finalMultiplier (base : Nat) (decimalPoint : Int) : Nat :=
  divideDown base (decimalPoint - 2).toNat

/-- The cast `(int)` of a floating value: truncation toward zero. -/
def truncToInt (q : ℚ) : Int :=
  if 0 ≤ q then ⌊q⌋ else ⌈q⌉

/-! ## parseVTG -/

/-- Heading block of `parseVTG` (lines 277-300). -/
def decodeHeading (rawHeading : List Nat) : Int :=
  let a := accumulate rawHeading 100000 6
  truncToInt (a.1 / (finalMultiplier 10000 a.2 : ℚ))

/-- Ground speed block of `parseVTG` (lines 303-324). -/
def decodeGroundSpeed (rawGroundSpeed : List Nat) : ℚ :=
  let a := accumulate rawGroundSpeed 1000000 7
  a.1 / (finalMultiplier 100000 a.2 : ℚ)

/-- Source `parseVTG`. -/
def parseVTG (st : State) (data : List Nat) : Option State :=
  match fieldWalk storeVTG data 0 0 st.vtg with
  | none => none
  | some s =>
    some { st with
      vtg := s
      gps_data := { st.gps_data with
        heading := decodeHeading s.rawHeading
        groundSpeed := decodeGroundSpeed s.rawGroundSpeed } }

/-! ## parseGGA -/

/-- Time block of `parseGGA` (lines 388-397). -/
def decodeTime (rawTime : List Nat) : ℚ :=
  (rawTime.getD 1 0 : ℚ) * 100000 + (rawTime.getD 2 0 : ℚ) * 10000
    + (rawTime.getD 3 0 : ℚ) * 1000 + (rawTime.getD 4 0 : ℚ) * 100
    + (rawTime.getD 5 0 : ℚ) * 10 + (rawTime.getD 6 0 : ℚ) * 1
    + (rawTime.getD 8 0 : ℚ) * (1 / 10) + (rawTime.getD 9 0 : ℚ) * (1 / 100)
    + (rawTime.getD 10 0 : ℚ) * (1 / 1000)

/-- Latitude block of `parseGGA` (lines 400-413). -/
def decodeLatitude (rawLatitude : List Nat) (latitudeNS : Nat) : ℚ :=
  let minutes : ℚ :=
    (rawLatitude.getD 3 0 : ℚ) * 10 + (rawLatitude.getD 4 0 : ℚ) * 1
      + (rawLatitude.getD 6 0 : ℚ) * (1 / 10) + (rawLatitude.getD 7 0 : ℚ) * (1 / 100)
      + (rawLatitude.getD 8 0 : ℚ) * (1 / 1000) + (rawLatitude.getD 9 0 : ℚ) * (1 / 10000)
  let latitude : ℚ :=
    minutes / 60 + (rawLatitude.getD 1 0 : ℚ) * 10 + (rawLatitude.getD 2 0 : ℚ) * 1
  if latitudeNS = 0x53 then latitude * (-1) else latitude

/-- Longitude block of `parseGGA` (lines 416-430). -/
def decodeLongitude (rawLongitude : List Nat) (longitudeEW : Nat) : ℚ :=
  let minutes : ℚ :=
    (rawLongitude.getD 4 0 : ℚ) * 10 + (rawLongitude.getD 5 0 : ℚ) * 1
      + (rawLongitude.getD 7 0 : ℚ) * (1 / 10) + (rawLongitude.getD 8 0 : ℚ) * (1 / 100)
      + (rawLongitude.getD 9 0 : ℚ) * (1 / 1000) + (rawLongitude.getD 10 0 : ℚ) * (1 / 10000)
  let longitude : ℚ :=
    minutes / 60 + (rawLongitude.getD 1 0 : ℚ) * 100 + (rawLongitude.getD 2 0 : ℚ) * 10
      + (rawLongitude.getD 3 0 : ℚ) * 1
  if longitudeEW = 0x57 then longitude * (-1) else longitude

/-- Satellite block of `parseGGA` (lines 433-434). -/
def decodeSatellites (rawSatellites : List Nat) : Int :=
  if rawSatellites.getD 2 0 = 10 then (rawSatellites.getD 1 0 : Int)
  else (rawSatellites.getD 1 0 : Int) * 10 + (rawSatellites.getD 2 0 : Int)

/-- Altitude block of `parseGGA` (lines 437-459). -/
def decodeAltitude (rawAltitude : List Nat) : Int :=
  let a := accumulate rawAltitude 1000000 8
  truncToInt (a.1 / (finalMultiplier 100000 a.2 : ℚ))

/-- Source `parseGGA`. -/
def parseGGA (st : State) (data : List Nat) : Option State :=
  match fieldWalk storeGGA data 0 0 st.gga with
  | none => none
  | some s =>
    some { st with
      gga := s
      gps_data := { st.gps_data with
        utcTime := decodeTime s.rawTime
        latitude := decodeLatitude s.rawLatitude s.latitudeNS
        longitude := decodeLongitude s.rawLongitude s.longitudeEW
        numSatellites := decodeSatellites s.rawSatellites
        altitude := decodeAltitude s.rawAltitude } }

/-! ## parseIncomingGPSData and the accessors -/

/-- Body of the scan loop of `parseIncomingGPSData` (lines 146-165) for the byte
`c = a[i]`. `strncmp(lit, uart_buffer, 5) == 0` holds exactly when the first five bytes
of `uart_buffer` are those of the literal, which has no NUL among them; `memcpy` copies
the whole array. -/
def scanStep (st : State) (c : Nat) : State :=
  if c = 0x24 then
    { st with currently_parsing := true, buffer_index := 0 }
  else if c = 0x0D then
    if st.uart_buffer.take 5 = GPS_GGA_MESSAGE then
      { st with gga_buffer := st.uart_buffer, new_gga_data := true,
                currently_parsing := false }
    else if st.uart_buffer.take 5 = GPS_VTG_MESSAGE then
      { st with vtg_buffer := st.uart_buffer, new_vtg_data := true,
                currently_parsing := false }
    else { st with currently_parsing := false }
  else if st.currently_parsing then
    { st with
      uart_buffer := st.uart_buffer.set st.buffer_index c
      buffer_index := (st.buffer_index + 1) % GPS_UART_BUFFER_SIZE }
  else st

/-- The scan loop of `parseIncomingGPSData` over the raw block `a`. -/
def scanBlock (st : State) (a : List Nat) : State :=
  a.foldl scanStep st

/-- The block `if (new_gga_data) { ... }` of `parseIncomingGPSData` (lines 172-182). -/
def processGGA (st : State) : Option State :=
  if st.new_gga_data then
    let st1 := { st with new_gga_data := false }
    match isNMEAChecksumValid st1.gga_buffer with
    | none => none
    | some true =>
      match parseGGA { st1 with data_available := false } st1.gga_buffer with
      | none => none
      | some st2 => some { st2 with data_available := true }
    | some false => some st1
  else some st

/-- The block `if (new_vtg_data) { ... }` of `parseIncomingGPSData` (lines 184-194). -/
def processVTG (st : State) : Option State :=
  if st.new_vtg_data then
    let st1 := { st with new_vtg_data := false }
    match isNMEAChecksumValid st1.vtg_buffer with
    | none => none
    | some true =>
      match parseVTG { st1 with data_available := false } st1.vtg_buffer with
      | none => none
      | some st2 => some { st2 with data_available := true }
    | some false => some st1
  else some st

/-- The part of `parseIncomingGPSData` after the scan loop (lines 168-194): the early
return when nothing was staged, then the position block, then the velocity block. -/
def processStaged (st1 : State) : Option State :=
  if !st1.new_gga_data && !st1.new_vtg_data then some st1
  else
    match processGGA st1 with
    | none => none
    | some st2 => processVTG st2

/-- Source `parseIncomingGPSData`, for the raw block `a` that `HAL_UART_Receive` left in
the local array. -/
def parseIncomingGPSData (st : State) (a : List Nat) : Option State :=
  processStaged (scanBlock st a)

/-- Source `isNewDataAvailable`: the returned value and the state afterwards. -/
def isNewDataAvailable (st : State) : Bool × State :=
  if st.data_available then (true, { st with data_available := false })
  else (false, st)

/-- Source `getData`. -/
def getData (st : State) : GPSData := st.gps_data

/-! ## Vocabulary of the statements

The definitions below do not translate source lines; they name what the statements talk
about: the checksum a sentence should carry, the fields of a sentence body, the value a
decimal field denotes, and the effect of a run of consecutive stores. -/

/-- Bytewise XOR of a list of bytes. -/
def xorBytes (l : List Nat) : Nat := l.foldl (· ^^^ ·) 0

/-- ASCII code of the uppercase hexadecimal digit of a nibble. -/
def upperHexDigit (n : Nat) : Nat :=
  [0x30, 0x31, 0x32, 0x33, 0x34, 0x35, 0x36, 0x37, 0x38, 0x39,
   0x41, 0x42, 0x43, 0x44, 0x45, 0x46].getD n 0

/-- Consecutive array stores `l[i] = x0; l[i+1] = x1; ...`. -/
def writeAt (l : List Nat) : Nat → List Nat → List Nat
  | _, [] => l
  | i, x :: xs => writeAt (l.set i x) (i + 1) xs

/-- A state in which the scan loop is idle and the accumulation buffer has already been
staged: further bytes other than '$' change nothing. -/
def Settled (st : State) : Prop :=
  st.currently_parsing = false
    ∧ (st.uart_buffer.take 5 = GPS_GGA_MESSAGE →
        st.gga_buffer = st.uart_buffer ∧ st.new_gga_data = true)
    ∧ (st.uart_buffer.take 5 ≠ GPS_GGA_MESSAGE → st.uart_buffer.take 5 = GPS_VTG_MESSAGE →
        st.vtg_buffer = st.uart_buffer ∧ st.new_vtg_data = true)

/-- The state right after the scan loop has consumed the frame '$' body CR, when the body
fits the accumulation buffer. -/
def afterFrame (st : State) (body : List Nat) : State :=
  let u := writeAt st.uart_buffer 0 body
  if u.take 5 = GPS_GGA_MESSAGE then
    { st with uart_buffer := u, buffer_index := body.length, gga_buffer := u,
              new_gga_data := true, currently_parsing := false }
  else if u.take 5 = GPS_VTG_MESSAGE then
    { st with uart_buffer := u, buffer_index := body.length, vtg_buffer := u,
              new_vtg_data := true, currently_parsing := false }
  else
    { st with uart_buffer := u, buffer_index := body.length, currently_parsing := false }

/-- The bytes of `data` up to, not including, the first ',' or '*'; `none` when `data`
ends before either. -/
def takeField : List Nat → Option (List Nat)
  | [] => none
  | c :: rest =>
    if c = 0x2A ∨ c = 0x2C then some []
    else (takeField rest).map (fun f => c :: f)

/-- The field that follows the `n`-th comma of a sentence body: the bytes between that
comma and the next ',' or '*'. It is `none` when the '*' (or the end of `data`) comes
before the `n`-th comma. -/
def fieldAfterComma : Nat → List Nat → Option (List Nat)
  | 0, data => takeField data
  | _ + 1, [] => none
  | n + 1, c :: rest =>
    if c = 0x2A then none
    else if c = 0x2C then fieldAfterComma n rest
    else fieldAfterComma (n + 1) rest

/-- Number of bytes of the field after the `n`-th comma (0 when the body has no such
field). -/
def fieldLength (n : Nat) (data : List Nat) : Nat :=
  ((fieldAfterComma n data).getD []).length

/-- The GGA body reaches its '*' and each field that is stored into a scratch array has
room there: `rawTime[11]`, `rawLatitude[10]`, `rawLongitude[11]`, `rawSatellites[3]`,
`rawAltitude[8]`, slot 0 of each being left unused by the walk. -/
@[reducible] def ggaWithinWidths (data : List Nat) : Prop :=
  0x2A ∈ data ∧ fieldLength 1 data ≤ 10 ∧ fieldLength 2 data ≤ 9 ∧ fieldLength 4 data ≤ 10
    ∧ fieldLength 7 data ≤ 2 ∧ fieldLength 9 data ≤ 7

/-- The VTG body reaches its '*' and the course and km/h fields have room in
`rawHeading[6]` and `rawGroundSpeed[8]`. -/
@[reducible] def vtgWithinWidths (data : List Nat) : Prop :=
  0x2A ∈ data ∧ fieldLength 1 data ≤ 5 ∧ fieldLength 7 data ≤ 7

/-- Indices at which `storeGGA` may store at a given comma count. -/
def okGGA (c i : Nat) : Prop :=
  (c = 1 → i < 11) ∧ (c = 2 → i < 10) ∧ (c = 4 → i < 11) ∧ (c = 7 → i < 3) ∧ (c = 9 → i < 8)

/-- Indices at which `storeVTG` may store at a given comma count. -/
def okVTG (c i : Nat) : Prop :=
  (c = 1 → i < 6) ∧ (c = 7 → i < 8)

/-- Successive stores of the bytes of a field, the first at index `i`. -/
def foldWrite {α : Type} (upd : Nat → Nat → α → α) : Nat → List Nat → α → α
  | _, [], a => a
  | i, c :: f, a => foldWrite upd (i + 1) f (upd i c a)

/-- The store `raw[i] = numData` seen as an update of the array. -/
def setHex (i c : Nat) (raw : List Nat) : List Nat := raw.set i (asciiToHex c)

/-- The store `latitudeNS = data[j]` (or `longitudeEW = data[j]`) seen as an update. -/
def setChar (_ c : Nat) (_ : Nat) : Nat := c

/-- ASCII codes of a list of decimal digits. -/
def digitChars (ds : List Nat) : List Nat := ds.map (fun d => d + 0x30)

/-- Every entry is a decimal digit. -/
@[reducible] def IsDigits (ds : List Nat) : Prop := ∀ d ∈ ds, d < 10

/-- The number written by a list of decimal digits, most significant first. -/
def natOfDigits (ds : List Nat) : Nat := ds.foldl (fun n d => 10 * n + d) 0

/-- The value of the decimal numeral with integer digits `ip` and fractional digits
`fp`. -/
def decimalValue (ip fp : List Nat) : ℚ :=
  (natOfDigits ip : ℚ) + (natOfDigits fp : ℚ) / (10 : ℚ) ^ fp.length

/-- A sentence body followed by '*' and the two characters of its correct checksum. -/
def withChecksum (body : List Nat) : List Nat :=
  body ++ [0x2A, upperHexDigit (xorBytes body / 16), upperHexDigit (xorBytes body % 16)]

/-- A raw block made of the frame '$' `G` CR, then `noise`, then the frame '$' `V` CR,
then `padding`. -/
def twoFrameBlock (G noise V padding : List Nat) : List Nat :=
  0x24 :: (G ++ 0x0D :: (noise ++ 0x24 :: (V ++ 0x0D :: padding)))

/-! ## Sample input

The position sentence of the specification's end-to-end example and a velocity sentence,
as byte lists. -/

/-- The bytes of `GNGGA,123519,4807.038,N,01131.000,E,1,08,0.9,545.4,M,46.9,M,,`. -/
def sampleGGA : List Nat :=
  [71, 78, 71, 71, 65, 44, 49, 50, 51, 53, 49, 57, 44, 52, 56, 48, 55, 46, 48, 51,
   56, 44, 78, 44, 48, 49, 49, 51, 49, 46, 48, 48, 48, 44, 69, 44, 49, 44, 48, 56,
   44, 48, 46, 57, 44, 53, 52, 53, 46, 52, 44, 77, 44, 52, 54, 46, 57, 44, 77, 44,
   44]

/-- The bytes of `GNVTG,054.7,T,034.4,M,005.5,N,010.2,K`. -/
def sampleVTG : List Nat :=
  [71, 78, 86, 84, 71, 44, 48, 53, 52, 46, 55, 44, 84, 44, 48, 51, 52, 46, 52, 44,
   77, 44, 48, 48, 53, 46, 53, 44, 78, 44, 48, 49, 48, 46, 50, 44, 75]

/-- A 500-byte raw block: the two sample sentences, each framed as '$' body '*' checksum
CR LF, followed by zero bytes. -/
def sampleBlock : List Nat :=
  twoFrameBlock (withChecksum sampleGGA) [0x0A] (withChecksum sampleVTG)
    (0x0A :: List.replicate 390 0)

/-- A 500-byte raw block holding only the sample position sentence, framed with the
checksum characters `47` of the specification's example, which are not its checksum. -/
def corruptBlock : List Nat :=
  0x24 :: ((sampleGGA ++ [0x2A, 0x34, 0x37]) ++ 0x0D :: (0x0A :: List.replicate 432 0))

/-- The bytes of `GNGGA,092725.00,4717.11399,N,00833.91590,E,1,08,1.01,499.6,M,48.0,M,,`,
a position sentence with five fractional minute digits. -/
def longFieldsGGA : List Nat :=
  [71, 78, 71, 71, 65, 44, 48, 57, 50, 55, 50, 53, 46, 48, 48, 44, 52, 55, 49, 55,
   46, 49, 49, 51, 57, 57, 44, 78, 44, 48, 48, 56, 51, 51, 46, 57, 49, 53, 57, 48,
   44, 69, 44, 49, 44, 48, 56, 44, 49, 46, 48, 49, 44, 52, 57, 57, 46, 54, 44, 77,
   44, 52, 56, 46, 48, 44, 77, 44, 44]

/-- The bytes of `GNVTG,112.08,T,,M,0.004,N,0.008,K,A`, a velocity sentence whose course
has three integer and two fractional digits. -/
def longCourseVTG : List Nat :=
  [71, 78, 86, 84, 71, 44, 49, 49, 50, 46, 48, 56, 44, 84, 44, 44, 77, 44, 48, 46,
   48, 48, 52, 44, 78, 44, 48, 46, 48, 48, 56, 44, 75, 44, 65]

/-- The bytes of `GNGGA,1`, a position sentence cut off before its '*'. -/
def truncatedGGA : List Nat :=
  [71, 78, 71, 71, 65, 44, 49]

/-- A 500-byte raw block: '$', the cut-off sentence, CR, LF and zero bytes. -/
def truncatedBlock : List Nat :=
  0x24 :: (truncatedGGA ++ 0x0D :: (0x0A :: List.replicate 490 0))

/-- The bytes of `GNVTG,054.7,T,034.4,M,000.5,N,001.009,K`, a velocity sentence whose km/h
field has three integer and three fractional digits. -/
def paddedSpeedVTG : List Nat :=
  [71, 78, 86, 84, 71, 44, 48, 53, 52, 46, 55, 44, 84, 44, 48, 51, 52, 46, 52, 44,
   77, 44, 48, 48, 48, 46, 53, 44, 78, 44, 48, 48, 49, 46, 48, 48, 57, 44, 75]

/-- The bytes of `GNVTG,5.4,T,5.4,M,0.6,N,1.2,K`, a velocity sentence with a
three-character course and a three-character km/h field. -/
def shortFieldsVTG : List Nat :=
  [71, 78, 86, 84, 71, 44, 53, 46, 52, 44, 84, 44, 53, 46, 52, 44, 77, 44, 48, 46,
   54, 44, 78, 44, 49, 46, 50, 44, 75]

/-- The bytes of `GNVTG,,T,,M,0.004,N,,K,A`, a velocity sentence with an empty course field
and an empty km/h field. -/
def emptyFieldsVTG : List Nat :=
  [71, 78, 86, 84, 71, 44, 44, 84, 44, 44, 77, 44, 48, 46, 48, 48, 52, 44, 78, 44,
   44, 75, 44, 65]

/-- Successive calls of `parseVTG`, one for each sentence body of the list. -/
def runVTG (st : State) : List (List Nat) → Option State
  | [] => some st
  | body :: rest =>
    match parseVTG st body with
    | none => none
    | some st1 => runVTG st1 rest

/-- The bytes of `GNGSA,A,3`, the start of a sentence type that the driver does not
consume. -/
def sampleGSA : List Nat := [71, 78, 71, 83, 65, 44, 65, 44, 51]

/-- A 500-byte raw block that starts with the CR LF of an earlier sentence, followed by the
two sample sentences, each framed as '$' body '*' checksum CR LF, and zero bytes. -/
def shiftedBlock : List Nat :=
  [0x0D, 0x0A] ++ twoFrameBlock (withChecksum sampleGGA) [0x0A] (withChecksum sampleVTG)
    (0x0A :: List.replicate 388 0)

/-- The bytes of `GNGGA,123519,4807.038,N,01131.000,E,1,08,0.9,545,M,46.9,M,,`, the sample
position sentence with the altitude written without a decimal point. -/
def noPointGGA : List Nat :=
  [71, 78, 71, 71, 65, 44, 49, 50, 51, 53, 49, 57, 44, 52, 56, 48, 55, 46, 48, 51,
   56, 44, 78, 44, 48, 49, 49, 51, 49, 46, 48, 48, 48, 44, 69, 44, 49, 44, 48, 56,
   44, 48, 46, 57, 44, 53, 52, 53, 44, 77, 44, 52, 54, 46, 57, 44, 77, 44, 44]

/-- A 500-byte raw block: the sentences `noPointGGA` and `paddedSpeedVTG`, each framed as
'$' body '*' checksum CR LF, followed by zero bytes. -/
def offFormatBlock : List Nat :=
  twoFrameBlock (withChecksum noPointGGA) [0x0A] (withChecksum paddedSpeedVTG)
    (0x0A :: List.replicate 390 0)

/-! ## Checksum validation: proofs -/

theorem byteToHexString_eq_upperHexDigit (n : Nat) (h : n < 16) :
    byteToHexString n = upperHexDigit n := by
  interval_cases n <;> rfl

theorem high_nibble (c : Nat) (h : c < 256) : (c &&& 0xF0) >>> 4 = c / 16 := by
  interval_cases c <;> rfl

theorem low_nibble (c : Nat) (h : c < 256) : c &&& 0x0F = c % 16 := by
  interval_cases c <;> rfl

theorem foldl_xor_lt (l : List Nat) (c : Nat) (hc : c < 256) (hl : ∀ b ∈ l, b < 256) :
    l.foldl (· ^^^ ·) c < 256 := by
  induction l generalizing c with
  | nil => simpa using hc
  | cons x xs ih =>
    simp only [List.foldl_cons]
    apply ih
    · exact Nat.xor_lt_two_pow (show c < 2 ^ 8 from hc) (show x < 2 ^ 8 from hl x (by simp))
    · intro b hb; exact hl b (by simp [hb])

theorem checksumScan_append (pre post : List Nat) (c : Nat) (hc : c < 256)
    (hpre : ∀ b ∈ pre, b < 256 ∧ b ≠ 0x2A) :
    checksumScan (pre ++ 0x2A :: post) c = some (pre.foldl (· ^^^ ·) c, post) := by
  induction pre generalizing c with
  | nil => simp [checksumScan]
  | cons x xs ih =>
    have hx := hpre x (by simp)
    have hlt : c ^^^ x < 256 :=
      Nat.xor_lt_two_pow (show c < 2 ^ 8 from hc) (show x < 2 ^ 8 from hx.1)
    simp only [List.cons_append, checksumScan, if_neg hx.2, Nat.mod_eq_of_lt hlt, List.foldl_cons]
    exact ih _ hlt (fun b hb => hpre b (by simp [hb]))

theorem isNMEAChecksumValid_append (pre : List Nat) (c1 c2 : Nat) (rest : List Nat)
    (hpre : ∀ b ∈ pre, b < 256 ∧ b ≠ 0x2A) :
    isNMEAChecksumValid (pre ++ 0x2A :: c1 :: c2 :: rest)
      = some (decide (c1 = upperHexDigit (xorBytes pre / 16)
          ∧ c2 = upperHexDigit (xorBytes pre % 16))) := by
  have hlt : xorBytes pre < 256 := foldl_xor_lt pre 0 (by norm_num) (fun b hb => (hpre b hb).1)
  unfold isNMEAChecksumValid
  rw [checksumScan_append pre _ 0 (by norm_num) hpre]
  simp only
  change (if byteToHexString ((xorBytes pre &&& 0xF0) >>> 4) = c1 then
      some (decide (byteToHexString (xorBytes pre &&& 0x0F) = c2)) else some false) = _
  rw [high_nibble _ hlt, low_nibble _ hlt,
    byteToHexString_eq_upperHexDigit _ (Nat.div_lt_of_lt_mul (by omega)),
    byteToHexString_eq_upperHexDigit _ (Nat.mod_lt _ (by norm_num))]
  by_cases h1 : upperHexDigit (xorBytes pre / 16) = c1
  · by_cases h2 : upperHexDigit (xorBytes pre % 16) = c2
    · simp [h1, h2]
    · have h2b : ¬ c2 = upperHexDigit (xorBytes pre % 16) := fun h => h2 h.symm
      simp [h1, h2, h2b]
  · have h1b : ¬ c1 = upperHexDigit (xorBytes pre / 16) := fun h => h1 h.symm
    simp [h1, h1b]

/-- Claim C1: for every sentence body `s` (a list of bytes) whose first '*' is at index `k`
and is followed by at least two bytes, `isNMEAChecksumValid s` returns, and it returns
true exactly when `s[k+1]` and `s[k+2]` are the uppercase hexadecimal digits of the high
and of the low nibble of the bytewise XOR of `s[0..k-1]`. -/
theorem isNMEAChecksumValid_iff_hex_digits (s : List Nat) (k : Nat)
    (hbytes : ∀ b ∈ s, b < 256)
    (hstar : s[k]? = some 0x2A)
    (hfirst : ∀ j, j < k → s[j]? ≠ some 0x2A)
    (hlen : k + 2 < s.length) :
    isNMEAChecksumValid s
      = some (decide (s[k + 1]? = some (upperHexDigit (xorBytes (s.take k) / 16))
          ∧ s[k + 2]? = some (upperHexDigit (xorBytes (s.take k) % 16)))) := by
  have hk : k < s.length := by omega
  have hsk : s[k] = 0x2A := by
    rw [List.getElem?_eq_getElem hk] at hstar
    exact Option.some.inj hstar
  have hsplit : s = s.take k ++ 0x2A :: s[k + 1] :: s[k + 2] :: s.drop (k + 3) := by
    conv_lhs => rw [← List.take_append_drop k s]
    congr 1
    rw [List.drop_eq_getElem_cons hk, hsk]
    congr 1
    rw [List.drop_eq_getElem_cons (by omega : k + 1 < s.length)]
    congr 1
    rw [List.drop_eq_getElem_cons (by omega : k + 1 + 1 < s.length)]
  have hpre : ∀ b ∈ s.take k, b < 256 ∧ b ≠ 0x2A := by
    intro b hb
    refine ⟨hbytes b (List.mem_of_mem_take hb), ?_⟩
    obtain ⟨j, hj, rfl⟩ := List.getElem_of_mem hb
    have hjk : j < k := by
      have := List.length_take_le k s
      omega
    intro hEq
    apply hfirst j hjk
    rw [List.getElem_take] at hEq
    rw [List.getElem?_eq_getElem (by omega), hEq]
  have h1 : s[k + 1]? = some s[k + 1] := List.getElem?_eq_getElem (by omega)
  have h2 : s[k + 2]? = some s[k + 2] := List.getElem?_eq_getElem (by omega)
  rw [h1, h2]
  conv_lhs => rw [hsplit]
  rw [isNMEAChecksumValid_append _ _ _ _ hpre]
  simp

theorem isNMEAChecksumValid_iff_hex_digits_witness :
    isNMEAChecksumValid [0x47, 0x50, 0x2A, 0x31, 0x37, 0x0D] = some true := by
  have h := isNMEAChecksumValid_iff_hex_digits [0x47, 0x50, 0x2A, 0x31, 0x37, 0x0D] 2
    (by decide) (by decide) (by decide) (by decide)
  rw [h]
  decide

/-! ## The scan loop leaves the published record alone -/

theorem scanStep_gps_data (st : State) (c : Nat) :
    (scanStep st c).gps_data = st.gps_data ∧ (scanStep st c).data_available = st.data_available := by
  unfold scanStep
  split_ifs <;> exact ⟨rfl, rfl⟩

theorem scanBlock_gps_data (a : List Nat) (st : State) :
    (scanBlock st a).gps_data = st.gps_data
      ∧ (scanBlock st a).data_available = st.data_available := by
  induction a generalizing st with
  | nil => exact ⟨rfl, rfl⟩
  | cons c rest ih =>
    have h := scanStep_gps_data st c
    have h2 := ih (scanStep st c)
    simp only [scanBlock, List.foldl_cons] at h2 ⊢
    exact ⟨h2.1.trans h.1, h2.2.trans h.2⟩

/-- Claim C2: when, after the scan of the raw block, a position sentence is staged and
fails `isNMEAChecksumValid`, and the velocity sentence, if one is staged, fails it too,
`parseIncomingGPSData` returns with `gps_data` and `data_available` as they were before
the call. -/
theorem parseIncomingGPSData_failed_checksum_keeps_record (st : State) (a : List Nat)
    (hgga : (scanBlock st a).new_gga_data = true)
    (hbad : isNMEAChecksumValid (scanBlock st a).gga_buffer = some false)
    (hvtg : (scanBlock st a).new_vtg_data = true →
      isNMEAChecksumValid (scanBlock st a).vtg_buffer = some false) :
    ∃ st1, parseIncomingGPSData st a = some st1
      ∧ st1.gps_data = st.gps_data ∧ st1.data_available = st.data_available := by
  obtain ⟨hd, hav⟩ := scanBlock_gps_data a st
  unfold parseIncomingGPSData
  generalize scanBlock st a = s at hgga hbad hvtg hd hav
  unfold processStaged
  by_cases hv : s.new_vtg_data = true
  · have hvb := hvtg hv
    refine ⟨{ s with new_gga_data := false, new_vtg_data := false }, ?_, hd, hav⟩
    simp [processGGA, processVTG, hgga, hbad, hv, hvb]
  · refine ⟨{ s with new_gga_data := false }, ?_, hd, hav⟩
    simp [processGGA, processVTG, hgga, hbad, hv]


/-! ## The read-and-clear accessor -/

/-- Claim C10: of two consecutive calls of `isNewDataAvailable` the first returns the
current value of `data_available`, the second returns false, and `gps_data` is the same
after each of them. -/
theorem isNewDataAvailable_twice (st : State) :
    (isNewDataAvailable st).1 = st.data_available
      ∧ (isNewDataAvailable (isNewDataAvailable st).2).1 = false
      ∧ (isNewDataAvailable st).2.gps_data = st.gps_data
      ∧ (isNewDataAvailable (isNewDataAvailable st).2).2.gps_data = st.gps_data := by
  unfold isNewDataAvailable
  cases h : st.data_available <;> simp [h]

/-! ## The scan loop on framed sentences -/

theorem writeAt_length (xs : List Nat) (l : List Nat) (i : Nat) :
    (writeAt l i xs).length = l.length := by
  induction xs generalizing l i with
  | nil => rfl
  | cons x xs ih => simp [writeAt, ih]

theorem writeAt_eq (xs : List Nat) (l : List Nat) (i : Nat) (h : i + xs.length ≤ l.length) :
    writeAt l i xs = l.take i ++ xs ++ l.drop (i + xs.length) := by
  induction xs generalizing l i with
  | nil => simp [writeAt]
  | cons x xs ih =>
    simp only [List.length_cons] at h
    have hi : i < l.length := by omega
    rw [writeAt, ih _ _ (by simp; omega)]
    rw [List.set_eq_take_cons_drop x hi]
    have hlen : (List.take i l).length = i := by simp; omega
    rw [List.take_append_eq_append_take, List.drop_append_eq_append_drop]
    simp only [hlen, List.take_take]
    have e1 : min (i + 1) i = i := by omega
    have e2 : i + 1 - i = 1 := by omega
    have e3 : i + 1 + xs.length - i = xs.length + 1 := by omega
    have e4 : i + (xs.length + 1) = i + 1 + xs.length := by omega
    rw [e1, e2, e3]
    have e5 : List.drop (i + 1 + xs.length) (List.take i l) = [] := by
      apply List.drop_eq_nil_of_le; simp; omega
    rw [e5]
    simp [e4]

theorem writeAt_zero_take (xs l : List Nat) (h : xs.length ≤ l.length) :
    (writeAt l 0 xs).take xs.length = xs := by
  rw [writeAt_eq xs l 0 (by omega)]
  simp

theorem scanBlock_append (st : State) (a b : List Nat) :
    scanBlock st (a ++ b) = scanBlock (scanBlock st a) b := by
  simp [scanBlock, List.foldl_append]

theorem scanBlock_cons (st : State) (c : Nat) (a : List Nat) :
    scanBlock st (c :: a) = scanBlock (scanStep st c) a := rfl

/-- Scanning sentence bytes while capturing stores them at the write cursor. -/
theorem scanBlock_capture (body : List Nat) (st : State)
    (hcap : st.currently_parsing = true)
    (hbody : ∀ c ∈ body, c ≠ 0x24 ∧ c ≠ 0x0D)
    (hfit : st.buffer_index + body.length < GPS_UART_BUFFER_SIZE) :
    scanBlock st body =
      { st with
        uart_buffer := writeAt st.uart_buffer st.buffer_index body
        buffer_index := st.buffer_index + body.length } := by
  induction body generalizing st with
  | nil => simp [scanBlock, writeAt]
  | cons c cs ih =>
    have hc := hbody c (by simp)
    simp only [List.length_cons] at hfit
    have hmod : (st.buffer_index + 1) % GPS_UART_BUFFER_SIZE = st.buffer_index + 1 :=
      Nat.mod_eq_of_lt (by omega)
    have hstep : scanStep st c =
        { st with uart_buffer := st.uart_buffer.set st.buffer_index c
                  buffer_index := st.buffer_index + 1 } := by
      simp [scanStep, hc.1, hc.2, hcap, hmod]
    rw [scanBlock_cons, hstep]
    rw [ih { st with uart_buffer := st.uart_buffer.set st.buffer_index c
                     buffer_index := st.buffer_index + 1 } hcap
      (fun b hb => hbody b (by simp [hb])) (by simp; omega)]
    simp [writeAt, Nat.add_assoc, Nat.add_comm 1]

theorem scanStep_settled (st : State) (h : Settled st) (c : Nat) (hc : c ≠ 0x24) :
    scanStep st c = st := by
  obtain ⟨h1, h2, h3⟩ := h
  unfold scanStep
  rw [if_neg hc]
  by_cases hcr : c = 0x0D
  · rw [if_pos hcr]
    by_cases hg : st.uart_buffer.take 5 = GPS_GGA_MESSAGE
    · rw [if_pos hg]
      obtain ⟨e1, e2⟩ := h2 hg
      cases st
      simp_all
    · rw [if_neg hg]
      by_cases hv : st.uart_buffer.take 5 = GPS_VTG_MESSAGE
      · rw [if_pos hv]
        obtain ⟨e1, e2⟩ := h3 hg hv
        cases st
        simp_all
      · rw [if_neg hv]
        cases st
        simp_all
  · rw [if_neg hcr]
    simp [h1]

theorem scanBlock_settled (a : List Nat) (st : State) (h : Settled st)
    (ha : ∀ c ∈ a, c ≠ 0x24) : scanBlock st a = st := by
  induction a with
  | nil => rfl
  | cons c cs ih =>
    rw [scanBlock_cons, scanStep_settled st h c (ha c (by simp))]
    exact ih (fun b hb => ha b (by simp [hb]))

theorem scanBlock_frame (st : State) (body rest : List Nat)
    (hbody : ∀ c ∈ body, c ≠ 0x24 ∧ c ≠ 0x0D)
    (hfit : body.length < GPS_UART_BUFFER_SIZE) :
    scanBlock st (0x24 :: (body ++ 0x0D :: rest)) = scanBlock (afterFrame st body) rest := by
  rw [scanBlock_cons, scanBlock_append, scanBlock_cons]
  have h0 : scanStep st 0x24 = { st with currently_parsing := true, buffer_index := 0 } := by
    simp [scanStep]
  rw [h0, scanBlock_capture body _ rfl hbody (by simpa using hfit)]
  congr 1
  simp only [scanStep, afterFrame]
  norm_num

theorem writeAt_zero_take5 (xs l : List Nat) (h : xs.length ≤ l.length)
    (h5 : 5 ≤ xs.length) : (writeAt l 0 xs).take 5 = xs.take 5 := by
  rw [writeAt_eq xs l 0 (by omega)]
  simp [List.take_append_eq_append_take, Nat.sub_eq_zero_of_le h5]

theorem length_ge_of_take5 (xs lit : List Nat) (h : xs.take 5 = lit) (hl : lit.length = 5) :
    5 ≤ xs.length := by
  have := congrArg List.length h
  rw [List.length_take, hl] at this
  omega

theorem afterFrame_gga (st : State) (body : List Nat)
    (h5 : body.take 5 = GPS_GGA_MESSAGE) (hlen : body.length ≤ st.uart_buffer.length) :
    afterFrame st body =
      { st with uart_buffer := writeAt st.uart_buffer 0 body, buffer_index := body.length,
                gga_buffer := writeAt st.uart_buffer 0 body, new_gga_data := true,
                currently_parsing := false } := by
  have hu : (writeAt st.uart_buffer 0 body).take 5 = GPS_GGA_MESSAGE := by
    rw [writeAt_zero_take5 _ _ hlen (length_ge_of_take5 _ _ h5 rfl), h5]
  simp only [afterFrame, hu, if_true]

theorem afterFrame_vtg (st : State) (body : List Nat)
    (h5 : body.take 5 = GPS_VTG_MESSAGE) (hlen : body.length ≤ st.uart_buffer.length) :
    afterFrame st body =
      { st with uart_buffer := writeAt st.uart_buffer 0 body, buffer_index := body.length,
                vtg_buffer := writeAt st.uart_buffer 0 body, new_vtg_data := true,
                currently_parsing := false } := by
  have hu : (writeAt st.uart_buffer 0 body).take 5 = GPS_VTG_MESSAGE := by
    rw [writeAt_zero_take5 _ _ hlen (length_ge_of_take5 _ _ h5 rfl), h5]
  have hne : GPS_VTG_MESSAGE ≠ GPS_GGA_MESSAGE := by decide
  simp only [afterFrame, hu, if_true, if_neg hne]

theorem afterFrame_settled (st : State) (body : List Nat)
    (h5 : body.take 5 = GPS_GGA_MESSAGE ∨ body.take 5 = GPS_VTG_MESSAGE)
    (hlen : body.length ≤ st.uart_buffer.length) : Settled (afterFrame st body) := by
  have hne : GPS_VTG_MESSAGE ≠ GPS_GGA_MESSAGE := by decide
  rcases h5 with h5 | h5
  · rw [afterFrame_gga st body h5 hlen]
    exact ⟨rfl, fun _ => ⟨rfl, rfl⟩, fun h1 h2 => absurd
      (by rw [writeAt_zero_take5 _ _ hlen (length_ge_of_take5 _ _ h5 rfl), h5]) h1⟩
  · rw [afterFrame_vtg st body h5 hlen]
    exact ⟨rfl, fun h1 => absurd (by
        have h2 : (writeAt st.uart_buffer 0 body).take 5 = GPS_VTG_MESSAGE := by
          rw [writeAt_zero_take5 _ _ hlen (length_ge_of_take5 _ _ h5 rfl), h5]
        exact h2.symm.trans h1) hne, fun _ _ => ⟨rfl, rfl⟩⟩

/-- The scan of a block that holds one position frame, noise, one velocity frame and
padding. -/
theorem scanBlock_two_frames (st : State) (G noise V padding : List Nat)
    (hbuf : st.uart_buffer.length = GPS_UART_BUFFER_SIZE)
    (hGlen : G.length < GPS_UART_BUFFER_SIZE) (hVlen : V.length < GPS_UART_BUFFER_SIZE)
    (hG : G.take 5 = GPS_GGA_MESSAGE) (hV : V.take 5 = GPS_VTG_MESSAGE)
    (hGc : ∀ c ∈ G, c ≠ 0x24 ∧ c ≠ 0x0D) (hVc : ∀ c ∈ V, c ≠ 0x24 ∧ c ≠ 0x0D)
    (hnoise : ∀ c ∈ noise, c ≠ 0x24) (hpad : ∀ c ∈ padding, c ≠ 0x24) :
    scanBlock st (0x24 :: (G ++ 0x0D :: (noise ++ 0x24 :: (V ++ 0x0D :: padding))))
      = afterFrame (afterFrame st G) V := by
  have hl1 : G.length ≤ st.uart_buffer.length := by omega
  have hu1 : (afterFrame st G).uart_buffer.length = GPS_UART_BUFFER_SIZE := by
    rw [afterFrame_gga st G hG hl1]; simp [writeAt_length, hbuf]
  have hl2 : V.length ≤ (afterFrame st G).uart_buffer.length := by omega
  rw [scanBlock_frame st G _ hGc hGlen, scanBlock_append,
    scanBlock_settled noise _ (afterFrame_settled st G (Or.inl hG) hl1) hnoise,
    scanBlock_frame _ V _ hVc hVlen,
    scanBlock_settled padding _ (afterFrame_settled _ V (Or.inr hV) hl2) hpad]

/-! ## The field walk: what it stores, and when it returns -/

section walk

variable {σ α : Type} (store : Nat → Nat → Nat → σ → Option σ) (p : σ → α)



theorem fieldWalk_cons_star (rest : List Nat) (comma i : Nat) (s : σ) :
    fieldWalk store (0x2A :: rest) comma i s = some s := by
  simp [fieldWalk]

theorem fieldWalk_cons_comma (rest : List Nat) (comma i : Nat) (s : σ) :
    fieldWalk store (0x2C :: rest) comma i s
      = (store (comma + 1) 0 0x2C s).bind (fieldWalk store rest (comma + 1) 1) := by
  simp only [fieldWalk]
  norm_num
  cases store (comma + 1) 0 0x2C s <;> rfl

theorem fieldWalk_cons_other (c : Nat) (rest : List Nat) (comma i : Nat) (s : σ)
    (h1 : c ≠ 0x2A) (h2 : c ≠ 0x2C) :
    fieldWalk store (c :: rest) comma i s
      = (store comma i c s).bind (fieldWalk store rest comma (i + 1)) := by
  simp only [fieldWalk, if_neg h1, if_neg h2]
  cases store comma i c s <;> rfl

/-- Frame: once the walk is past comma `n`, what was stored for field `n` stays. -/
theorem fieldWalk_frame (n : Nat)
    (hother : ∀ c i ch s s1, (c ≠ n ∨ i = 0) → store c i ch s = some s1 → p s1 = p s) :
    ∀ (data : List Nat) (c i : Nat) (s s1 : σ), n < c →
      fieldWalk store data c i s = some s1 → p s1 = p s := by
  intro data
  induction data with
  | nil => intro c i s s1 _ h; simp [fieldWalk] at h
  | cons ch rest ih =>
    intro c i s s1 hc h
    by_cases h1 : ch = 0x2A
    · subst h1
      rw [fieldWalk_cons_star] at h
      rw [← Option.some.inj h]
    · by_cases h2 : ch = 0x2C
      · subst h2
        rw [fieldWalk_cons_comma] at h
        obtain ⟨s2, hs2, hw⟩ := Option.bind_eq_some.mp h
        rw [ih _ _ _ _ (by omega) hw, hother _ _ _ _ _ (Or.inl (by omega)) hs2]
      · rw [fieldWalk_cons_other store _ _ _ _ _ h1 h2] at h
        obtain ⟨s2, hs2, hw⟩ := Option.bind_eq_some.mp h
        rw [ih _ _ _ _ hc hw, hother _ _ _ _ _ (Or.inl (by omega)) hs2]

/-- Inside field `n`, from index `i` on. -/
theorem fieldWalk_in_field (upd : Nat → Nat → α → α) (n : Nat)
    (hn : ∀ i ch s s1, i ≠ 0 → store n i ch s = some s1 → p s1 = upd i ch (p s))
    (hother : ∀ c i ch s s1, (c ≠ n ∨ i = 0) → store c i ch s = some s1 → p s1 = p s) :
    ∀ (data : List Nat) (i : Nat) (s s1 : σ) (f : List Nat), i ≠ 0 →
      fieldWalk store data n i s = some s1 → takeField data = some f →
      p s1 = foldWrite upd i f (p s) := by
  intro data
  induction data with
  | nil => intro i s s1 f _ h; simp [fieldWalk] at h
  | cons ch rest ih =>
    intro i s s1 f hi h hf
    by_cases h1 : ch = 0x2A
    · subst h1
      rw [fieldWalk_cons_star] at h
      simp [takeField] at hf
      rw [← Option.some.inj h, hf]; rfl
    · by_cases h2 : ch = 0x2C
      · subst h2
        rw [fieldWalk_cons_comma] at h
        obtain ⟨s2, hs2, hw⟩ := Option.bind_eq_some.mp h
        simp [takeField] at hf
        rw [fieldWalk_frame store p n hother _ _ _ _ _ (by omega) hw,
          hother _ _ _ _ _ (Or.inr rfl) hs2, hf]; rfl
      · rw [fieldWalk_cons_other store _ _ _ _ _ h1 h2] at h
        obtain ⟨s2, hs2, hw⟩ := Option.bind_eq_some.mp h
        simp only [takeField, h1, h2, or_self, if_false] at hf
        obtain ⟨f1, hf1, rfl⟩ := Option.map_eq_some'.mp hf
        rw [ih _ _ _ _ (by omega) hw hf1, hn _ _ _ _ hi hs2]; rfl

/-- What the walk leaves in the variable that field `n` is stored into. -/
theorem fieldWalk_field (upd : Nat → Nat → α → α) (n : Nat)
    (hn : ∀ i ch s s1, i ≠ 0 → store n i ch s = some s1 → p s1 = upd i ch (p s))
    (hother : ∀ c i ch s s1, (c ≠ n ∨ i = 0) → store c i ch s = some s1 → p s1 = p s) :
    ∀ (data : List Nat) (c i : Nat) (s s1 : σ) (f : List Nat) (k : Nat), c + k + 1 = n →
      fieldWalk store data c i s = some s1 → fieldAfterComma (k + 1) data = some f →
      p s1 = foldWrite upd 1 f (p s) := by
  intro data
  induction data with
  | nil => intro c i s s1 f k _ h; simp [fieldWalk] at h
  | cons ch rest ih =>
    intro c i s s1 f k hck h hf
    by_cases h1 : ch = 0x2A
    · subst h1
      simp [fieldAfterComma] at hf
    · by_cases h2 : ch = 0x2C
      · subst h2
        rw [fieldWalk_cons_comma] at h
        obtain ⟨s2, hs2, hw⟩ := Option.bind_eq_some.mp h
        simp only [fieldAfterComma] at hf
        norm_num at hf
        have hp2 : p s2 = p s := hother _ _ _ _ _ (Or.inr rfl) hs2
        cases k with
        | zero =>
          have hcn : c + 1 = n := by omega
          rw [hcn] at hw
          simp only [fieldAfterComma] at hf
          rw [fieldWalk_in_field store p upd n hn hother _ _ _ _ _ (by omega) hw hf, hp2]
        | succ k =>
          rw [ih _ _ _ _ _ k (by omega) hw hf, hp2]
      · rw [fieldWalk_cons_other store _ _ _ _ _ h1 h2] at h
        obtain ⟨s2, hs2, hw⟩ := Option.bind_eq_some.mp h
        simp only [fieldAfterComma, if_neg h1, if_neg h2] at hf
        rw [ih _ _ _ _ _ k hck hw hf, hother _ _ _ _ _ (Or.inl (by omega)) hs2]

end walk

theorem takeField_isSome_of_mem (data : List Nat) (h : 0x2A ∈ data) :
    ∃ f, takeField data = some f := by
  induction data with
  | nil => simp at h
  | cons ch rest ih =>
    by_cases hd : ch = 0x2A ∨ ch = 0x2C
    · exact ⟨[], by simp [takeField, hd]⟩
    · have hne : ch ≠ 0x2A := fun e => hd (Or.inl e)
      have hmem : 0x2A ∈ rest := by
        rcases List.mem_cons.mp h with e | e
        · exact absurd e.symm hne
        · exact e
      obtain ⟨f, hf⟩ := ih hmem
      exact ⟨ch :: f, by simp [takeField, hd, hf]⟩

/-- Totality of the walk when every store is allowed by `ok`. -/
theorem fieldWalk_total {σ : Type} (store : Nat → Nat → Nat → σ → Option σ)
    (ok : Nat → Nat → Prop)
    (hstore : ∀ c i ch s, (i = 0 ∨ ok c i) → ∃ s1, store c i ch s = some s1) :
    ∀ (data : List Nat) (c i : Nat) (s : σ), 0x2A ∈ data →
      (∀ f, takeField data = some f → ∀ j, i ≤ j → j < i + f.length → ok c j) →
      (∀ k f, fieldAfterComma (k + 1) data = some f → ∀ j, 1 ≤ j → j ≤ f.length →
        ok (c + k + 1) j) →
      ∃ s1, fieldWalk store data c i s = some s1 := by
  intro data
  induction data with
  | nil => intro c i s h; simp at h
  | cons ch rest ih =>
    intro c i s hmem hcur hnext
    by_cases h1 : ch = 0x2A
    · subst h1
      exact ⟨s, fieldWalk_cons_star store _ _ _ _⟩
    · have hmem1 : 0x2A ∈ rest := by
        rcases List.mem_cons.mp hmem with e | e
        · exact absurd e.symm h1
        · exact e
      by_cases h2 : ch = 0x2C
      · subst h2
        obtain ⟨s2, hs2⟩ := hstore (c + 1) 0 0x2C s (Or.inl rfl)
        rw [fieldWalk_cons_comma, hs2]
        apply ih (c + 1) 1 s2 hmem1
        · intro f hf j hj1 hj2
          have := hnext 0 f (by simpa [fieldAfterComma] using hf) j hj1 (by omega)
          simpa using this
        · intro k f hf j hj1 hj2
          have := hnext (k + 1) f (by simpa [fieldAfterComma] using hf) j hj1 hj2
          have e : c + (k + 1) + 1 = c + 1 + k + 1 := by omega
          rwa [e] at this
      · obtain ⟨f1, hf1⟩ := takeField_isSome_of_mem rest hmem1
        have hf : takeField (ch :: rest) = some (ch :: f1) := by
          simp [takeField, h1, h2, hf1]
        obtain ⟨s2, hs2⟩ := hstore c i ch s
          (Or.inr (hcur _ hf i (le_refl _) (by simp)))
        rw [fieldWalk_cons_other store _ _ _ _ _ h1 h2, hs2]
        apply ih c (i + 1) s2 hmem1
        · intro f hf2 j hj1 hj2
          rw [hf1] at hf2
          cases Option.some.inj hf2
          exact hcur _ hf j (by omega) (by simp; omega)
        · intro k f hf2 j hj1 hj2
          exact hnext k f (by simpa [fieldAfterComma, h1, h2] using hf2) j hj1 hj2

/-! ## The store chains of the two decoders -/

theorem storeGGA_ok (c i ch : Nat) (s : GGAScratch) (h : i = 0 ∨ okGGA c i) :
    ∃ s1, storeGGA c i ch s = some s1 := by
  unfold storeGGA
  by_cases hi : i = 0
  · subst hi; simp
  · obtain ⟨h1, h2, h4, h7, h9⟩ := h.resolve_left hi
    by_cases c1 : c = 1
    · subst c1; simp [hi, h1 rfl]
    by_cases c2 : c = 2
    · subst c2; simp [hi, h2 rfl]
    by_cases c3 : c = 3
    · subst c3; simp [hi]
    by_cases c4 : c = 4
    · subst c4; simp [hi, h4 rfl]
    by_cases c5 : c = 5
    · subst c5; simp [hi]
    by_cases c6 : c = 6
    · subst c6; simp [hi]
    by_cases c7 : c = 7
    · subst c7; simp [hi, h7 rfl]
    by_cases c9 : c = 9
    · subst c9; simp [hi, h9 rfl]
    simp [c1, c2, c3, c4, c5, c6, c7, c9]

theorem storeVTG_ok (c i ch : Nat) (s : VTGScratch) (h : i = 0 ∨ okVTG c i) :
    ∃ s1, storeVTG c i ch s = some s1 := by
  unfold storeVTG
  rcases h with h | ⟨h1, h7⟩
  · subst h; simp
  · split_ifs <;> first | exact ⟨_, rfl⟩ | (exfalso; omega)

theorem fieldLength_eq (n : Nat) (data f : List Nat) (h : fieldAfterComma n data = some f) :
    fieldLength n data = f.length := by
  simp [fieldLength, h]

theorem fieldWalk_storeGGA_total (data : List Nat) (s : GGAScratch)
    (h : ggaWithinWidths data) : ∃ s1, fieldWalk storeGGA data 0 0 s = some s1 := by
  obtain ⟨hmem, h1, h2, h4, h7, h9⟩ := h
  apply fieldWalk_total storeGGA okGGA storeGGA_ok data 0 0 s hmem
  · intro f _ j _ _
    refine ⟨?_, ?_, ?_, ?_, ?_⟩ <;> intro e <;> omega
  · intro k f hf j hj1 hj2
    have hl := fieldLength_eq _ _ _ hf
    refine ⟨?_, ?_, ?_, ?_, ?_⟩ <;> intro e
    · have e1 : k + 1 = 1 := by omega
      rw [e1] at hl; omega
    · have e1 : k + 1 = 2 := by omega
      rw [e1] at hl; omega
    · have e1 : k + 1 = 4 := by omega
      rw [e1] at hl; omega
    · have e1 : k + 1 = 7 := by omega
      rw [e1] at hl; omega
    · have e1 : k + 1 = 9 := by omega
      rw [e1] at hl; omega

theorem fieldWalk_storeVTG_total (data : List Nat) (s : VTGScratch)
    (h : vtgWithinWidths data) : ∃ s1, fieldWalk storeVTG data 0 0 s = some s1 := by
  obtain ⟨hmem, h1, h7⟩ := h
  apply fieldWalk_total storeVTG okVTG storeVTG_ok data 0 0 s hmem
  · intro f _ j _ _
    refine ⟨?_, ?_⟩ <;> intro e <;> omega
  · intro k f hf j hj1 hj2
    have hl := fieldLength_eq _ _ _ hf
    refine ⟨?_, ?_⟩ <;> intro e
    · have e1 : k + 1 = 1 := by omega
      rw [e1] at hl; omega
    · have e1 : k + 1 = 7 := by omega
      rw [e1] at hl; omega

/-- Every way in which `storeGGA` can return. -/
theorem storeGGA_some (c i ch : Nat) (s s1 : GGAScratch) (h : storeGGA c i ch s = some s1) :
    (s1 = s ∧ (i = 0 ∨ (c ≠ 1 ∧ c ≠ 2 ∧ c ≠ 3 ∧ c ≠ 4 ∧ c ≠ 5 ∧ c ≠ 6 ∧ c ≠ 7 ∧ c ≠ 9)))
    ∨ (i ≠ 0 ∧ c = 1 ∧ s1 = { s with rawTime := s.rawTime.set i (asciiToHex ch) })
    ∨ (i ≠ 0 ∧ c = 2 ∧ s1 = { s with rawLatitude := s.rawLatitude.set i (asciiToHex ch) })
    ∨ (i ≠ 0 ∧ c = 3 ∧ s1 = { s with latitudeNS := ch })
    ∨ (i ≠ 0 ∧ c = 4 ∧ s1 = { s with rawLongitude := s.rawLongitude.set i (asciiToHex ch) })
    ∨ (i ≠ 0 ∧ c = 5 ∧ s1 = { s with longitudeEW := ch })
    ∨ (i ≠ 0 ∧ c = 6 ∧ s1 = { s with positionFix := asciiToHex ch })
    ∨ (i ≠ 0 ∧ c = 7 ∧ s1 = { s with rawSatellites := s.rawSatellites.set i (asciiToHex ch) })
    ∨ (i ≠ 0 ∧ c = 9 ∧ s1 = { s with rawAltitude := s.rawAltitude.set i (asciiToHex ch) }) := by
  unfold storeGGA at h
  by_cases hi : i = 0
  · subst hi
    simp at h
    exact Or.inl ⟨h.symm, Or.inl rfl⟩
  by_cases c1 : c = 1
  · subst c1
    by_cases hb : i < 11 <;> simp [hi, hb] at h
    exact Or.inr (Or.inl ⟨hi, rfl, h.symm⟩)
  by_cases c2 : c = 2
  · subst c2
    by_cases hb : i < 10 <;> simp [hi, hb] at h
    exact Or.inr (Or.inr (Or.inl ⟨hi, rfl, h.symm⟩))
  by_cases c3 : c = 3
  · subst c3
    simp [hi] at h
    exact Or.inr (Or.inr (Or.inr (Or.inl ⟨hi, rfl, h.symm⟩)))
  by_cases c4 : c = 4
  · subst c4
    by_cases hb : i < 11 <;> simp [hi, hb] at h
    exact Or.inr (Or.inr (Or.inr (Or.inr (Or.inl ⟨hi, rfl, h.symm⟩))))
  by_cases c5 : c = 5
  · subst c5
    simp [hi] at h
    exact Or.inr (Or.inr (Or.inr (Or.inr (Or.inr (Or.inl ⟨hi, rfl, h.symm⟩)))))
  by_cases c6 : c = 6
  · subst c6
    simp [hi] at h
    exact Or.inr (Or.inr (Or.inr (Or.inr (Or.inr (Or.inr (Or.inl ⟨hi, rfl, h.symm⟩))))))
  by_cases c7 : c = 7
  · subst c7
    by_cases hb : i < 3 <;> simp [hi, hb] at h
    exact Or.inr (Or.inr (Or.inr (Or.inr (Or.inr (Or.inr (Or.inr (Or.inl ⟨hi, rfl, h.symm⟩)))))))
  by_cases c9 : c = 9
  · subst c9
    by_cases hb : i < 8 <;> simp [hi, hb] at h
    exact Or.inr (Or.inr (Or.inr (Or.inr (Or.inr (Or.inr (Or.inr (Or.inr ⟨hi, rfl, h.symm⟩)))))))
  simp [c1, c2, c3, c4, c5, c6, c7, c9] at h
  exact Or.inl ⟨h.symm, Or.inr ⟨c1, c2, c3, c4, c5, c6, c7, c9⟩⟩

/-- Every way in which `storeVTG` can return. -/
theorem storeVTG_some (c i ch : Nat) (s s1 : VTGScratch) (h : storeVTG c i ch s = some s1) :
    (s1 = s ∧ (i = 0 ∨ (c ≠ 1 ∧ c ≠ 7)))
    ∨ (i ≠ 0 ∧ c = 1 ∧ s1 = { s with rawHeading := s.rawHeading.set i (asciiToHex ch) })
    ∨ (i ≠ 0 ∧ c = 7 ∧ s1 = { s with rawGroundSpeed := s.rawGroundSpeed.set i (asciiToHex ch) }) := by
  unfold storeVTG at h
  by_cases hi : i = 0
  · subst hi
    simp at h
    exact Or.inl ⟨h.symm, Or.inl rfl⟩
  by_cases c1 : c = 1
  · subst c1
    by_cases hb : i < 6 <;> simp [hi, hb] at h
    exact Or.inr (Or.inl ⟨hi, rfl, h.symm⟩)
  by_cases c7 : c = 7
  · subst c7
    by_cases hb : i < 8 <;> simp [hi, hb] at h
    exact Or.inr (Or.inr ⟨hi, rfl, h.symm⟩)
  simp [c1, c7] at h
  exact Or.inl ⟨h.symm, Or.inr ⟨c1, c7⟩⟩

theorem storeGGA_rawTime (i ch : Nat) (s s1 : GGAScratch) (hi : i ≠ 0)
    (h : storeGGA 1 i ch s = some s1) : s1.rawTime = setHex i ch s.rawTime := by
  rcases storeGGA_some _ _ _ _ _ h with
    ⟨_, h | h⟩ | ⟨_, hc, e⟩ | ⟨_, hc, e⟩ | ⟨_, hc, e⟩ | ⟨_, hc, e⟩ | ⟨_, hc, e⟩ | ⟨_, hc, e⟩
      | ⟨_, hc, e⟩ | ⟨_, hc, e⟩ <;> first | omega | (subst e; rfl)

theorem storeGGA_rawTime_other (c i ch : Nat) (s s1 : GGAScratch) (hc : c ≠ 1 ∨ i = 0)
    (h : storeGGA c i ch s = some s1) : s1.rawTime = s.rawTime := by
  rcases storeGGA_some _ _ _ _ _ h with
    ⟨e, _⟩ | ⟨_, hc, e⟩ | ⟨_, hc, e⟩ | ⟨_, hc, e⟩ | ⟨_, hc, e⟩ | ⟨_, hc, e⟩ | ⟨_, hc, e⟩
      | ⟨_, hc, e⟩ | ⟨_, hc, e⟩ <;> first | (subst e; rfl) | omega

/-! ## The numeric decoders on well-formed fields -/

theorem asciiToHex_digit (d : Nat) (h : d < 10) : asciiToHex (d + 0x30) = d := by
  interval_cases d <;> rfl

theorem asciiToHex_dot : asciiToHex 0x2E = 0x10 := rfl

theorem decodeLatitude_field (deg min frac : List Nat) (ns : Nat)
    (hdeg : deg.length = 2 ∧ IsDigits deg) (hmin : min.length = 2 ∧ IsDigits min)
    (hfrac : 1 ≤ frac.length ∧ frac.length ≤ 4 ∧ IsDigits frac) :
    decodeLatitude
        (foldWrite setHex 1 (digitChars deg ++ digitChars min ++ 0x2E :: digitChars frac)
          ggaScratch0.rawLatitude) ns
      = (if ns = 0x53 then -1 else 1)
          * ((natOfDigits deg : ℚ) + decimalValue min frac / 60) := by
  obtain ⟨hdl, hd⟩ := hdeg
  obtain ⟨hml, hm⟩ := hmin
  obtain ⟨hf1, hf2, hf⟩ := hfrac
  rcases deg with _ | ⟨d1, _ | ⟨d2, _ | _⟩⟩ <;> simp at hdl
  rcases min with _ | ⟨m1, _ | ⟨m2, _ | _⟩⟩ <;> simp at hml
  simp only [IsDigits, List.mem_cons, List.mem_singleton, forall_eq_or_imp, forall_eq,
    List.not_mem_nil, false_implies, implies_true, and_true] at hd hm
  rcases frac with _ | ⟨a, _ | ⟨b, _ | ⟨c, _ | ⟨d, _ | _⟩⟩⟩⟩ <;> simp at hf1 hf2 <;>
    simp only [IsDigits, List.mem_cons, List.mem_singleton, forall_eq_or_imp, forall_eq,
      List.not_mem_nil, false_implies, implies_true, and_true] at hf <;>
    simp [foldWrite, setHex, digitChars, ggaScratch0, asciiToHex_digit, asciiToHex_dot,
      decodeLatitude, natOfDigits, decimalValue, hd, hm, hf] <;>
    split_ifs <;> ring

theorem digit_ne_dot (a : Nat) (h : a < 10) : (a = 16) = False := by
  simp; omega

theorem scale6_div (a : Nat) :
    a * 1000000 / 10 = a * 100000 ∧ a * 1000000 / 100 = a * 10000
      ∧ a * 1000000 / 1000 = a * 1000 ∧ a * 1000000 / 10000 = a * 100
      ∧ a * 1000000 / 100000 = a * 10 ∧ a * 1000000 / 1000000 = a := by
  refine ⟨?_, ?_, ?_, ?_, ?_, ?_⟩ <;> omega

theorem decodeGroundSpeed_field (ip fp : List Nat)
    (hip : 1 ≤ ip.length ∧ ip.length ≤ 3 ∧ IsDigits ip) (hfp : IsDigits fp)
    (htot : ip.length + 1 + fp.length ≤ 6) :
    decodeGroundSpeed
        (foldWrite setHex 1 (digitChars ip ++ 0x2E :: digitChars fp)
          vtgScratch0.rawGroundSpeed)
      = decimalValue ip fp := by
  obtain ⟨h1, h2, hi⟩ := hip
  rcases ip with _ | ⟨i1, _ | ⟨i2, _ | ⟨i3, _ | _⟩⟩⟩ <;> simp at h1 h2 <;>
    simp only [IsDigits, List.mem_cons, List.mem_singleton, forall_eq_or_imp, forall_eq,
      List.not_mem_nil, false_implies, implies_true, and_true] at hi <;>
    rcases fp with _ | ⟨a, _ | ⟨b, _ | ⟨c, _ | ⟨d, _ | ⟨e, _ | _⟩⟩⟩⟩⟩ <;>
    simp at htot <;> (try omega) <;>
    simp only [IsDigits, List.mem_cons, List.mem_singleton, forall_eq_or_imp, forall_eq,
      List.not_mem_nil, false_implies, implies_true, and_true] at hfp <;>
    simp [foldWrite, setHex, digitChars, vtgScratch0, asciiToHex_digit, asciiToHex_dot,
      decodeGroundSpeed, accumulate, accumLoop, List.range', finalMultiplier, divideDown,
      natOfDigits, decimalValue, digit_ne_dot, scale6_div, hi, hfp] <;>
    (try (field_simp; ring))

theorem storeGGA_rawLatitude (i ch : Nat) (s s1 : GGAScratch) (hi : i ≠ 0)
    (h : storeGGA 2 i ch s = some s1) : s1.rawLatitude = setHex i ch s.rawLatitude := by
  rcases storeGGA_some _ _ _ _ _ h with
    ⟨_, h | h⟩ | ⟨_, hc, e⟩ | ⟨_, hc, e⟩ | ⟨_, hc, e⟩ | ⟨_, hc, e⟩ | ⟨_, hc, e⟩ | ⟨_, hc, e⟩
      | ⟨_, hc, e⟩ | ⟨_, hc, e⟩ <;> first | omega | (subst e; rfl)

theorem storeGGA_rawLatitude_other (c i ch : Nat) (s s1 : GGAScratch) (hc : c ≠ 2 ∨ i = 0)
    (h : storeGGA c i ch s = some s1) : s1.rawLatitude = s.rawLatitude := by
  rcases storeGGA_some _ _ _ _ _ h with
    ⟨e, _⟩ | ⟨_, hc, e⟩ | ⟨_, hc, e⟩ | ⟨_, hc, e⟩ | ⟨_, hc, e⟩ | ⟨_, hc, e⟩ | ⟨_, hc, e⟩
      | ⟨_, hc, e⟩ | ⟨_, hc, e⟩ <;> first | (subst e; rfl) | omega

theorem storeGGA_latitudeNS (i ch : Nat) (s s1 : GGAScratch) (hi : i ≠ 0)
    (h : storeGGA 3 i ch s = some s1) : s1.latitudeNS = setChar i ch s.latitudeNS := by
  rcases storeGGA_some _ _ _ _ _ h with
    ⟨_, h | h⟩ | ⟨_, hc, e⟩ | ⟨_, hc, e⟩ | ⟨_, hc, e⟩ | ⟨_, hc, e⟩ | ⟨_, hc, e⟩ | ⟨_, hc, e⟩
      | ⟨_, hc, e⟩ | ⟨_, hc, e⟩ <;> first | omega | (subst e; rfl)

theorem storeGGA_latitudeNS_other (c i ch : Nat) (s s1 : GGAScratch) (hc : c ≠ 3 ∨ i = 0)
    (h : storeGGA c i ch s = some s1) : s1.latitudeNS = s.latitudeNS := by
  rcases storeGGA_some _ _ _ _ _ h with
    ⟨e, _⟩ | ⟨_, hc, e⟩ | ⟨_, hc, e⟩ | ⟨_, hc, e⟩ | ⟨_, hc, e⟩ | ⟨_, hc, e⟩ | ⟨_, hc, e⟩
      | ⟨_, hc, e⟩ | ⟨_, hc, e⟩ <;> first | (subst e; rfl) | omega

theorem storeGGA_rawLongitude (i ch : Nat) (s s1 : GGAScratch) (hi : i ≠ 0)
    (h : storeGGA 4 i ch s = some s1) : s1.rawLongitude = setHex i ch s.rawLongitude := by
  rcases storeGGA_some _ _ _ _ _ h with
    ⟨_, h | h⟩ | ⟨_, hc, e⟩ | ⟨_, hc, e⟩ | ⟨_, hc, e⟩ | ⟨_, hc, e⟩ | ⟨_, hc, e⟩ | ⟨_, hc, e⟩
      | ⟨_, hc, e⟩ | ⟨_, hc, e⟩ <;> first | omega | (subst e; rfl)

theorem storeGGA_rawLongitude_other (c i ch : Nat) (s s1 : GGAScratch) (hc : c ≠ 4 ∨ i = 0)
    (h : storeGGA c i ch s = some s1) : s1.rawLongitude = s.rawLongitude := by
  rcases storeGGA_some _ _ _ _ _ h with
    ⟨e, _⟩ | ⟨_, hc, e⟩ | ⟨_, hc, e⟩ | ⟨_, hc, e⟩ | ⟨_, hc, e⟩ | ⟨_, hc, e⟩ | ⟨_, hc, e⟩
      | ⟨_, hc, e⟩ | ⟨_, hc, e⟩ <;> first | (subst e; rfl) | omega

theorem storeGGA_longitudeEW (i ch : Nat) (s s1 : GGAScratch) (hi : i ≠ 0)
    (h : storeGGA 5 i ch s = some s1) : s1.longitudeEW = setChar i ch s.longitudeEW := by
  rcases storeGGA_some _ _ _ _ _ h with
    ⟨_, h | h⟩ | ⟨_, hc, e⟩ | ⟨_, hc, e⟩ | ⟨_, hc, e⟩ | ⟨_, hc, e⟩ | ⟨_, hc, e⟩ | ⟨_, hc, e⟩
      | ⟨_, hc, e⟩ | ⟨_, hc, e⟩ <;> first | omega | (subst e; rfl)

theorem storeGGA_longitudeEW_other (c i ch : Nat) (s s1 : GGAScratch) (hc : c ≠ 5 ∨ i = 0)
    (h : storeGGA c i ch s = some s1) : s1.longitudeEW = s.longitudeEW := by
  rcases storeGGA_some _ _ _ _ _ h with
    ⟨e, _⟩ | ⟨_, hc, e⟩ | ⟨_, hc, e⟩ | ⟨_, hc, e⟩ | ⟨_, hc, e⟩ | ⟨_, hc, e⟩ | ⟨_, hc, e⟩
      | ⟨_, hc, e⟩ | ⟨_, hc, e⟩ <;> first | (subst e; rfl) | omega

theorem storeGGA_rawSatellites (i ch : Nat) (s s1 : GGAScratch) (hi : i ≠ 0)
    (h : storeGGA 7 i ch s = some s1) : s1.rawSatellites = setHex i ch s.rawSatellites := by
  rcases storeGGA_some _ _ _ _ _ h with
    ⟨_, h | h⟩ | ⟨_, hc, e⟩ | ⟨_, hc, e⟩ | ⟨_, hc, e⟩ | ⟨_, hc, e⟩ | ⟨_, hc, e⟩ | ⟨_, hc, e⟩
      | ⟨_, hc, e⟩ | ⟨_, hc, e⟩ <;> first | omega | (subst e; rfl)

theorem storeGGA_rawSatellites_other (c i ch : Nat) (s s1 : GGAScratch) (hc : c ≠ 7 ∨ i = 0)
    (h : storeGGA c i ch s = some s1) : s1.rawSatellites = s.rawSatellites := by
  rcases storeGGA_some _ _ _ _ _ h with
    ⟨e, _⟩ | ⟨_, hc, e⟩ | ⟨_, hc, e⟩ | ⟨_, hc, e⟩ | ⟨_, hc, e⟩ | ⟨_, hc, e⟩ | ⟨_, hc, e⟩
      | ⟨_, hc, e⟩ | ⟨_, hc, e⟩ <;> first | (subst e; rfl) | omega

theorem storeGGA_rawAltitude (i ch : Nat) (s s1 : GGAScratch) (hi : i ≠ 0)
    (h : storeGGA 9 i ch s = some s1) : s1.rawAltitude = setHex i ch s.rawAltitude := by
  rcases storeGGA_some _ _ _ _ _ h with
    ⟨_, h | h⟩ | ⟨_, hc, e⟩ | ⟨_, hc, e⟩ | ⟨_, hc, e⟩ | ⟨_, hc, e⟩ | ⟨_, hc, e⟩ | ⟨_, hc, e⟩
      | ⟨_, hc, e⟩ | ⟨_, hc, e⟩ <;> first | omega | (subst e; rfl)

theorem storeGGA_rawAltitude_other (c i ch : Nat) (s s1 : GGAScratch) (hc : c ≠ 9 ∨ i = 0)
    (h : storeGGA c i ch s = some s1) : s1.rawAltitude = s.rawAltitude := by
  rcases storeGGA_some _ _ _ _ _ h with
    ⟨e, _⟩ | ⟨_, hc, e⟩ | ⟨_, hc, e⟩ | ⟨_, hc, e⟩ | ⟨_, hc, e⟩ | ⟨_, hc, e⟩ | ⟨_, hc, e⟩
      | ⟨_, hc, e⟩ | ⟨_, hc, e⟩ <;> first | (subst e; rfl) | omega

theorem storeVTG_rawHeading (i ch : Nat) (s s1 : VTGScratch) (hi : i ≠ 0)
    (h : storeVTG 1 i ch s = some s1) : s1.rawHeading = setHex i ch s.rawHeading := by
  rcases storeVTG_some _ _ _ _ _ h with ⟨_, h | h⟩ | ⟨_, hc, e⟩ | ⟨_, hc, e⟩ <;>
    first | omega | (subst e; rfl)

theorem storeVTG_rawHeading_other (c i ch : Nat) (s s1 : VTGScratch) (hc : c ≠ 1 ∨ i = 0)
    (h : storeVTG c i ch s = some s1) : s1.rawHeading = s.rawHeading := by
  rcases storeVTG_some _ _ _ _ _ h with ⟨e, _⟩ | ⟨_, hc, e⟩ | ⟨_, hc, e⟩ <;>
    first | (subst e; rfl) | omega

theorem storeVTG_rawGroundSpeed (i ch : Nat) (s s1 : VTGScratch) (hi : i ≠ 0)
    (h : storeVTG 7 i ch s = some s1) : s1.rawGroundSpeed = setHex i ch s.rawGroundSpeed := by
  rcases storeVTG_some _ _ _ _ _ h with ⟨_, h | h⟩ | ⟨_, hc, e⟩ | ⟨_, hc, e⟩ <;>
    first | omega | (subst e; rfl)

theorem storeVTG_rawGroundSpeed_other (c i ch : Nat) (s s1 : VTGScratch) (hc : c ≠ 7 ∨ i = 0)
    (h : storeVTG c i ch s = some s1) : s1.rawGroundSpeed = s.rawGroundSpeed := by
  rcases storeVTG_some _ _ _ _ _ h with ⟨e, _⟩ | ⟨_, hc, e⟩ | ⟨_, hc, e⟩ <;>
    first | (subst e; rfl) | omega

/-- After the walk, `rawTime` holds what it held before, overwritten by the field after
comma 1. -/
theorem fieldWalk_storeGGA_rawTime (data : List Nat) (s s1 : GGAScratch) (f : List Nat)
    (h : fieldWalk storeGGA data 0 0 s = some s1)
    (hf : fieldAfterComma 1 data = some f) : s1.rawTime = foldWrite setHex 1 f s.rawTime :=
  fieldWalk_field storeGGA (fun t => t.rawTime) setHex 1
    (fun i ch s s1 hi h => storeGGA_rawTime i ch s s1 hi h)
    (fun c i ch s s1 hc h => storeGGA_rawTime_other c i ch s s1 hc h)
    data 0 0 s s1 f 0 rfl h hf

/-- After the walk, `rawLatitude` holds what it held before, overwritten by the field after
comma 2. -/
theorem fieldWalk_storeGGA_rawLatitude (data : List Nat) (s s1 : GGAScratch) (f : List Nat)
    (h : fieldWalk storeGGA data 0 0 s = some s1)
    (hf : fieldAfterComma 2 data = some f) : s1.rawLatitude = foldWrite setHex 1 f s.rawLatitude :=
  fieldWalk_field storeGGA (fun t => t.rawLatitude) setHex 2
    (fun i ch s s1 hi h => storeGGA_rawLatitude i ch s s1 hi h)
    (fun c i ch s s1 hc h => storeGGA_rawLatitude_other c i ch s s1 hc h)
    data 0 0 s s1 f 1 rfl h hf

/-- After the walk, `latitudeNS` holds what it held before, overwritten by the field after
comma 3. -/
theorem fieldWalk_storeGGA_latitudeNS (data : List Nat) (s s1 : GGAScratch) (f : List Nat)
    (h : fieldWalk storeGGA data 0 0 s = some s1)
    (hf : fieldAfterComma 3 data = some f) : s1.latitudeNS = foldWrite setChar 1 f s.latitudeNS :=
  fieldWalk_field storeGGA (fun t => t.latitudeNS) setChar 3
    (fun i ch s s1 hi h => storeGGA_latitudeNS i ch s s1 hi h)
    (fun c i ch s s1 hc h => storeGGA_latitudeNS_other c i ch s s1 hc h)
    data 0 0 s s1 f 2 rfl h hf

/-- After the walk, `rawLongitude` holds what it held before, overwritten by the field after
comma 4. -/
theorem fieldWalk_storeGGA_rawLongitude (data : List Nat) (s s1 : GGAScratch) (f : List Nat)
    (h : fieldWalk storeGGA data 0 0 s = some s1)
    (hf : fieldAfterComma 4 data = some f) : s1.rawLongitude = foldWrite setHex 1 f s.rawLongitude :=
  fieldWalk_field storeGGA (fun t => t.rawLongitude) setHex 4
    (fun i ch s s1 hi h => storeGGA_rawLongitude i ch s s1 hi h)
    (fun c i ch s s1 hc h => storeGGA_rawLongitude_other c i ch s s1 hc h)
    data 0 0 s s1 f 3 rfl h hf

/-- After the walk, `longitudeEW` holds what it held before, overwritten by the field after
comma 5. -/
theorem fieldWalk_storeGGA_longitudeEW (data : List Nat) (s s1 : GGAScratch) (f : List Nat)
    (h : fieldWalk storeGGA data 0 0 s = some s1)
    (hf : fieldAfterComma 5 data = some f) : s1.longitudeEW = foldWrite setChar 1 f s.longitudeEW :=
  fieldWalk_field storeGGA (fun t => t.longitudeEW) setChar 5
    (fun i ch s s1 hi h => storeGGA_longitudeEW i ch s s1 hi h)
    (fun c i ch s s1 hc h => storeGGA_longitudeEW_other c i ch s s1 hc h)
    data 0 0 s s1 f 4 rfl h hf

/-- After the walk, `rawSatellites` holds what it held before, overwritten by the field after
comma 7. -/
theorem fieldWalk_storeGGA_rawSatellites (data : List Nat) (s s1 : GGAScratch) (f : List Nat)
    (h : fieldWalk storeGGA data 0 0 s = some s1)
    (hf : fieldAfterComma 7 data = some f) : s1.rawSatellites = foldWrite setHex 1 f s.rawSatellites :=
  fieldWalk_field storeGGA (fun t => t.rawSatellites) setHex 7
    (fun i ch s s1 hi h => storeGGA_rawSatellites i ch s s1 hi h)
    (fun c i ch s s1 hc h => storeGGA_rawSatellites_other c i ch s s1 hc h)
    data 0 0 s s1 f 6 rfl h hf

/-- After the walk, `rawAltitude` holds what it held before, overwritten by the field after
comma 9. -/
theorem fieldWalk_storeGGA_rawAltitude (data : List Nat) (s s1 : GGAScratch) (f : List Nat)
    (h : fieldWalk storeGGA data 0 0 s = some s1)
    (hf : fieldAfterComma 9 data = some f) : s1.rawAltitude = foldWrite setHex 1 f s.rawAltitude :=
  fieldWalk_field storeGGA (fun t => t.rawAltitude) setHex 9
    (fun i ch s s1 hi h => storeGGA_rawAltitude i ch s s1 hi h)
    (fun c i ch s s1 hc h => storeGGA_rawAltitude_other c i ch s s1 hc h)
    data 0 0 s s1 f 8 rfl h hf

/-- After the walk, `rawHeading` holds what it held before, overwritten by the field after
comma 1. -/
theorem fieldWalk_storeVTG_rawHeading (data : List Nat) (s s1 : VTGScratch) (f : List Nat)
    (h : fieldWalk storeVTG data 0 0 s = some s1)
    (hf : fieldAfterComma 1 data = some f) : s1.rawHeading = foldWrite setHex 1 f s.rawHeading :=
  fieldWalk_field storeVTG (fun t => t.rawHeading) setHex 1
    (fun i ch s s1 hi h => storeVTG_rawHeading i ch s s1 hi h)
    (fun c i ch s s1 hc h => storeVTG_rawHeading_other c i ch s s1 hc h)
    data 0 0 s s1 f 0 rfl h hf

/-- After the walk, `rawGroundSpeed` holds what it held before, overwritten by the field after
comma 7. -/
theorem fieldWalk_storeVTG_rawGroundSpeed (data : List Nat) (s s1 : VTGScratch) (f : List Nat)
    (h : fieldWalk storeVTG data 0 0 s = some s1)
    (hf : fieldAfterComma 7 data = some f) : s1.rawGroundSpeed = foldWrite setHex 1 f s.rawGroundSpeed :=
  fieldWalk_field storeVTG (fun t => t.rawGroundSpeed) setHex 7
    (fun i ch s s1 hi h => storeVTG_rawGroundSpeed i ch s s1 hi h)
    (fun c i ch s s1 hc h => storeVTG_rawGroundSpeed_other c i ch s s1 hc h)
    data 0 0 s s1 f 6 rfl h hf

theorem decodeLongitude_field (deg min frac : List Nat) (ew : Nat)
    (hdeg : deg.length = 3 ∧ IsDigits deg) (hmin : min.length = 2 ∧ IsDigits min)
    (hfrac : 1 ≤ frac.length ∧ frac.length ≤ 4 ∧ IsDigits frac) :
    decodeLongitude
        (foldWrite setHex 1 (digitChars deg ++ digitChars min ++ 0x2E :: digitChars frac)
          ggaScratch0.rawLongitude) ew
      = (if ew = 0x57 then -1 else 1)
          * ((natOfDigits deg : ℚ) + decimalValue min frac / 60) := by
  obtain ⟨hdl, hd⟩ := hdeg
  obtain ⟨hml, hm⟩ := hmin
  obtain ⟨hf1, hf2, hf⟩ := hfrac
  rcases deg with _ | ⟨d1, _ | ⟨d2, _ | ⟨d3, _ | _⟩⟩⟩ <;> simp at hdl
  rcases min with _ | ⟨m1, _ | ⟨m2, _ | _⟩⟩ <;> simp at hml
  simp only [IsDigits, List.mem_cons, List.mem_singleton, forall_eq_or_imp, forall_eq,
    List.not_mem_nil, false_implies, implies_true, and_true] at hd hm
  rcases frac with _ | ⟨a, _ | ⟨b, _ | ⟨c, _ | ⟨d, _ | _⟩⟩⟩⟩ <;> simp at hf1 hf2 <;>
    simp only [IsDigits, List.mem_cons, List.mem_singleton, forall_eq_or_imp, forall_eq,
      List.not_mem_nil, false_implies, implies_true, and_true] at hf <;>
    simp [foldWrite, setHex, digitChars, ggaScratch0, asciiToHex_digit, asciiToHex_dot,
      decodeLongitude, natOfDigits, decimalValue, hd, hm, hf] <;>
    split_ifs <;> ring

/-- Time field without a fractional part. -/
theorem decodeTime_field_plain (hms : List Nat) (h : hms.length = 6 ∧ IsDigits hms) :
    decodeTime (foldWrite setHex 1 (digitChars hms) ggaScratch0.rawTime)
      = (natOfDigits hms : ℚ) := by
  obtain ⟨hl, hd⟩ := h
  rcases hms with _ | ⟨a, _ | ⟨b, _ | ⟨c, _ | ⟨d, _ | ⟨e, _ | ⟨f, _ | _⟩⟩⟩⟩⟩⟩ <;> simp at hl
  simp only [IsDigits, List.mem_cons, List.mem_singleton, forall_eq_or_imp, forall_eq,
    List.not_mem_nil, false_implies, implies_true, and_true] at hd
  simp [foldWrite, setHex, digitChars, ggaScratch0, asciiToHex_digit, decodeTime, natOfDigits,
    hd]
  ring

/-- Time field with a fractional part of up to three digits. -/
theorem decodeTime_field_frac (hms frac : List Nat) (h : hms.length = 6 ∧ IsDigits hms)
    (hfrac : frac.length ≤ 3 ∧ IsDigits frac) :
    decodeTime
        (foldWrite setHex 1 (digitChars hms ++ 0x2E :: digitChars frac) ggaScratch0.rawTime)
      = decimalValue hms frac := by
  obtain ⟨hl, hd⟩ := h
  obtain ⟨hfl, hf⟩ := hfrac
  rcases hms with _ | ⟨a, _ | ⟨b, _ | ⟨c, _ | ⟨d, _ | ⟨e, _ | ⟨f, _ | _⟩⟩⟩⟩⟩⟩ <;> simp at hl
  simp only [IsDigits, List.mem_cons, List.mem_singleton, forall_eq_or_imp, forall_eq,
    List.not_mem_nil, false_implies, implies_true, and_true] at hd
  rcases frac with _ | ⟨x, _ | ⟨y, _ | ⟨z, _ | _⟩⟩⟩ <;> simp at hfl <;>
    simp only [IsDigits, List.mem_cons, List.mem_singleton, forall_eq_or_imp, forall_eq,
      List.not_mem_nil, false_implies, implies_true, and_true] at hf <;>
    simp [foldWrite, setHex, digitChars, ggaScratch0, asciiToHex_digit, asciiToHex_dot,
      decodeTime, natOfDigits, decimalValue, hd, hf] <;>
    ring

/-- Satellite field decoded from the initial `rawSatellites = {0, 0, 10}`. -/
theorem decodeSatellites_field (ds : List Nat)
    (h : 1 ≤ ds.length ∧ ds.length ≤ 2 ∧ IsDigits ds) :
    decodeSatellites (foldWrite setHex 1 (digitChars ds) ggaScratch0.rawSatellites)
      = (natOfDigits ds : Int) := by
  obtain ⟨h1, h2, hd⟩ := h
  rcases ds with _ | ⟨a, _ | ⟨b, _ | _⟩⟩ <;> simp at h1 h2 <;>
    simp only [IsDigits, List.mem_cons, List.mem_singleton, forall_eq_or_imp, forall_eq,
      List.not_mem_nil, false_implies, implies_true, and_true] at hd
  · simp [foldWrite, setHex, digitChars, ggaScratch0, asciiToHex_digit, decodeSatellites,
      natOfDigits, hd]
  · have hb : b ≠ 10 := by omega
    simp [foldWrite, setHex, digitChars, ggaScratch0, asciiToHex_digit, decodeSatellites,
      natOfDigits, hd, hb]
    ring

theorem foldl_digits_lt (ds : List Nat) (n : Nat) (h : IsDigits ds) :
    ds.foldl (fun n d => 10 * n + d) n < (n + 1) * 10 ^ ds.length := by
  induction ds generalizing n with
  | nil => simp
  | cons d ds ih =>
    have hd : d < 10 := h d (by simp)
    have := ih (10 * n + d) (fun x hx => h x (by simp [hx]))
    simp only [List.foldl_cons, List.length_cons]
    calc List.foldl (fun n d => 10 * n + d) (10 * n + d) ds
        < (10 * n + d + 1) * 10 ^ ds.length := this
      _ ≤ (10 * n + 10) * 10 ^ ds.length := Nat.mul_le_mul_right _ (by omega)
      _ = (n + 1) * 10 ^ (ds.length + 1) := by ring

theorem natOfDigits_lt (ds : List Nat) (h : IsDigits ds) :
    natOfDigits ds < 10 ^ ds.length := by
  simpa [natOfDigits] using foldl_digits_lt ds 0 h

/-- The integer part of a decimal numeral is the number its integer digits write. -/
theorem floor_decimalValue (ip fp : List Nat) (h : IsDigits fp) :
    ⌊decimalValue ip fp⌋ = (natOfDigits ip : Int) := by
  have hlt := natOfDigits_lt fp h
  have hpos : (0 : ℚ) < (10 : ℚ) ^ fp.length := by positivity
  have hq : (natOfDigits fp : ℚ) < (10 : ℚ) ^ fp.length := by exact_mod_cast hlt
  rw [Int.floor_eq_iff]
  unfold decimalValue
  constructor
  · have : (0 : ℚ) ≤ (natOfDigits fp : ℚ) / (10 : ℚ) ^ fp.length := by positivity
    push_cast
    linarith
  · have : (natOfDigits fp : ℚ) / (10 : ℚ) ^ fp.length < 1 := by
      rw [div_lt_one hpos]; exact hq
    push_cast
    linarith

theorem truncToInt_decimalValue (ip fp : List Nat) :
    truncToInt (decimalValue ip fp) = ⌊decimalValue ip fp⌋ := by
  have : (0 : ℚ) ≤ decimalValue ip fp := by
    unfold decimalValue; positivity
  simp [truncToInt, this]



theorem scale5_div (a : Nat) :
    a * 100000 / 10 = a * 10000 ∧ a * 100000 / 100 = a * 1000
      ∧ a * 100000 / 1000 = a * 100 ∧ a * 100000 / 10000 = a * 10
      ∧ a * 100000 / 100000 = a := by
  refine ⟨?_, ?_, ?_, ?_, ?_⟩ <;> omega

theorem decodeHeading_field (ip fp : List Nat)
    (hip : 1 ≤ ip.length ∧ ip.length ≤ 3 ∧ IsDigits ip) (hfp : IsDigits fp)
    (htot : ip.length + 1 + fp.length ≤ 5) :
    decodeHeading
        (foldWrite setHex 1 (digitChars ip ++ 0x2E :: digitChars fp) vtgScratch0.rawHeading)
      = ⌊decimalValue ip fp⌋ := by
  rw [← truncToInt_decimalValue]
  simp only [decodeHeading]
  congr 1
  obtain ⟨h1, h2, hi⟩ := hip
  rcases ip with _ | ⟨i1, _ | ⟨i2, _ | ⟨i3, _ | _⟩⟩⟩ <;> simp at h1 h2 <;>
    simp only [IsDigits, List.mem_cons, List.mem_singleton, forall_eq_or_imp, forall_eq,
      List.not_mem_nil, false_implies, implies_true, and_true] at hi <;>
    rcases fp with _ | ⟨a, _ | ⟨b, _ | ⟨c, _ | ⟨d, _ | _⟩⟩⟩⟩ <;>
    simp at htot <;> (try omega) <;>
    simp only [IsDigits, List.mem_cons, List.mem_singleton, forall_eq_or_imp, forall_eq,
      List.not_mem_nil, false_implies, implies_true, and_true] at hfp <;>
    simp [foldWrite, setHex, digitChars, vtgScratch0, asciiToHex_digit, asciiToHex_dot,
      accumulate, accumLoop, List.range', finalMultiplier, divideDown,
      natOfDigits, decimalValue, digit_ne_dot, scale5_div, hi, hfp] <;>
    (try (field_simp; ring))

theorem decodeAltitude_field (ip fp : List Nat)
    (hip : 1 ≤ ip.length ∧ ip.length ≤ 3 ∧ IsDigits ip) (hfp : IsDigits fp)
    (htot : ip.length + 1 + fp.length ≤ 7) :
    decodeAltitude
        (foldWrite setHex 1 (digitChars ip ++ 0x2E :: digitChars fp) ggaScratch0.rawAltitude)
      = ⌊decimalValue ip fp⌋ := by
  rw [← truncToInt_decimalValue]
  simp only [decodeAltitude]
  congr 1
  obtain ⟨h1, h2, hi⟩ := hip
  rcases ip with _ | ⟨i1, _ | ⟨i2, _ | ⟨i3, _ | _⟩⟩⟩ <;> simp at h1 h2 <;>
    simp only [IsDigits, List.mem_cons, List.mem_singleton, forall_eq_or_imp, forall_eq,
      List.not_mem_nil, false_implies, implies_true, and_true] at hi <;>
    rcases fp with _ | ⟨a, _ | ⟨b, _ | ⟨c, _ | ⟨d, _ | ⟨e, _ | ⟨f, _ | _⟩⟩⟩⟩⟩⟩ <;>
    simp at htot <;> (try omega) <;>
    simp only [IsDigits, List.mem_cons, List.mem_singleton, forall_eq_or_imp, forall_eq,
      List.not_mem_nil, false_implies, implies_true, and_true] at hfp <;>
    simp [foldWrite, setHex, digitChars, ggaScratch0, asciiToHex_digit, asciiToHex_dot,
      accumulate, accumLoop, List.range', finalMultiplier, divideDown,
      natOfDigits, decimalValue, digit_ne_dot, scale6_div, hi, hfp] <;>
    (try (field_simp; ring))

/-! ## The sentence decoders -/

theorem parseGGA_eq (st : State) (data : List Nat) (s : GGAScratch)
    (h : fieldWalk storeGGA data 0 0 st.gga = some s) :
    parseGGA st data = some { st with
      gga := s
      gps_data := { st.gps_data with
        utcTime := decodeTime s.rawTime
        latitude := decodeLatitude s.rawLatitude s.latitudeNS
        longitude := decodeLongitude s.rawLongitude s.longitudeEW
        numSatellites := decodeSatellites s.rawSatellites
        altitude := decodeAltitude s.rawAltitude } } := by
  simp only [parseGGA, h]

theorem parseVTG_eq (st : State) (data : List Nat) (s : VTGScratch)
    (h : fieldWalk storeVTG data 0 0 st.vtg = some s) :
    parseVTG st data = some { st with
      vtg := s
      gps_data := { st.gps_data with
        heading := decodeHeading s.rawHeading
        groundSpeed := decodeGroundSpeed s.rawGroundSpeed } } := by
  simp only [parseVTG, h]

/-- Converse of `fieldWalk_total`: a walk that returns has made only allowed stores. -/
theorem fieldWalk_some_ok {σ : Type} (store : Nat → Nat → Nat → σ → Option σ)
    (ok : Nat → Nat → Prop)
    (hfail : ∀ c i ch s, i ≠ 0 → ¬ ok c i → store c i ch s = none) :
    ∀ (data : List Nat) (c i : Nat) (s s1 : σ), fieldWalk store data c i s = some s1 →
      0x2A ∈ data
      ∧ (∀ f, takeField data = some f → ∀ j, i ≤ j → j < i + f.length → j = 0 ∨ ok c j)
      ∧ (∀ k f, fieldAfterComma (k + 1) data = some f → ∀ j, 1 ≤ j → j ≤ f.length →
          ok (c + k + 1) j) := by
  intro data
  induction data with
  | nil => intro c i s s1 h; simp [fieldWalk] at h
  | cons ch rest ih =>
    intro c i s s1 h
    by_cases h1 : ch = 0x2A
    · subst h1
      refine ⟨by simp, ?_, ?_⟩
      · intro f hf j hj1 hj2
        simp [takeField] at hf
        subst hf
        simp at hj2
        omega
      · intro k f hf
        simp [fieldAfterComma] at hf
    · by_cases h2 : ch = 0x2C
      · subst h2
        rw [fieldWalk_cons_comma] at h
        obtain ⟨s2, hs2, hw⟩ := Option.bind_eq_some.mp h
        obtain ⟨hm, hcur, hnext⟩ := ih _ _ _ _ hw
        refine ⟨List.mem_cons_of_mem _ hm, ?_, ?_⟩
        · intro f hf j hj1 hj2
          simp [takeField] at hf
          subst hf
          simp at hj2
          omega
        · intro k f hf j hj1 hj2
          simp only [fieldAfterComma] at hf
          norm_num at hf
          cases k with
          | zero =>
            simp only [fieldAfterComma] at hf
            rcases hcur f hf j hj1 (by omega) with h0 | h0
            · omega
            · simpa using h0
          | succ k =>
            have := hnext k f hf j hj1 hj2
            have e : c + 1 + k + 1 = c + (k + 1) + 1 := by omega
            rwa [e] at this
      · rw [fieldWalk_cons_other store _ _ _ _ _ h1 h2] at h
        obtain ⟨s2, hs2, hw⟩ := Option.bind_eq_some.mp h
        obtain ⟨hm, hcur, hnext⟩ := ih _ _ _ _ hw
        refine ⟨List.mem_cons_of_mem _ hm, ?_, ?_⟩
        · intro f hf j hj1 hj2
          simp only [takeField, h1, h2, or_self, if_false] at hf
          obtain ⟨f1, hf1, rfl⟩ := Option.map_eq_some'.mp hf
          simp only [List.length_cons] at hj2
          by_cases hji : j = i
          · subst hji
            by_cases hj0 : j = 0
            · exact Or.inl hj0
            · right
              by_contra hok
              rw [hfail c j ch s hj0 hok] at hs2
              cases hs2
          · exact hcur f1 hf1 j (by omega) (by omega)
        · intro k f hf j hj1 hj2
          simp only [fieldAfterComma, if_neg h1, if_neg h2] at hf
          exact hnext k f hf j hj1 hj2

theorem storeGGA_fail (c i ch : Nat) (s : GGAScratch) (hi : i ≠ 0) (h : ¬ okGGA c i) :
    storeGGA c i ch s = none := by
  unfold okGGA at h
  unfold storeGGA
  by_cases c1 : c = 1
  · subst c1; simp at h; simp [hi]; omega
  by_cases c2 : c = 2
  · subst c2; simp at h; simp [hi]; omega
  by_cases c4 : c = 4
  · subst c4; simp at h; simp [hi]; omega
  by_cases c7 : c = 7
  · subst c7; simp at h; simp [hi]; omega
  by_cases c9 : c = 9
  · subst c9; simp at h; simp [hi]; omega
  exact absurd ⟨fun e => absurd e c1, fun e => absurd e c2, fun e => absurd e c4,
    fun e => absurd e c7, fun e => absurd e c9⟩ h

theorem storeVTG_fail (c i ch : Nat) (s : VTGScratch) (hi : i ≠ 0) (h : ¬ okVTG c i) :
    storeVTG c i ch s = none := by
  unfold okVTG at h
  unfold storeVTG
  by_cases c1 : c = 1
  · subst c1; simp at h; simp [hi]; omega
  by_cases c7 : c = 7
  · subst c7; simp at h; simp [hi]; omega
  exact absurd ⟨fun e => absurd e c1, fun e => absurd e c7⟩ h

theorem fieldLength_le_of_ok (n w : Nat) (data : List Nat) (P : Nat → Prop)
    (hP : ∀ j, P j → j ≤ w)
    (h : ∀ f, fieldAfterComma n data = some f → ∀ j, 1 ≤ j → j ≤ f.length → P j) :
    fieldLength n data ≤ w := by
  unfold fieldLength
  cases hf : fieldAfterComma n data with
  | none => simp
  | some f =>
    simp only [Option.getD_some]
    by_cases h0 : f.length = 0
    · omega
    · exact hP _ (h f hf f.length (by omega) (le_refl _))

/-- The field walk of `parseGGA` returns exactly on the bodies within the scratch
widths. -/
theorem fieldWalk_storeGGA_isSome_iff (data : List Nat) (s : GGAScratch) :
    (∃ s1, fieldWalk storeGGA data 0 0 s = some s1) ↔ ggaWithinWidths data := by
  constructor
  · rintro ⟨s1, h⟩
    obtain ⟨hm, _, hnext⟩ := fieldWalk_some_ok storeGGA okGGA storeGGA_fail data 0 0 s s1 h
    refine ⟨hm, ?_, ?_, ?_, ?_, ?_⟩
    · exact fieldLength_le_of_ok 1 10 data (fun j => j < 11) (fun j hj => by omega)
        (fun f hf j h1 h2 => (by simpa using hnext 0 f hf j h1 h2 : okGGA 1 j).1 rfl)
    · exact fieldLength_le_of_ok 2 9 data (fun j => j < 10) (fun j hj => by omega)
        (fun f hf j h1 h2 => (by simpa using hnext 1 f hf j h1 h2 : okGGA 2 j).2.1 rfl)
    · exact fieldLength_le_of_ok 4 10 data (fun j => j < 11) (fun j hj => by omega)
        (fun f hf j h1 h2 => (by simpa using hnext 3 f hf j h1 h2 : okGGA 4 j).2.2.1 rfl)
    · exact fieldLength_le_of_ok 7 2 data (fun j => j < 3) (fun j hj => by omega)
        (fun f hf j h1 h2 => (by simpa using hnext 6 f hf j h1 h2 : okGGA 7 j).2.2.2.1 rfl)
    · exact fieldLength_le_of_ok 9 7 data (fun j => j < 8) (fun j hj => by omega)
        (fun f hf j h1 h2 => (by simpa using hnext 8 f hf j h1 h2 : okGGA 9 j).2.2.2.2 rfl)
  · exact fieldWalk_storeGGA_total data s

/-- The field walk of `parseVTG` returns exactly on the bodies within the scratch
widths. -/
theorem fieldWalk_storeVTG_isSome_iff (data : List Nat) (s : VTGScratch) :
    (∃ s1, fieldWalk storeVTG data 0 0 s = some s1) ↔ vtgWithinWidths data := by
  constructor
  · rintro ⟨s1, h⟩
    obtain ⟨hm, _, hnext⟩ := fieldWalk_some_ok storeVTG okVTG storeVTG_fail data 0 0 s s1 h
    refine ⟨hm, ?_, ?_⟩
    · exact fieldLength_le_of_ok 1 5 data (fun j => j < 6) (fun j hj => by omega)
        (fun f hf j h1 h2 => (by simpa using hnext 0 f hf j h1 h2 : okVTG 1 j).1 rfl)
    · exact fieldLength_le_of_ok 7 7 data (fun j => j < 8) (fun j hj => by omega)
        (fun f hf j h1 h2 => (by simpa using hnext 6 f hf j h1 h2 : okVTG 7 j).2 rfl)
  · exact fieldWalk_storeVTG_total data s

/-- Source `parseGGA` returns exactly on the bodies within the scratch widths. -/
theorem parseGGA_isSome_iff (st : State) (data : List Nat) :
    (∃ st1, parseGGA st data = some st1) ↔ ggaWithinWidths data := by
  rw [← fieldWalk_storeGGA_isSome_iff data st.gga]
  constructor
  · rintro ⟨st1, h⟩
    unfold parseGGA at h
    cases hw : fieldWalk storeGGA data 0 0 st.gga with
    | none => simp [hw] at h
    | some s => exact ⟨s, rfl⟩
  · rintro ⟨s, hs⟩
    exact ⟨_, parseGGA_eq st data s hs⟩

/-- Source `parseVTG` returns exactly on the bodies within the scratch widths. -/
theorem parseVTG_isSome_iff (st : State) (data : List Nat) :
    (∃ st1, parseVTG st data = some st1) ↔ vtgWithinWidths data := by
  rw [← fieldWalk_storeVTG_isSome_iff data st.vtg]
  constructor
  · rintro ⟨st1, h⟩
    unfold parseVTG at h
    cases hw : fieldWalk storeVTG data 0 0 st.vtg with
    | none => simp [hw] at h
    | some s => exact ⟨s, rfl⟩
  · rintro ⟨s, hs⟩
    exact ⟨_, parseVTG_eq st data s hs⟩

/-- Claim C3: let `parseGGA` run from freshly initialised scratch variables on a body
that it can decode (the body has its '*' and every stored field has room in its scratch
array). If the latitude field is two degree digits, two minute digits, '.', and one to
four fractional digits, and the longitude field is three degree digits, two minute
digits, '.', and one to four fractional digits, each followed by a one-character
hemisphere field, then the latitude is `DD + MM.MMMM / 60`, negated exactly when the
hemisphere is 'S', and the longitude is `DDD + MM.MMMM / 60`, negated exactly when the
hemisphere is 'W' (over the rationals). -/
theorem parseGGA_latitude_longitude (st : State) (data : List Nat)
    (latDeg latMin latFrac lonDeg lonMin lonFrac : List Nat) (ns ew : Nat)
    (hst : st.gga = ggaScratch0)
    (hfit : ggaWithinWidths data)
    (hlat : fieldAfterComma 2 data
      = some (digitChars latDeg ++ digitChars latMin ++ 0x2E :: digitChars latFrac))
    (hlatDeg : latDeg.length = 2 ∧ IsDigits latDeg)
    (hlatMin : latMin.length = 2 ∧ IsDigits latMin)
    (hlatFrac : 1 ≤ latFrac.length ∧ latFrac.length ≤ 4 ∧ IsDigits latFrac)
    (hns : fieldAfterComma 3 data = some [ns])
    (hlon : fieldAfterComma 4 data
      = some (digitChars lonDeg ++ digitChars lonMin ++ 0x2E :: digitChars lonFrac))
    (hlonDeg : lonDeg.length = 3 ∧ IsDigits lonDeg)
    (hlonMin : lonMin.length = 2 ∧ IsDigits lonMin)
    (hlonFrac : 1 ≤ lonFrac.length ∧ lonFrac.length ≤ 4 ∧ IsDigits lonFrac)
    (hew : fieldAfterComma 5 data = some [ew]) :
    ∃ st1, parseGGA st data = some st1
      ∧ st1.gps_data.latitude
          = (if ns = 0x53 then -1 else 1)
              * ((natOfDigits latDeg : ℚ) + decimalValue latMin latFrac / 60)
      ∧ st1.gps_data.longitude
          = (if ew = 0x57 then -1 else 1)
              * ((natOfDigits lonDeg : ℚ) + decimalValue lonMin lonFrac / 60) := by
  obtain ⟨s, hs⟩ := fieldWalk_storeGGA_total data st.gga hfit
  refine ⟨_, parseGGA_eq st data s hs, ?_, ?_⟩
  · have h2 := fieldWalk_storeGGA_rawLatitude data _ s _ hs hlat
    have h3 := fieldWalk_storeGGA_latitudeNS data _ s _ hs hns
    simp only [h2, h3, hst, foldWrite, setChar]
    exact decodeLatitude_field latDeg latMin latFrac ns hlatDeg hlatMin hlatFrac
  · have h4 := fieldWalk_storeGGA_rawLongitude data _ s _ hs hlon
    have h5 := fieldWalk_storeGGA_longitudeEW data _ s _ hs hew
    simp only [h4, h5, hst, foldWrite, setChar]
    exact decodeLongitude_field lonDeg lonMin lonFrac ew hlonDeg hlonMin hlonFrac

set_option maxRecDepth 4000 in
theorem parseGGA_latitude_longitude_witness :
    ∃ st1, parseGGA initialState
        [71, 78, 71, 71, 65, 44, 49, 50, 51, 53, 49, 57, 44, 52, 56, 48, 55, 46, 48, 51, 56,
         44, 78, 44, 48, 49, 49, 51, 49, 46, 48, 48, 48, 44, 87, 44, 49, 44, 48, 56, 44, 48,
         46, 57, 44, 53, 52, 53, 46, 52, 44, 77, 44, 52, 54, 46, 57, 44, 77, 44, 44, 42]
        = some st1
      ∧ st1.gps_data.latitude = 48 + (7038 / 1000 : ℚ) / 60
      ∧ st1.gps_data.longitude = -(11 + (31 : ℚ) / 60) := by
  obtain ⟨st1, h1, h2, h3⟩ := parseGGA_latitude_longitude initialState
    [71, 78, 71, 71, 65, 44, 49, 50, 51, 53, 49, 57, 44, 52, 56, 48, 55, 46, 48, 51, 56,
     44, 78, 44, 48, 49, 49, 51, 49, 46, 48, 48, 48, 44, 87, 44, 49, 44, 48, 56, 44, 48,
     46, 57, 44, 53, 52, 53, 46, 52, 44, 77, 44, 52, 54, 46, 57, 44, 77, 44, 44, 42]
    [4, 8] [0, 7] [0, 3, 8] [0, 1, 1] [3, 1] [0, 0, 0] 0x4E 0x57
    rfl (by decide) (by decide) (by decide) (by decide) (by decide) (by decide)
    (by decide) (by decide) (by decide) (by decide) (by decide)
  refine ⟨st1, h1, ?_, ?_⟩
  · rw [h2]; norm_num [natOfDigits, decimalValue]
  · rw [h3]; norm_num [natOfDigits, decimalValue]



/-- Claim C4: let `parseVTG` run from all-zero scratch arrays on a body that it can
decode. If the km/h field (after the 7th comma) is one to three integer digits, '.', and
fractional digits, at most six characters in all, then `groundSpeed` is exactly the
decimal value of the field (over the rationals). -/
theorem parseVTG_groundSpeed_exact (st : State) (data : List Nat) (ip fp : List Nat)
    (hst : st.vtg = vtgScratch0)
    (hfit : vtgWithinWidths data)
    (hspeed : fieldAfterComma 7 data = some (digitChars ip ++ 0x2E :: digitChars fp))
    (hip : 1 ≤ ip.length ∧ ip.length ≤ 3 ∧ IsDigits ip) (hfp : IsDigits fp)
    (htot : ip.length + 1 + fp.length ≤ 6) :
    ∃ st1, parseVTG st data = some st1 ∧ st1.gps_data.groundSpeed = decimalValue ip fp := by
  obtain ⟨s, hs⟩ := fieldWalk_storeVTG_total data st.vtg hfit
  refine ⟨_, parseVTG_eq st data s hs, ?_⟩
  have h7 := fieldWalk_storeVTG_rawGroundSpeed data _ s _ hs hspeed
  simp only [h7, hst]
  exact decodeGroundSpeed_field ip fp hip hfp htot

set_option maxRecDepth 4000 in
theorem parseVTG_groundSpeed_exact_witness :
    ∃ st1, parseVTG initialState
        [71, 78, 86, 84, 71, 44, 48, 53, 52, 46, 55, 44, 84, 44, 48, 51, 52, 46, 52, 44,
         77, 44, 48, 48, 53, 46, 53, 44, 78, 44, 49, 48, 46, 50, 53, 44, 75, 42]
        = some st1
      ∧ st1.gps_data.groundSpeed = (1025 : ℚ) / 100 := by
  obtain ⟨st1, h1, h2⟩ := parseVTG_groundSpeed_exact initialState
    [71, 78, 86, 84, 71, 44, 48, 53, 52, 46, 55, 44, 84, 44, 48, 51, 52, 46, 52, 44,
     77, 44, 48, 48, 53, 46, 53, 44, 78, 44, 49, 48, 46, 50, 53, 44, 75, 42]
    [1, 0] [2, 5] rfl (by decide) (by decide) (by decide) (by decide) (by decide)
  refine ⟨st1, h1, ?_⟩
  rw [h2]; norm_num [natOfDigits, decimalValue]

/-- Claim C5: let `parseVTG` run from all-zero scratch arrays on a body that it can
decode. If the true-course field (after the 1st comma) is one to three integer digits,
'.', and fractional digits, at most five characters in all, then `heading` is the integer
part of the field's decimal value, which is the number its integer digits write. -/
theorem parseVTG_heading_truncated (st : State) (data : List Nat) (ip fp : List Nat)
    (hst : st.vtg = vtgScratch0)
    (hfit : vtgWithinWidths data)
    (hcourse : fieldAfterComma 1 data = some (digitChars ip ++ 0x2E :: digitChars fp))
    (hip : 1 ≤ ip.length ∧ ip.length ≤ 3 ∧ IsDigits ip) (hfp : IsDigits fp)
    (htot : ip.length + 1 + fp.length ≤ 5) :
    ∃ st1, parseVTG st data = some st1
      ∧ st1.gps_data.heading = ⌊decimalValue ip fp⌋
      ∧ st1.gps_data.heading = (natOfDigits ip : Int) := by
  obtain ⟨s, hs⟩ := fieldWalk_storeVTG_total data st.vtg hfit
  have h1 := fieldWalk_storeVTG_rawHeading data _ s _ hs hcourse
  have hval : decodeHeading s.rawHeading = ⌊decimalValue ip fp⌋ := by
    simp only [h1, hst]
    exact decodeHeading_field ip fp hip hfp htot
  exact ⟨_, parseVTG_eq st data s hs, hval, hval.trans (floor_decimalValue ip fp hfp)⟩

set_option maxRecDepth 4000 in
theorem parseVTG_heading_truncated_witness :
    ∃ st1, parseVTG initialState
        [71, 78, 86, 84, 71, 44, 48, 53, 52, 46, 55, 44, 84, 44, 48, 51, 52, 46, 52, 44,
         77, 44, 48, 48, 53, 46, 53, 44, 78, 44, 48, 49, 48, 46, 50, 44, 75, 42]
        = some st1
      ∧ st1.gps_data.heading = 54 := by
  obtain ⟨st1, h1, _, h3⟩ := parseVTG_heading_truncated initialState
    [71, 78, 86, 84, 71, 44, 48, 53, 52, 46, 55, 44, 84, 44, 48, 51, 52, 46, 52, 44,
     77, 44, 48, 48, 53, 46, 53, 44, 78, 44, 48, 49, 48, 46, 50, 44, 75, 42]
    [0, 5, 4] [7] rfl (by decide) (by decide) (by decide) (by decide) (by decide)
  exact ⟨st1, h1, by rw [h3]; decide⟩

/-- Claim C6: let `parseGGA` run from freshly initialised scratch variables on a body
that it can decode. If the altitude field (after the 9th comma) is one to three integer
digits, '.', and fractional digits, at most seven characters in all, then `altitude` is
the integer part of the field's decimal value, which is the number its integer digits
write. -/
theorem parseGGA_altitude_truncated (st : State) (data : List Nat) (ip fp : List Nat)
    (hst : st.gga = ggaScratch0)
    (hfit : ggaWithinWidths data)
    (halt : fieldAfterComma 9 data = some (digitChars ip ++ 0x2E :: digitChars fp))
    (hip : 1 ≤ ip.length ∧ ip.length ≤ 3 ∧ IsDigits ip) (hfp : IsDigits fp)
    (htot : ip.length + 1 + fp.length ≤ 7) :
    ∃ st1, parseGGA st data = some st1
      ∧ st1.gps_data.altitude = ⌊decimalValue ip fp⌋
      ∧ st1.gps_data.altitude = (natOfDigits ip : Int) := by
  obtain ⟨s, hs⟩ := fieldWalk_storeGGA_total data st.gga hfit
  have h9 := fieldWalk_storeGGA_rawAltitude data _ s _ hs halt
  have hval : decodeAltitude s.rawAltitude = ⌊decimalValue ip fp⌋ := by
    simp only [h9, hst]
    exact decodeAltitude_field ip fp hip hfp htot
  exact ⟨_, parseGGA_eq st data s hs, hval, hval.trans (floor_decimalValue ip fp hfp)⟩

set_option maxRecDepth 4000 in
theorem parseGGA_altitude_truncated_witness :
    ∃ st1, parseGGA initialState
        [71, 78, 71, 71, 65, 44, 49, 50, 51, 53, 49, 57, 44, 52, 56, 48, 55, 46, 48, 51,
         56, 44, 78, 44, 48, 49, 49, 51, 49, 46, 48, 48, 48, 44, 87, 44, 49, 44, 48, 56,
         44, 48, 46, 57, 44, 53, 52, 53, 46, 52, 44, 77, 44, 52, 54, 46, 57, 44, 77, 44,
         44, 42]
        = some st1
      ∧ st1.gps_data.altitude = 545 := by
  obtain ⟨st1, h1, _, h3⟩ := parseGGA_altitude_truncated initialState
    [71, 78, 71, 71, 65, 44, 49, 50, 51, 53, 49, 57, 44, 52, 56, 48, 55, 46, 48, 51,
     56, 44, 78, 44, 48, 49, 49, 51, 49, 46, 48, 48, 48, 44, 87, 44, 49, 44, 48, 56,
     44, 48, 46, 57, 44, 53, 52, 53, 46, 52, 44, 77, 44, 52, 54, 46, 57, 44, 77, 44,
     44, 42]
    [5, 4, 5] [4] rfl (by decide) (by decide) (by decide) (by decide) (by decide)
  exact ⟨st1, h1, by rw [h3]; decide⟩

set_option maxRecDepth 4000 in
/-- Claim C7, evaluated on the code: after a sentence whose satellite field is `12`, a
sentence whose satellite field is `8` leaves `numSatellites` at 82. The second digit of
the earlier sentence stays in `rawSatellites[2]`, whose initial value 10 was the mark of
a one-digit field. -/
theorem parseGGA_satellites_stale_digit :
    ∃ st1 st2,
      parseGGA initialState
        [71, 78, 71, 71, 65, 44, 49, 50, 51, 53, 49, 57, 44, 52, 56, 48, 55, 46, 48, 51,
         56, 44, 78, 44, 48, 49, 49, 51, 49, 46, 48, 48, 48, 44, 69, 44, 49, 44, 49, 50,
         44, 48, 46, 57, 44, 53, 52, 53, 46, 52, 44, 77, 44, 52, 54, 46, 57, 44, 77, 44,
         44, 42]
        = some st1
      ∧ st1.gps_data.numSatellites = 12
      ∧ parseGGA st1
        [71, 78, 71, 71, 65, 44, 49, 50, 51, 53, 50, 48, 44, 52, 56, 48, 55, 46, 48, 51,
         56, 44, 78, 44, 48, 49, 49, 51, 49, 46, 48, 48, 48, 44, 69, 44, 49, 44, 56, 44,
         48, 46, 57, 44, 53, 52, 53, 46, 52, 44, 77, 44, 52, 54, 46, 57, 44, 77, 44, 44, 42]
        = some st2
      ∧ st2.gps_data.numSatellites = 82 := by
  obtain ⟨s1, hs1⟩ := fieldWalk_storeGGA_total
    [71, 78, 71, 71, 65, 44, 49, 50, 51, 53, 49, 57, 44, 52, 56, 48, 55, 46, 48, 51,
     56, 44, 78, 44, 48, 49, 49, 51, 49, 46, 48, 48, 48, 44, 69, 44, 49, 44, 49, 50,
     44, 48, 46, 57, 44, 53, 52, 53, 46, 52, 44, 77, 44, 52, 54, 46, 57, 44, 77, 44,
     44, 42]
    initialState.gga (by decide)
  have r1 := fieldWalk_storeGGA_rawSatellites _ _ s1 [49, 50] hs1 (by decide)
  have e1 := parseGGA_eq initialState _ s1 hs1
  obtain ⟨s2, hs2⟩ := fieldWalk_storeGGA_total
    [71, 78, 71, 71, 65, 44, 49, 50, 51, 53, 50, 48, 44, 52, 56, 48, 55, 46, 48, 51,
     56, 44, 78, 44, 48, 49, 49, 51, 49, 46, 48, 48, 48, 44, 69, 44, 49, 44, 56, 44,
     48, 46, 57, 44, 53, 52, 53, 46, 52, 44, 77, 44, 52, 54, 46, 57, 44, 77, 44, 44, 42]
    s1 (by decide)
  have r2 := fieldWalk_storeGGA_rawSatellites _ _ s2 [56] hs2 (by decide)
  refine ⟨_, _, e1, ?_, parseGGA_eq _ _ s2 hs2, ?_⟩
  · show decodeSatellites s1.rawSatellites = 12
    rw [r1]; decide
  · show decodeSatellites s2.rawSatellites = 82
    rw [r2, r1]; decide

/-! ## One pass of `parseIncomingGPSData` -/

/-- The walk reads nothing past the '*' it stops at. -/
theorem fieldWalk_append_of_some {σ : Type} (store : Nat → Nat → Nat → σ → Option σ)
    (tail : List Nat) :
    ∀ (data : List Nat) (c i : Nat) (s s1 : σ),
      fieldWalk store data c i s = some s1 → fieldWalk store (data ++ tail) c i s = some s1 := by
  intro data
  induction data with
  | nil => intro c i s s1 h; simp [fieldWalk] at h
  | cons ch rest ih =>
    intro c i s s1 h
    by_cases h1 : ch = 0x2A
    · subst h1
      rw [fieldWalk_cons_star] at h
      rw [List.cons_append, fieldWalk_cons_star, h]
    · by_cases h2 : ch = 0x2C
      · subst h2
        rw [fieldWalk_cons_comma] at h
        obtain ⟨s2, hs2, hw⟩ := Option.bind_eq_some.mp h
        rw [List.cons_append, fieldWalk_cons_comma, hs2]
        exact ih _ _ _ _ hw
      · rw [fieldWalk_cons_other store _ _ _ _ _ h1 h2] at h
        obtain ⟨s2, hs2, hw⟩ := Option.bind_eq_some.mp h
        rw [List.cons_append, fieldWalk_cons_other store _ _ _ _ _ h1 h2, hs2]
        exact ih _ _ _ _ hw

/-- The position block on a staged sentence that carries its correct checksum. -/
theorem processGGA_valid (st : State) (body rest : List Nat) (s : GGAScratch)
    (hnew : st.new_gga_data = true)
    (hbuf : st.gga_buffer
      = body ++ 0x2A :: upperHexDigit (xorBytes body / 16)
          :: upperHexDigit (xorBytes body % 16) :: rest)
    (hbytes : ∀ b ∈ body, b < 256 ∧ b ≠ 0x2A)
    (hwalk : fieldWalk storeGGA (body ++ [0x2A]) 0 0 st.gga = some s) :
    processGGA st = some { st with
      new_gga_data := false
      data_available := true
      gga := s
      gps_data := { st.gps_data with
        utcTime := decodeTime s.rawTime
        latitude := decodeLatitude s.rawLatitude s.latitudeNS
        longitude := decodeLongitude s.rawLongitude s.longitudeEW
        numSatellites := decodeSatellites s.rawSatellites
        altitude := decodeAltitude s.rawAltitude } } := by
  have hcs : isNMEAChecksumValid st.gga_buffer = some true := by
    rw [hbuf, isNMEAChecksumValid_append body _ _ rest hbytes]
    simp
  have hw2 : fieldWalk storeGGA st.gga_buffer 0 0 st.gga = some s := by
    have := fieldWalk_append_of_some storeGGA
      (upperHexDigit (xorBytes body / 16) :: upperHexDigit (xorBytes body % 16) :: rest)
      _ _ _ _ _ hwalk
    rw [hbuf]
    simpa using this
  unfold processGGA
  simp only [hnew, if_true, hcs, parseGGA, hw2]

/-- The velocity block on a staged sentence that carries its correct checksum. -/
theorem processVTG_valid (st : State) (body rest : List Nat) (s : VTGScratch)
    (hnew : st.new_vtg_data = true)
    (hbuf : st.vtg_buffer
      = body ++ 0x2A :: upperHexDigit (xorBytes body / 16)
          :: upperHexDigit (xorBytes body % 16) :: rest)
    (hbytes : ∀ b ∈ body, b < 256 ∧ b ≠ 0x2A)
    (hwalk : fieldWalk storeVTG (body ++ [0x2A]) 0 0 st.vtg = some s) :
    processVTG st = some { st with
      new_vtg_data := false
      data_available := true
      vtg := s
      gps_data := { st.gps_data with
        heading := decodeHeading s.rawHeading
        groundSpeed := decodeGroundSpeed s.rawGroundSpeed } } := by
  have hcs : isNMEAChecksumValid st.vtg_buffer = some true := by
    rw [hbuf, isNMEAChecksumValid_append body _ _ rest hbytes]
    simp
  have hw2 : fieldWalk storeVTG st.vtg_buffer 0 0 st.vtg = some s := by
    have := fieldWalk_append_of_some storeVTG
      (upperHexDigit (xorBytes body / 16) :: upperHexDigit (xorBytes body % 16) :: rest)
      _ _ _ _ _ hwalk
    rw [hbuf]
    simpa using this
  unfold processVTG
  simp only [hnew, if_true, hcs, parseVTG, hw2]

theorem upperHexDigit_ne (n : Nat) : upperHexDigit n ≠ 0x24 ∧ upperHexDigit n ≠ 0x0D := by
  by_cases h : n < 16
  · interval_cases n <;> decide
  · have : upperHexDigit n = 0 := by
      unfold upperHexDigit
      exact List.getD_eq_default _ _ (by simp; omega)
    rw [this]; decide

/-- What the scan loop leaves behind for a block with a position frame and a velocity
frame. -/
theorem scanBlock_twoFrameBlock (st : State) (G noise V padding : List Nat)
    (hbuf : st.uart_buffer.length = GPS_UART_BUFFER_SIZE)
    (hblock : (twoFrameBlock G noise V padding).length ≤ GPS_UART_BUFFER_SIZE)
    (hG : G.take 5 = GPS_GGA_MESSAGE) (hV : V.take 5 = GPS_VTG_MESSAGE)
    (hGc : ∀ c ∈ G, c ≠ 0x24 ∧ c ≠ 0x0D) (hVc : ∀ c ∈ V, c ≠ 0x24 ∧ c ≠ 0x0D)
    (hnoise : ∀ c ∈ noise, c ≠ 0x24) (hpad : ∀ c ∈ padding, c ≠ 0x24) :
    ∃ restG restV,
      (scanBlock st (twoFrameBlock G noise V padding)).gga_buffer = G ++ restG
      ∧ (scanBlock st (twoFrameBlock G noise V padding)).vtg_buffer = V ++ restV
      ∧ (scanBlock st (twoFrameBlock G noise V padding)).new_gga_data = true
      ∧ (scanBlock st (twoFrameBlock G noise V padding)).new_vtg_data = true
      ∧ (scanBlock st (twoFrameBlock G noise V padding)).gga = st.gga
      ∧ (scanBlock st (twoFrameBlock G noise V padding)).vtg = st.vtg := by
  simp only [twoFrameBlock, List.length_cons, List.length_append] at hblock
  have hGlen : G.length < GPS_UART_BUFFER_SIZE := by omega
  have hVlen : V.length < GPS_UART_BUFFER_SIZE := by omega
  have hl1 : G.length ≤ st.uart_buffer.length := by omega
  have hu1 : (writeAt st.uart_buffer 0 G).length = GPS_UART_BUFFER_SIZE := by
    rw [writeAt_length, hbuf]
  have hl2 : V.length ≤ (writeAt st.uart_buffer 0 G).length := by omega
  unfold twoFrameBlock
  rw [scanBlock_two_frames st G noise V padding hbuf hGlen hVlen hG hV hGc hVc hnoise hpad,
    afterFrame_gga st G hG hl1, afterFrame_vtg _ V hV (by simp only [hu1]; omega)]
  refine ⟨st.uart_buffer.drop G.length, (writeAt st.uart_buffer 0 G).drop V.length,
    ?_, ?_, rfl, rfl, rfl, rfl⟩
  · show writeAt st.uart_buffer 0 G = _
    rw [writeAt_eq G _ 0 (by omega)]; simp
  · show writeAt (writeAt st.uart_buffer 0 G) 0 V = _
    rw [writeAt_eq V _ 0 (by omega)]; simp

theorem withChecksum_take5 (body lit : List Nat) (h : body.take 5 = lit)
    (hl : lit.length = 5) : (withChecksum body).take 5 = lit := by
  have := length_ge_of_take5 body lit h hl
  unfold withChecksum
  rw [List.take_append_of_le_length this, h]

theorem withChecksum_no_marker (body : List Nat)
    (h : ∀ c ∈ body, c < 256 ∧ c ≠ 0x2A ∧ c ≠ 0x24 ∧ c ≠ 0x0D) :
    ∀ c ∈ withChecksum body, c ≠ 0x24 ∧ c ≠ 0x0D := by
  intro c hc
  simp only [withChecksum, List.mem_append, List.mem_cons, List.mem_singleton,
    List.not_mem_nil, or_false] at hc
  rcases hc with hc | rfl | rfl | rfl
  · exact ⟨(h c hc).2.2.1, (h c hc).2.2.2⟩
  · decide
  · exact upperHexDigit_ne _
  · exact upperHexDigit_ne _

/-- One call of `parseIncomingGPSData` on a block that holds a position frame and a
velocity frame, both with their correct checksum, whose field walks succeed. -/
theorem parseIncomingGPSData_two_frames (st : State) (gbody vbody noise padding : List Nat)
    (s1 : GGAScratch) (s2 : VTGScratch)
    (hbuf : st.uart_buffer.length = GPS_UART_BUFFER_SIZE)
    (hblock : (twoFrameBlock (withChecksum gbody) noise (withChecksum vbody) padding).length
      ≤ GPS_UART_BUFFER_SIZE)
    (hg5 : gbody.take 5 = GPS_GGA_MESSAGE) (hv5 : vbody.take 5 = GPS_VTG_MESSAGE)
    (hgb : ∀ c ∈ gbody, c < 256 ∧ c ≠ 0x2A ∧ c ≠ 0x24 ∧ c ≠ 0x0D)
    (hvb : ∀ c ∈ vbody, c < 256 ∧ c ≠ 0x2A ∧ c ≠ 0x24 ∧ c ≠ 0x0D)
    (hnoise : ∀ c ∈ noise, c ≠ 0x24) (hpad : ∀ c ∈ padding, c ≠ 0x24)
    (hw1 : fieldWalk storeGGA (gbody ++ [0x2A]) 0 0 st.gga = some s1)
    (hw2 : fieldWalk storeVTG (vbody ++ [0x2A]) 0 0 st.vtg = some s2) :
    ∃ st1,
      parseIncomingGPSData st
          (twoFrameBlock (withChecksum gbody) noise (withChecksum vbody) padding) = some st1
      ∧ st1.gps_data =
          { utcTime := decodeTime s1.rawTime
            latitude := decodeLatitude s1.rawLatitude s1.latitudeNS
            longitude := decodeLongitude s1.rawLongitude s1.longitudeEW
            altitude := decodeAltitude s1.rawAltitude
            numSatellites := decodeSatellites s1.rawSatellites
            heading := decodeHeading s2.rawHeading
            groundSpeed := decodeGroundSpeed s2.rawGroundSpeed }
      ∧ st1.data_available = true := by
  obtain ⟨restG, restV, e1, e2, e3, e4, e5, e6⟩ :=
    scanBlock_twoFrameBlock st (withChecksum gbody) noise (withChecksum vbody) padding hbuf
      hblock (withChecksum_take5 _ _ hg5 rfl) (withChecksum_take5 _ _ hv5 rfl)
      (withChecksum_no_marker _ hgb) (withChecksum_no_marker _ hvb) hnoise hpad
  unfold parseIncomingGPSData
  generalize scanBlock st (twoFrameBlock (withChecksum gbody) noise (withChecksum vbody) padding)
    = S at e1 e2 e3 e4 e5 e6
  have hG : ∃ S2, processGGA S = some S2 ∧ S2.new_vtg_data = true
      ∧ S2.vtg_buffer = S.vtg_buffer ∧ S2.vtg = S.vtg
      ∧ S2.gps_data = { S.gps_data with
          utcTime := decodeTime s1.rawTime
          latitude := decodeLatitude s1.rawLatitude s1.latitudeNS
          longitude := decodeLongitude s1.rawLongitude s1.longitudeEW
          numSatellites := decodeSatellites s1.rawSatellites
          altitude := decodeAltitude s1.rawAltitude } :=
    ⟨_, processGGA_valid S gbody restG s1 e3
      (by rw [e1]; simp [withChecksum]) (fun b hb => ⟨(hgb b hb).1, (hgb b hb).2.1⟩)
      (by rw [e5]; exact hw1), e4, rfl, rfl, rfl⟩
  obtain ⟨S2, hS2, f1, f2, f3, f4⟩ := hG
  have hV := processVTG_valid S2 vbody restV s2 f1
    (by rw [f2, e2]; simp [withChecksum]) (fun b hb => ⟨(hvb b hb).1, (hvb b hb).2.1⟩)
    (by rw [f3, e6]; exact hw2)
  unfold processStaged
  simp only [e3, e4, Bool.not_true, Bool.and_self, Bool.false_eq_true, if_false, hS2, hV]
  refine ⟨_, rfl, ?_, rfl⟩
  simp only [f4]

theorem mem_append_star (body : List Nat) : 0x2A ∈ body ++ [0x2A] := by simp

theorem length_digitChars (ds : List Nat) : (digitChars ds).length = ds.length := by
  simp [digitChars]

theorem settled_initialState : Settled initialState := by
  have h5 : initialState.uart_buffer.take 5 = [0, 0, 0, 0, 0] := rfl
  refine ⟨rfl, fun h => ?_, fun _ h => ?_⟩
  · rw [h5] at h
    exact absurd h (by decide)
  · rw [h5] at h
    exact absurd h (by decide)

/-- In the initial state the bytes of a block that come before its first '$' are
ignored. -/
theorem parseIncomingGPSData_skips_leading_bytes (pre block : List Nat)
    (hpre : ∀ c ∈ pre, c ≠ 0x24) :
    parseIncomingGPSData initialState (pre ++ block)
      = parseIncomingGPSData initialState block := by
  unfold parseIncomingGPSData
  rw [scanBlock_append, scanBlock_settled pre _ settled_initialState hpre]

/-- Claim C9, as the code has it, arithmetic read as exact rationals: from the initial
state, one call of `parseIncomingGPSData` on a 500-byte block made of bytes other than '$',
a GNGGA frame, bytes other than '$', a GNVTG frame and bytes other than '$', each frame
with its correct checksum and with fields of the formats the decoders read (time `hhmmss`
with at most three fractional digits; latitude `DDMM.M` to `DDMM.MMMM`; longitude
`DDDMM.M` to `DDDMM.MMMM`; one or two satellite digits; altitude, course and km/h speed of
one to three integer digits, a decimal point and fractional digits, within 7, 5 and 6
characters), returns with `utcTime`, `latitude`, `longitude`, `numSatellites` and
`groundSpeed` equal to the values their fields denote and `altitude` and `heading` equal
to the integer parts of theirs; after it `isNewDataAvailable` returns true and then
false. -/
theorem parseIncomingGPSData_end_to_end
    (pre gbody vbody noise padding : List Nat)
    (hms tfrac latDeg latMin latFrac lonDeg lonMin lonFrac sats altInt altFrac : List Nat)
    (courseInt courseFrac speedInt speedFrac : List Nat) (ns ew : Nat)
    (hblock :
      (pre ++ twoFrameBlock (withChecksum gbody) noise (withChecksum vbody) padding).length
        = GPS_UART_BUFFER_SIZE)
    (hpre : ∀ c ∈ pre, c ≠ 0x24)
    (hg5 : gbody.take 5 = GPS_GGA_MESSAGE) (hv5 : vbody.take 5 = GPS_VTG_MESSAGE)
    (hgb : ∀ c ∈ gbody, c < 256 ∧ c ≠ 0x2A ∧ c ≠ 0x24 ∧ c ≠ 0x0D)
    (hvb : ∀ c ∈ vbody, c < 256 ∧ c ≠ 0x2A ∧ c ≠ 0x24 ∧ c ≠ 0x0D)
    (hnoise : ∀ c ∈ noise, c ≠ 0x24) (hpad : ∀ c ∈ padding, c ≠ 0x24)
    (htime : fieldAfterComma 1 (gbody ++ [0x2A])
        = some (digitChars hms ++ 0x2E :: digitChars tfrac)
      ∨ (tfrac = [] ∧ fieldAfterComma 1 (gbody ++ [0x2A]) = some (digitChars hms)))
    (hhms : hms.length = 6 ∧ IsDigits hms) (htfrac : tfrac.length ≤ 3 ∧ IsDigits tfrac)
    (hlat : fieldAfterComma 2 (gbody ++ [0x2A])
      = some (digitChars latDeg ++ digitChars latMin ++ 0x2E :: digitChars latFrac))
    (hlatDeg : latDeg.length = 2 ∧ IsDigits latDeg)
    (hlatMin : latMin.length = 2 ∧ IsDigits latMin)
    (hlatFrac : 1 ≤ latFrac.length ∧ latFrac.length ≤ 4 ∧ IsDigits latFrac)
    (hns : fieldAfterComma 3 (gbody ++ [0x2A]) = some [ns])
    (hlon : fieldAfterComma 4 (gbody ++ [0x2A])
      = some (digitChars lonDeg ++ digitChars lonMin ++ 0x2E :: digitChars lonFrac))
    (hlonDeg : lonDeg.length = 3 ∧ IsDigits lonDeg)
    (hlonMin : lonMin.length = 2 ∧ IsDigits lonMin)
    (hlonFrac : 1 ≤ lonFrac.length ∧ lonFrac.length ≤ 4 ∧ IsDigits lonFrac)
    (hew : fieldAfterComma 5 (gbody ++ [0x2A]) = some [ew])
    (hsats : fieldAfterComma 7 (gbody ++ [0x2A]) = some (digitChars sats))
    (hsatsd : 1 ≤ sats.length ∧ sats.length ≤ 2 ∧ IsDigits sats)
    (halt : fieldAfterComma 9 (gbody ++ [0x2A])
      = some (digitChars altInt ++ 0x2E :: digitChars altFrac))
    (haltInt : 1 ≤ altInt.length ∧ altInt.length ≤ 3 ∧ IsDigits altInt)
    (haltFrac : IsDigits altFrac) (haltLen : altInt.length + 1 + altFrac.length ≤ 7)
    (hcourse : fieldAfterComma 1 (vbody ++ [0x2A])
      = some (digitChars courseInt ++ 0x2E :: digitChars courseFrac))
    (hcourseInt : 1 ≤ courseInt.length ∧ courseInt.length ≤ 3 ∧ IsDigits courseInt)
    (hcourseFrac : IsDigits courseFrac)
    (hcourseLen : courseInt.length + 1 + courseFrac.length ≤ 5)
    (hspeed : fieldAfterComma 7 (vbody ++ [0x2A])
      = some (digitChars speedInt ++ 0x2E :: digitChars speedFrac))
    (hspeedInt : 1 ≤ speedInt.length ∧ speedInt.length ≤ 3 ∧ IsDigits speedInt)
    (hspeedFrac : IsDigits speedFrac)
    (hspeedLen : speedInt.length + 1 + speedFrac.length ≤ 6) :
    ∃ st1,
      parseIncomingGPSData initialState
          (pre ++ twoFrameBlock (withChecksum gbody) noise (withChecksum vbody) padding)
        = some st1
      ∧ st1.gps_data =
          { utcTime := decimalValue hms tfrac
            latitude := (if ns = 0x53 then -1 else 1)
              * ((natOfDigits latDeg : ℚ) + decimalValue latMin latFrac / 60)
            longitude := (if ew = 0x57 then -1 else 1)
              * ((natOfDigits lonDeg : ℚ) + decimalValue lonMin lonFrac / 60)
            altitude := ⌊decimalValue altInt altFrac⌋
            numSatellites := (natOfDigits sats : Int)
            heading := ⌊decimalValue courseInt courseFrac⌋
            groundSpeed := decimalValue speedInt speedFrac }
      ∧ (isNewDataAvailable st1).1 = true
      ∧ (isNewDataAvailable (isNewDataAvailable st1).2).1 = false := by
  have htl : fieldLength 1 (gbody ++ [0x2A]) ≤ 10 := by
    rcases htime with h | ⟨_, h⟩ <;> rw [fieldLength_eq _ _ _ h] <;>
      simp [length_digitChars] <;> omega
  have hgfit : ggaWithinWidths (gbody ++ [0x2A]) := by
    refine ⟨mem_append_star _, htl, ?_, ?_, ?_, ?_⟩
    · rw [fieldLength_eq _ _ _ hlat]; simp [length_digitChars]; omega
    · rw [fieldLength_eq _ _ _ hlon]; simp [length_digitChars]; omega
    · rw [fieldLength_eq _ _ _ hsats]; simp [length_digitChars]; omega
    · rw [fieldLength_eq _ _ _ halt]; simp [length_digitChars]; omega
  have hvfit : vtgWithinWidths (vbody ++ [0x2A]) := by
    refine ⟨mem_append_star _, ?_, ?_⟩
    · rw [fieldLength_eq _ _ _ hcourse]; simp [length_digitChars]; omega
    · rw [fieldLength_eq _ _ _ hspeed]; simp [length_digitChars]; omega
  obtain ⟨s1, hs1⟩ := fieldWalk_storeGGA_total _ initialState.gga hgfit
  obtain ⟨s2, hs2⟩ := fieldWalk_storeVTG_total _ initialState.vtg hvfit
  have hblock2 : (twoFrameBlock (withChecksum gbody) noise (withChecksum vbody)
      padding).length ≤ GPS_UART_BUFFER_SIZE := by
    rw [List.length_append] at hblock
    omega
  obtain ⟨st1, h1, h2, h3⟩ := parseIncomingGPSData_two_frames initialState gbody vbody noise
    padding s1 s2 (by simp [initialState]) hblock2 hg5 hv5 hgb hvb hnoise hpad hs1 hs2
  rw [parseIncomingGPSData_skips_leading_bytes pre _ hpre]
  have g0 : initialState.gga = ggaScratch0 := rfl
  have v0 : initialState.vtg = vtgScratch0 := rfl
  have t1 : decodeTime s1.rawTime = decimalValue hms tfrac := by
    rcases htime with h | ⟨h0, h⟩
    · rw [fieldWalk_storeGGA_rawTime _ _ s1 _ hs1 h, g0]
      exact decodeTime_field_frac hms tfrac hhms htfrac
    · rw [fieldWalk_storeGGA_rawTime _ _ s1 _ hs1 h, g0, decodeTime_field_plain hms hhms, h0]
      simp [decimalValue, natOfDigits]
  have t2 : decodeLatitude s1.rawLatitude s1.latitudeNS
      = (if ns = 0x53 then -1 else 1)
          * ((natOfDigits latDeg : ℚ) + decimalValue latMin latFrac / 60) := by
    rw [fieldWalk_storeGGA_rawLatitude _ _ s1 _ hs1 hlat,
      fieldWalk_storeGGA_latitudeNS _ _ s1 _ hs1 hns, g0]
    exact decodeLatitude_field latDeg latMin latFrac ns hlatDeg hlatMin hlatFrac
  have t3 : decodeLongitude s1.rawLongitude s1.longitudeEW
      = (if ew = 0x57 then -1 else 1)
          * ((natOfDigits lonDeg : ℚ) + decimalValue lonMin lonFrac / 60) := by
    rw [fieldWalk_storeGGA_rawLongitude _ _ s1 _ hs1 hlon,
      fieldWalk_storeGGA_longitudeEW _ _ s1 _ hs1 hew, g0]
    exact decodeLongitude_field lonDeg lonMin lonFrac ew hlonDeg hlonMin hlonFrac
  have t4 : decodeAltitude s1.rawAltitude = ⌊decimalValue altInt altFrac⌋ := by
    rw [fieldWalk_storeGGA_rawAltitude _ _ s1 _ hs1 halt, g0]
    exact decodeAltitude_field altInt altFrac haltInt haltFrac haltLen
  have t5 : decodeSatellites s1.rawSatellites = (natOfDigits sats : Int) := by
    rw [fieldWalk_storeGGA_rawSatellites _ _ s1 _ hs1 hsats, g0]
    exact decodeSatellites_field sats hsatsd
  have t6 : decodeHeading s2.rawHeading = ⌊decimalValue courseInt courseFrac⌋ := by
    rw [fieldWalk_storeVTG_rawHeading _ _ s2 _ hs2 hcourse, v0]
    exact decodeHeading_field courseInt courseFrac hcourseInt hcourseFrac hcourseLen
  have t7 : decodeGroundSpeed s2.rawGroundSpeed = decimalValue speedInt speedFrac := by
    rw [fieldWalk_storeVTG_rawGroundSpeed _ _ s2 _ hs2 hspeed, v0]
    exact decodeGroundSpeed_field speedInt speedFrac hspeedInt hspeedFrac hspeedLen
  refine ⟨st1, h1, ?_, ?_, ?_⟩
  · rw [h2, t1, t2, t3, t4, t5, t6, t7]
  · simp [isNewDataAvailable, h3]
  · simp [isNewDataAvailable, h3]

theorem sampleBlock_length : sampleBlock.length = GPS_UART_BUFFER_SIZE := by
  simp only [sampleBlock, twoFrameBlock, withChecksum, sampleGGA, sampleVTG,
    GPS_UART_BUFFER_SIZE, List.length_cons, List.length_append, List.length_replicate,
    List.length_nil]

theorem padding_no_dollar (n : Nat) : ∀ c ∈ 0x0A :: List.replicate n 0, c ≠ 0x24 := by
  intro c hc
  simp only [List.mem_cons, List.mem_replicate] at hc
  rcases hc with rfl | ⟨_, rfl⟩ <;> decide

theorem shiftedBlock_length : shiftedBlock.length = GPS_UART_BUFFER_SIZE := by
  simp only [shiftedBlock, twoFrameBlock, withChecksum, sampleGGA, sampleVTG,
    GPS_UART_BUFFER_SIZE, List.length_cons, List.length_append, List.length_replicate,
    List.length_nil]

set_option maxRecDepth 8000 in
theorem parseIncomingGPSData_end_to_end_witness :
    ∃ st1, parseIncomingGPSData initialState shiftedBlock = some st1
      ∧ st1.gps_data =
          { utcTime := 123519
            latitude := 48 + (7038 / 1000 : ℚ) / 60
            longitude := 11 + (31 : ℚ) / 60
            altitude := 545
            numSatellites := 8
            heading := 54
            groundSpeed := (102 : ℚ) / 10 }
      ∧ (isNewDataAvailable st1).1 = true
      ∧ (isNewDataAvailable (isNewDataAvailable st1).2).1 = false := by
  obtain ⟨st1, h1, h2, h3, h4⟩ := parseIncomingGPSData_end_to_end [0x0D, 0x0A] sampleGGA
    sampleVTG [0x0A] (0x0A :: List.replicate 388 0)
    [1, 2, 3, 5, 1, 9] [] [4, 8] [0, 7] [0, 3, 8] [0, 1, 1] [3, 1] [0, 0, 0] [0, 8] [5, 4, 5] [4]
    [0, 5, 4] [7] [0, 1, 0] [2] 0x4E 0x45
    shiftedBlock_length (by decide) (by decide) (by decide) (by decide) (by decide) (by decide)
    (padding_no_dollar 388) (Or.inr ⟨rfl, by decide⟩) (by decide) (by decide)
    (by decide) (by decide) (by decide) (by decide) (by decide)
    (by decide) (by decide) (by decide) (by decide) (by decide)
    (by decide) (by decide) (by decide) (by decide) (by decide)
    (by decide) (by decide) (by decide) (by decide) (by decide)
    (by decide) (by decide) (by decide) (by decide)
  refine ⟨st1, h1, ?_, h3, h4⟩
  rw [h2, floor_decimalValue _ _ (by decide), floor_decimalValue _ _ (by decide)]
  simp only [GPSData.mk.injEq]
  refine ⟨?_, ?_, ?_, ?_, ?_, ?_, ?_⟩ <;> norm_num [natOfDigits, decimalValue]

/-- Claim C8: for every state whose accumulation buffer has its 500 bytes and every
500-byte block '$' `G` CR `noise` '$' `V` CR `padding` in which `G` starts with "GNGGA",
`V` starts with "GNVTG", neither holds '$' or CR, and `noise` and `padding` hold no '$':
after the scan loop both new-data flags are set, `gga_buffer` starts with the bytes of
`G` and `vtg_buffer` starts with the bytes of `V`. -/
theorem scan_stages_position_then_velocity (st : State) (G noise V padding : List Nat)
    (hbuf : st.uart_buffer.length = GPS_UART_BUFFER_SIZE)
    (hblock : (twoFrameBlock G noise V padding).length = GPS_UART_BUFFER_SIZE)
    (hG : G.take 5 = GPS_GGA_MESSAGE) (hV : V.take 5 = GPS_VTG_MESSAGE)
    (hGc : ∀ c ∈ G, c ≠ 0x24 ∧ c ≠ 0x0D) (hVc : ∀ c ∈ V, c ≠ 0x24 ∧ c ≠ 0x0D)
    (hnoise : ∀ c ∈ noise, c ≠ 0x24) (hpad : ∀ c ∈ padding, c ≠ 0x24) :
    (scanBlock st (twoFrameBlock G noise V padding)).new_gga_data = true
      ∧ (scanBlock st (twoFrameBlock G noise V padding)).new_vtg_data = true
      ∧ (scanBlock st (twoFrameBlock G noise V padding)).gga_buffer.take G.length = G
      ∧ (scanBlock st (twoFrameBlock G noise V padding)).vtg_buffer.take V.length = V := by
  obtain ⟨restG, restV, e1, e2, e3, e4, _, _⟩ :=
    scanBlock_twoFrameBlock st G noise V padding hbuf (le_of_eq hblock) hG hV hGc hVc hnoise
      hpad
  refine ⟨e3, e4, ?_, ?_⟩
  · rw [e1]; simp
  · rw [e2]; simp

theorem initialState_uart_length : initialState.uart_buffer.length = GPS_UART_BUFFER_SIZE := by
  simp [initialState]

set_option maxRecDepth 8000 in
theorem scan_stages_position_then_velocity_witness :
    (scanBlock initialState sampleBlock).new_gga_data = true
      ∧ (scanBlock initialState sampleBlock).new_vtg_data = true
      ∧ (scanBlock initialState sampleBlock).gga_buffer.take (withChecksum sampleGGA).length
          = withChecksum sampleGGA
      ∧ (scanBlock initialState sampleBlock).vtg_buffer.take (withChecksum sampleVTG).length
          = withChecksum sampleVTG :=
  scan_stages_position_then_velocity initialState (withChecksum sampleGGA) [0x0A]
    (withChecksum sampleVTG) (0x0A :: List.replicate 390 0)
    initialState_uart_length sampleBlock_length (by decide) (by decide) (by decide) (by decide)
    (by decide) (padding_no_dollar 390)

/-- The scan of a block that holds a single position frame. -/
theorem scanBlock_one_gga_frame (st : State) (G rest : List Nat)
    (hbuf : st.uart_buffer.length = GPS_UART_BUFFER_SIZE)
    (hGlen : G.length < GPS_UART_BUFFER_SIZE)
    (hG : G.take 5 = GPS_GGA_MESSAGE) (hGc : ∀ c ∈ G, c ≠ 0x24 ∧ c ≠ 0x0D)
    (hrest : ∀ c ∈ rest, c ≠ 0x24) :
    scanBlock st (0x24 :: (G ++ 0x0D :: rest)) =
      { st with uart_buffer := writeAt st.uart_buffer 0 G, buffer_index := G.length,
                gga_buffer := writeAt st.uart_buffer 0 G, new_gga_data := true,
                currently_parsing := false } := by
  have hl1 : G.length ≤ st.uart_buffer.length := by omega
  rw [scanBlock_frame st G _ hGc hGlen,
    scanBlock_settled rest _ (afterFrame_settled st G (Or.inl hG) hl1) hrest,
    afterFrame_gga st G hG hl1]

theorem scanBlock_corruptBlock :
    scanBlock initialState corruptBlock =
      { initialState with
        uart_buffer := writeAt initialState.uart_buffer 0 (sampleGGA ++ [0x2A, 0x34, 0x37])
        buffer_index := (sampleGGA ++ [0x2A, 0x34, 0x37]).length
        gga_buffer := writeAt initialState.uart_buffer 0 (sampleGGA ++ [0x2A, 0x34, 0x37])
        new_gga_data := true
        currently_parsing := false } :=
  scanBlock_one_gga_frame initialState (sampleGGA ++ [0x2A, 0x34, 0x37])
    (0x0A :: List.replicate 432 0) initialState_uart_length (by decide) (by decide)
    (by decide) (padding_no_dollar 432)

theorem corruptBlock_checksum :
    isNMEAChecksumValid (writeAt initialState.uart_buffer 0 (sampleGGA ++ [0x2A, 0x34, 0x37]))
      = some false := by
  rw [writeAt_eq _ _ 0 (by rw [initialState_uart_length]; decide)]
  have e : List.take 0 initialState.uart_buffer ++ (sampleGGA ++ [0x2A, 0x34, 0x37])
      ++ List.drop (0 + (sampleGGA ++ [0x2A, 0x34, 0x37]).length) initialState.uart_buffer
      = sampleGGA ++ 0x2A :: 0x34 :: 0x37
        :: List.drop (0 + (sampleGGA ++ [0x2A, 0x34, 0x37]).length) initialState.uart_buffer := by
    simp
  rw [e, isNMEAChecksumValid_append sampleGGA _ _ _ (by decide)]
  decide

theorem parseIncomingGPSData_failed_checksum_keeps_record_witness :
    ∃ st1, parseIncomingGPSData initialState corruptBlock = some st1
      ∧ st1.gps_data = initialState.gps_data
      ∧ st1.data_available = initialState.data_available :=
  parseIncomingGPSData_failed_checksum_keeps_record initialState corruptBlock
    (by rw [scanBlock_corruptBlock])
    (by rw [scanBlock_corruptBlock]; exact corruptBlock_checksum)
    (by rw [scanBlock_corruptBlock]; intro h; exact absurd h (by decide))

/-! ## Frame of the two decoders -/

/-- Claim C11: `parseGGA` leaves `heading` and `groundSpeed` of the record as they were,
and `parseVTG` leaves `utcTime`, `latitude`, `longitude`, `altitude` and `numSatellites`
as they were, whatever the state and the sentence body; each decoder returns on every
body that has its '*' and whose stored fields have room in the scratch arrays. -/
theorem decoders_leave_other_fields (st : State) (data : List Nat) :
    (∀ st1, parseGGA st data = some st1 →
        st1.gps_data.heading = st.gps_data.heading
        ∧ st1.gps_data.groundSpeed = st.gps_data.groundSpeed)
      ∧ (∀ st1, parseVTG st data = some st1 →
        st1.gps_data.utcTime = st.gps_data.utcTime
        ∧ st1.gps_data.latitude = st.gps_data.latitude
        ∧ st1.gps_data.longitude = st.gps_data.longitude
        ∧ st1.gps_data.altitude = st.gps_data.altitude
        ∧ st1.gps_data.numSatellites = st.gps_data.numSatellites)
      ∧ (ggaWithinWidths data → ∃ st1, parseGGA st data = some st1)
      ∧ (vtgWithinWidths data → ∃ st1, parseVTG st data = some st1) := by
  refine ⟨?_, ?_, (parseGGA_isSome_iff st data).mpr, (parseVTG_isSome_iff st data).mpr⟩
  · intro st1 h
    unfold parseGGA at h
    cases hw : fieldWalk storeGGA data 0 0 st.gga with
    | none => simp [hw] at h
    | some s =>
      simp only [hw, Option.some.injEq] at h
      subst h
      exact ⟨rfl, rfl⟩
  · intro st1 h
    unfold parseVTG at h
    cases hw : fieldWalk storeVTG data 0 0 st.vtg with
    | none => simp [hw] at h
    | some s =>
      simp only [hw, Option.some.injEq] at h
      subst h
      exact ⟨rfl, rfl, rfl, rfl, rfl⟩

set_option maxRecDepth 4000 in
theorem decoders_leave_other_fields_witness :
    (∃ st1, parseGGA initialState (withChecksum sampleGGA) = some st1
        ∧ st1.gps_data.heading = initialState.gps_data.heading
        ∧ st1.gps_data.groundSpeed = initialState.gps_data.groundSpeed)
      ∧ (∃ st1, parseVTG initialState (withChecksum sampleVTG) = some st1
        ∧ st1.gps_data.utcTime = initialState.gps_data.utcTime
        ∧ st1.gps_data.latitude = initialState.gps_data.latitude
        ∧ st1.gps_data.longitude = initialState.gps_data.longitude
        ∧ st1.gps_data.altitude = initialState.gps_data.altitude
        ∧ st1.gps_data.numSatellites = initialState.gps_data.numSatellites) := by
  obtain ⟨g1, _, g3, _⟩ := decoders_leave_other_fields initialState (withChecksum sampleGGA)
  obtain ⟨_, v2, _, v4⟩ := decoders_leave_other_fields initialState (withChecksum sampleVTG)
  obtain ⟨st1, e1⟩ := g3 (by decide)
  obtain ⟨st2, e2⟩ := v4 (by decide)
  exact ⟨⟨st1, e1, g1 st1 e1⟩, ⟨st2, e2, v2 st2 e2⟩⟩

/-! ## The divisor of the rescale blocks -/

/-- The `decimalPoint` left by the accumulation loop is its initial value or one of the
loop indices. -/
theorem accumLoop_decimalPoint (raw : List Nat) (scale : Nat) :
    ∀ (is : List Nat) (acc : ℚ) (m : Nat) (dp : Int),
      (accumLoop raw scale is acc m dp).2 = dp
        ∨ ∃ i ∈ is, (accumLoop raw scale is acc m dp).2 = (i : Int) := by
  intro is
  induction is with
  | nil => intro acc m dp; exact Or.inl rfl
  | cons i rest ih =>
    intro acc m dp
    unfold accumLoop
    split_ifs with h
    · rcases ih acc m (i : Int) with e | ⟨j, hj, e⟩
      · exact Or.inr ⟨i, by simp, e⟩
      · exact Or.inr ⟨j, by simp [hj], e⟩
    · rcases ih (acc + ((raw.getD i 0 * scale / m : Nat) : ℚ)) (m * 10) dp with e | ⟨j, hj, e⟩
      · exact Or.inl e
      · exact Or.inr ⟨j, by simp [hj], e⟩

/-- After `for (i = 1; i < n; i++)` the variable `decimalPoint` is between 0 and
`n - 1`. -/
theorem accumulate_decimalPoint_range (raw : List Nat) (scale n : Nat) :
    0 ≤ (accumulate raw scale n).2 ∧ (accumulate raw scale n).2 ≤ ((n - 1 : Nat) : Int) := by
  unfold accumulate
  rcases accumLoop_decimalPoint raw scale (List.range' 1 (n - 1)) 0 10 0 with e | ⟨i, hi, e⟩
  · rw [e]; exact ⟨le_refl _, by positivity⟩
  · rw [e]
    simp only [List.mem_range'_1] at hi
    constructor
    · positivity
    · have : i ≤ n - 1 := by omega
      exact_mod_cast this

theorem finalMultiplier_heading (dp : Int) (h0 : 0 ≤ dp) (h5 : dp ≤ 5) :
    ∃ e, 1 ≤ e ∧ finalMultiplier 10000 dp = 10 ^ e := by
  interval_cases dp
  · exact ⟨4, by decide, by decide⟩
  · exact ⟨4, by decide, by decide⟩
  · exact ⟨4, by decide, by decide⟩
  · exact ⟨3, by decide, by decide⟩
  · exact ⟨2, by decide, by decide⟩
  · exact ⟨1, by decide, by decide⟩

theorem finalMultiplier_groundSpeed (dp : Int) (h0 : 0 ≤ dp) (h6 : dp ≤ 6) :
    ∃ e, 1 ≤ e ∧ finalMultiplier 100000 dp = 10 ^ e := by
  interval_cases dp
  · exact ⟨5, by decide, by decide⟩
  · exact ⟨5, by decide, by decide⟩
  · exact ⟨5, by decide, by decide⟩
  · exact ⟨4, by decide, by decide⟩
  · exact ⟨3, by decide, by decide⟩
  · exact ⟨2, by decide, by decide⟩
  · exact ⟨1, by decide, by decide⟩

theorem finalMultiplier_altitude (dp : Int) (h0 : 0 ≤ dp) (h7 : dp ≤ 7) :
    ∃ e, finalMultiplier 100000 dp = 10 ^ e := by
  interval_cases dp
  · exact ⟨5, by decide⟩
  · exact ⟨5, by decide⟩
  · exact ⟨5, by decide⟩
  · exact ⟨4, by decide⟩
  · exact ⟨3, by decide⟩
  · exact ⟨2, by decide⟩
  · exact ⟨1, by decide⟩
  · exact ⟨0, by decide⟩

/-- Claim C20: whatever the scratch arrays hold, `decimalPoint` after the accumulation
loop is at most 5, 6 and 7 in the heading, ground speed and altitude blocks, so the
correction loop makes at most 3, 4 and 5 passes, and the divisor `multiplier` it leaves
is a power of ten: at least 10 for heading and ground speed, at least 1 for altitude. -/
theorem rescale_divisor_power_of_ten (rawHeading rawGroundSpeed rawAltitude : List Nat) :
    ((accumulate rawHeading 100000 6).2 ≤ 5
        ∧ ∃ e, 1 ≤ e ∧ finalMultiplier 10000 (accumulate rawHeading 100000 6).2 = 10 ^ e)
      ∧ ((accumulate rawGroundSpeed 1000000 7).2 ≤ 6
        ∧ ∃ e, 1 ≤ e
          ∧ finalMultiplier 100000 (accumulate rawGroundSpeed 1000000 7).2 = 10 ^ e)
      ∧ ((accumulate rawAltitude 1000000 8).2 ≤ 7
        ∧ ∃ e, finalMultiplier 100000 (accumulate rawAltitude 1000000 8).2 = 10 ^ e) := by
  obtain ⟨a0, a1⟩ := accumulate_decimalPoint_range rawHeading 100000 6
  obtain ⟨b0, b1⟩ := accumulate_decimalPoint_range rawGroundSpeed 1000000 7
  obtain ⟨c0, c1⟩ := accumulate_decimalPoint_range rawAltitude 1000000 8
  exact ⟨⟨a1, finalMultiplier_heading _ a0 a1⟩, ⟨b1, finalMultiplier_groundSpeed _ b0 b1⟩,
    ⟨c1, finalMultiplier_altitude _ c0 c1⟩⟩

/-! ## Sentences the source does not guard against -/

/-- Without a '*' in the array the loop of `isNMEAChecksumValid` runs off its end. -/
theorem checksumScan_none_of_no_star (l : List Nat) (c : Nat) (h : 0x2A ∉ l) :
    checksumScan l c = none := by
  induction l generalizing c with
  | nil => rfl
  | cons x xs ih =>
    have hx : x ≠ 0x2A := fun e => h (by simp [e])
    have hxs : 0x2A ∉ xs := fun e => h (by simp [e])
    simp only [checksumScan, if_neg hx]
    exact ih _ hxs

theorem isNMEAChecksumValid_none_of_no_star (l : List Nat) (h : 0x2A ∉ l) :
    isNMEAChecksumValid l = none := by
  simp only [isNMEAChecksumValid, checksumScan_none_of_no_star l 0 h]

theorem scanBlock_truncatedBlock :
    scanBlock initialState truncatedBlock =
      { initialState with
        uart_buffer := writeAt initialState.uart_buffer 0 truncatedGGA
        buffer_index := truncatedGGA.length
        gga_buffer := writeAt initialState.uart_buffer 0 truncatedGGA
        new_gga_data := true
        currently_parsing := false } :=
  scanBlock_one_gga_frame initialState truncatedGGA
    (0x0A :: List.replicate 490 0) initialState_uart_length (by decide) (by decide)
    (by decide) (padding_no_dollar 490)

theorem truncated_buffer_eq :
    writeAt initialState.uart_buffer 0 truncatedGGA
      = truncatedGGA ++ List.replicate 493 0 := by
  rw [writeAt_eq _ _ 0 (by rw [initialState_uart_length]; decide)]
  have hl : truncatedGGA.length = 7 := rfl
  simp only [initialState, GPS_UART_BUFFER_SIZE, List.take_zero, List.nil_append,
    List.drop_replicate, Nat.zero_add, hl]

theorem truncated_buffer_no_star : 0x2A ∉ truncatedGGA ++ List.replicate 493 0 := by
  intro h
  simp only [List.mem_append, List.mem_replicate] at h
  rcases h with h | ⟨_, h⟩
  · revert h; decide
  · cases h

/-- A staged position sentence on which the validator does not return makes the whole
pass not return. -/
theorem processStaged_none_of_gga (st : State) (hnew : st.new_gga_data = true)
    (h : isNMEAChecksumValid st.gga_buffer = none) : processStaged st = none := by
  simp [processStaged, processGGA, hnew, h]

/-- Claim C14, evaluated on the code: the raw block '$' `GNGGA,1` CR LF and zero bytes,
received in the initial state, stages a 500-byte buffer that holds no '*'. On it the loop
of `isNMEAChecksumValid` reads past the end of the array instead of returning false, and
so does the call of `parseIncomingGPSData` that staged it. -/
theorem isNMEAChecksumValid_reads_past_buffer :
    truncatedBlock.length = GPS_UART_BUFFER_SIZE
      ∧ (scanBlock initialState truncatedBlock).new_gga_data = true
      ∧ (scanBlock initialState truncatedBlock).gga_buffer
          = truncatedGGA ++ List.replicate 493 0
      ∧ (truncatedGGA ++ List.replicate 493 0).length = GPS_UART_BUFFER_SIZE
      ∧ 0x2A ∉ truncatedGGA ++ List.replicate 493 0
      ∧ isNMEAChecksumValid (truncatedGGA ++ List.replicate 493 0) = none
      ∧ parseIncomingGPSData initialState truncatedBlock = none := by
  have hlen : truncatedBlock.length = GPS_UART_BUFFER_SIZE := by
    simp only [truncatedBlock, truncatedGGA, GPS_UART_BUFFER_SIZE, List.length_cons,
      List.length_append, List.length_replicate, List.length_nil]
  have hlen2 : (truncatedGGA ++ List.replicate 493 0).length = GPS_UART_BUFFER_SIZE := by
    simp only [truncatedGGA, GPS_UART_BUFFER_SIZE, List.length_cons,
      List.length_append, List.length_replicate, List.length_nil]
  have hnone := isNMEAChecksumValid_none_of_no_star _ truncated_buffer_no_star
  refine ⟨hlen, ?_, ?_, hlen2, truncated_buffer_no_star, hnone, ?_⟩
  · rw [scanBlock_truncatedBlock]
  · rw [scanBlock_truncatedBlock]; exact truncated_buffer_eq
  · unfold parseIncomingGPSData
    apply processStaged_none_of_gga
    · rw [scanBlock_truncatedBlock]
    · rw [scanBlock_truncatedBlock]
      show isNMEAChecksumValid (writeAt initialState.uart_buffer 0 truncatedGGA) = none
      rw [truncated_buffer_eq]; exact hnone

set_option maxRecDepth 4000 in
/-- Claim C18, evaluated on the code: in the position sentence `longFieldsGGA` the latitude
field has ten bytes, so the walk of `parseGGA` stores its last byte at `rawLatitude[10]`,
one past the array; in the velocity sentence `longCourseVTG` the course field has six
bytes, so the walk of `parseVTG` stores at `rawHeading[6]`. Both sentences have their '*'
and their correct checksum. -/
theorem field_walk_writes_past_scratch_array :
    isNMEAChecksumValid (withChecksum longFieldsGGA) = some true
      ∧ fieldAfterComma 2 (withChecksum longFieldsGGA)
          = some [52, 55, 49, 55, 46, 49, 49, 51, 57, 57]
      ∧ (∀ c s, storeGGA 2 10 c s = none)
      ∧ parseGGA initialState (withChecksum longFieldsGGA) = none
      ∧ isNMEAChecksumValid (withChecksum longCourseVTG) = some true
      ∧ fieldAfterComma 1 (withChecksum longCourseVTG) = some [49, 49, 50, 46, 48, 56]
      ∧ (∀ c s, storeVTG 1 6 c s = none)
      ∧ parseVTG initialState (withChecksum longCourseVTG) = none := by
  refine ⟨by decide, by decide, ?_, ?_, by decide, by decide, ?_, ?_⟩
  · intro c s; simp [storeGGA]
  · have h : ¬ ggaWithinWidths (withChecksum longFieldsGGA) := by decide
    cases e : parseGGA initialState (withChecksum longFieldsGGA) with
    | none => rfl
    | some st1 => exact absurd ((parseGGA_isSome_iff _ _).mp ⟨st1, e⟩) h
  · intro c s; simp [storeVTG]
  · have h : ¬ vtgWithinWidths (withChecksum longCourseVTG) := by decide
    cases e : parseVTG initialState (withChecksum longCourseVTG) with
    | none => rfl
    | some st1 => exact absurd ((parseVTG_isSome_iff _ _).mp ⟨st1, e⟩) h

/-! ## Sensitivity of the checksum to a changed byte -/

theorem foldl_xor_eq (l : List Nat) (c : Nat) :
    l.foldl (· ^^^ ·) c = c ^^^ xorBytes l := by
  unfold xorBytes
  induction l generalizing c with
  | nil => simp
  | cons x xs ih =>
    simp only [List.foldl_cons]
    rw [ih (c ^^^ x), ih (0 ^^^ x), Nat.zero_xor, Nat.xor_assoc]

theorem xorBytes_cons (x : Nat) (xs : List Nat) : xorBytes (x :: xs) = x ^^^ xorBytes xs := by
  have := foldl_xor_eq xs (0 ^^^ x)
  simp only [Nat.zero_xor] at this
  simpa [xorBytes] using this

/-- Changing one byte changes the XOR of the list by the XOR of the old and the new
byte. -/
theorem xorBytes_set (l : List Nat) (j b : Nat) (hj : j < l.length) :
    xorBytes (l.set j b) = xorBytes l ^^^ (l[j] ^^^ b) := by
  induction l generalizing j with
  | nil => simp at hj
  | cons x xs ih =>
    cases j with
    | zero =>
      simp only [List.set_cons_zero, xorBytes_cons, List.getElem_cons_zero]
      rw [Nat.xor_comm x (xorBytes xs), Nat.xor_assoc, Nat.xor_cancel_left, Nat.xor_comm]
    | succ j =>
      simp only [List.length_cons, Nat.add_lt_add_iff_right] at hj
      simp only [List.set_cons_succ, xorBytes_cons, List.getElem_cons_succ, ih j hj,
        Nat.xor_assoc]

theorem xorBytes_set_ne (l : List Nat) (j b : Nat) (hj : j < l.length) (hne : l[j] ≠ b) :
    xorBytes (l.set j b) ≠ xorBytes l := by
  rw [xorBytes_set l j b hj]
  intro h
  have h2 : xorBytes l ^^^ (l[j] ^^^ b) = xorBytes l ^^^ 0 := by rw [h, Nat.xor_zero]
  exact hne (Nat.xor_eq_zero.mp (Nat.xor_right_inj.mp h2))

theorem upperHexDigit_injective (m n : Nat) (hm : m < 16) (hn : n < 16)
    (h : upperHexDigit m = upperHexDigit n) : m = n := by
  interval_cases m <;> interval_cases n <;> first | rfl | (exact absurd h (by decide))

theorem xorBytes_lt (l : List Nat) (h : ∀ x ∈ l, x < 256) : xorBytes l < 256 :=
  foldl_xor_lt l 0 (by norm_num) h

/-- A sentence the validator accepts has two bytes after its '*'. -/
theorem isNMEAChecksumValid_true_shape (pre post : List Nat)
    (hpre : ∀ x ∈ pre, x < 256 ∧ x ≠ 0x2A)
    (h : isNMEAChecksumValid (pre ++ 0x2A :: post) = some true) :
    ∃ c1 c2 rest, post = c1 :: c2 :: rest := by
  rcases post with _ | ⟨c1, _ | ⟨c2, rest⟩⟩
  · simp [isNMEAChecksumValid, checksumScan_append pre [] 0 (by norm_num) hpre] at h
  · simp only [isNMEAChecksumValid, checksumScan_append pre [c1] 0 (by norm_num) hpre] at h
    split_ifs at h
    cases h
  · exact ⟨c1, c2, rest, rfl⟩

/-- The amended claim on a sentence split at its first '*'. -/
theorem isNMEAChecksumValid_set_before_star (pre : List Nat) (c1 c2 : Nat) (rest : List Nat)
    (j b : Nat) (hpre : ∀ x ∈ pre, x < 256 ∧ x ≠ 0x2A) (hj : j < pre.length)
    (hb : b < 256) (hbs : b ≠ 0x2A) (hne : pre[j] ≠ b)
    (hvalid : isNMEAChecksumValid (pre ++ 0x2A :: c1 :: c2 :: rest) = some true) :
    isNMEAChecksumValid ((pre ++ 0x2A :: c1 :: c2 :: rest).set j b) = some false := by
  rw [isNMEAChecksumValid_append pre c1 c2 rest hpre] at hvalid
  simp only [Option.some.injEq, decide_eq_true_eq] at hvalid
  obtain ⟨e1, e2⟩ := hvalid
  have hpre2 : ∀ x ∈ pre.set j b, x < 256 ∧ x ≠ 0x2A := by
    intro x hx
    rcases List.mem_or_eq_of_mem_set hx with h | h
    · exact hpre x h
    · rw [h]; exact ⟨hb, hbs⟩
  rw [List.set_append_left j b hj, isNMEAChecksumValid_append _ c1 c2 rest hpre2]
  have hx1 := xorBytes_lt pre (fun x hx => (hpre x hx).1)
  have hx2 := xorBytes_lt (pre.set j b) (fun x hx => (hpre2 x hx).1)
  have hdiff := xorBytes_set_ne pre j b hj hne
  congr 1
  rw [decide_eq_false_iff_not]
  rintro ⟨f1, f2⟩
  have g1 := upperHexDigit_injective _ _ (by omega) (by omega) (e1.symm.trans f1)
  have g2 := upperHexDigit_injective _ _ (Nat.mod_lt _ (by norm_num))
    (Nat.mod_lt _ (by norm_num)) (e2.symm.trans f2)
  apply hdiff
  omega

/-- A list splits at the index of its first '*'. -/
theorem split_at_first_star (s : List Nat) (k : Nat) (hbytes : ∀ x ∈ s, x < 256)
    (hstar : s[k]? = some 0x2A) (hfirst : ∀ i, i < k → s[i]? ≠ some 0x2A) :
    k < s.length ∧ s = s.take k ++ 0x2A :: s.drop (k + 1)
      ∧ (s.take k).length = k ∧ ∀ x ∈ s.take k, x < 256 ∧ x ≠ 0x2A := by
  have hk : k < s.length := by
    by_contra hc
    rw [List.getElem?_eq_none (by omega)] at hstar
    cases hstar
  have hsk : s[k] = 0x2A := by
    rw [List.getElem?_eq_getElem hk] at hstar
    exact Option.some.inj hstar
  refine ⟨hk, ?_, by simp; omega, ?_⟩
  · conv_lhs => rw [← List.take_append_drop k s]
    rw [List.drop_eq_getElem_cons hk, hsk]
  · intro x hx
    refine ⟨hbytes x (List.mem_of_mem_take hx), ?_⟩
    obtain ⟨i, hi, rfl⟩ := List.getElem_of_mem hx
    have hik : i < k := by
      have := List.length_take_le k s
      omega
    intro hEq
    apply hfirst i hik
    rw [List.getElem_take] at hEq
    rw [List.getElem?_eq_getElem (by omega), hEq]

/-- Claim C12, as the code has it: on a sentence body that `isNMEAChecksumValid` accepts,
replacing one byte located before the '*' by a different byte value other than '*' gives
a body that it rejects. -/
theorem checksum_rejects_changed_byte (s : List Nat) (k j b : Nat)
    (hbytes : ∀ x ∈ s, x < 256)
    (hstar : s[k]? = some 0x2A) (hfirst : ∀ i, i < k → s[i]? ≠ some 0x2A)
    (hvalid : isNMEAChecksumValid s = some true)
    (hj : j < k) (hb : b < 256) (hbs : b ≠ 0x2A) (hne : s[j]? ≠ some b) :
    isNMEAChecksumValid (s.set j b) = some false := by
  obtain ⟨hk, hsplit, hlen, hpre⟩ := split_at_first_star s k hbytes hstar hfirst
  rw [hsplit] at hvalid
  obtain ⟨c1, c2, rest, hpost⟩ := isNMEAChecksumValid_true_shape _ _ hpre hvalid
  rw [hpost] at hvalid hsplit
  have hj2 : j < (s.take k).length := by omega
  have hne2 : (s.take k)[j] ≠ b := by
    intro e
    apply hne
    rw [List.getElem_take] at e
    rw [List.getElem?_eq_getElem (by omega), e]
  have := isNMEAChecksumValid_set_before_star (s.take k) c1 c2 rest j b hpre hj2 hb hbs hne2
    hvalid
  rw [← hsplit] at this
  exact this

theorem checksum_rejects_changed_byte_witness :
    isNMEAChecksumValid [0x47, 0x50, 0x2A, 0x31, 0x37, 0x0D] = some true
      ∧ isNMEAChecksumValid ([0x47, 0x50, 0x2A, 0x31, 0x37, 0x0D].set 1 0x51) = some false :=
  ⟨by decide, checksum_rejects_changed_byte [0x47, 0x50, 0x2A, 0x31, 0x37, 0x0D] 2 1 0x51
    (by decide) (by decide) (by decide) (by decide) (by decide) (by decide) (by decide)
    (by decide)⟩

/-- Claim C12 fails when the new byte is '*': `GA47*05` carries its correct checksum, and
so does `G*47*05`, in which the byte `A` at index 1, before the '*', has been replaced by
'*'. The validator stops at the first '*' it meets. -/
theorem checksum_accepts_byte_changed_to_star :
    isNMEAChecksumValid [0x47, 0x41, 0x34, 0x37, 0x2A, 0x30, 0x35] = some true
      ∧ [0x47, 0x41, 0x34, 0x37, 0x2A, 0x30, 0x35][1]? = some 0x41
      ∧ [0x47, 0x41, 0x34, 0x37, 0x2A, 0x30, 0x35].set 1 0x2A
          = [0x47, 0x2A, 0x34, 0x37, 0x2A, 0x30, 0x35]
      ∧ isNMEAChecksumValid ([0x47, 0x41, 0x34, 0x37, 0x2A, 0x30, 0x35].set 1 0x2A)
          = some true := by
  decide

/-! ## Evaluations of `parseVTG` on sample sentences -/

theorem decodeGroundSpeed_padded :
    decodeGroundSpeed [0, 0, 0, 1, 16, 0, 0, 9] = 1 := by
  simp [decodeGroundSpeed, accumulate, accumLoop, List.range', finalMultiplier, divideDown]

set_option maxRecDepth 4000 in
/-- Claim C13, evaluated on the code: the km/h field `001.009` has three integer and three
fractional digits, seven bytes in all, which `rawGroundSpeed[8]` holds at indices 1 to 7.
The accumulation loop runs over indices 1 to 6 only, so the last digit is dropped:
`groundSpeed` is 1, while the field denotes 1.009, and 0.009 is more than a thousandth of
1.009. -/
theorem parseVTG_drops_seventh_speed_byte :
    isNMEAChecksumValid (withChecksum paddedSpeedVTG) = some true
      ∧ fieldAfterComma 7 (withChecksum paddedSpeedVTG)
          = some (digitChars [0, 0, 1] ++ 0x2E :: digitChars [0, 0, 9])
      ∧ decimalValue [0, 0, 1] [0, 0, 9] = (1009 : ℚ) / 1000
      ∧ (∃ st1, parseVTG initialState (withChecksum paddedSpeedVTG) = some st1
          ∧ st1.gps_data.groundSpeed = 1)
      ∧ ¬ (|(1 : ℚ) - 1009 / 1000| ≤ 1 / 1000 * |(1009 : ℚ) / 1000|) := by
  refine ⟨by decide, by decide, by norm_num [decimalValue, natOfDigits], ?_, ?_⟩
  · obtain ⟨s, hs⟩ := fieldWalk_storeVTG_total (withChecksum paddedSpeedVTG)
      initialState.vtg (by decide)
    have r := fieldWalk_storeVTG_rawGroundSpeed _ _ s [48, 48, 49, 46, 48, 48, 57] hs
      (by decide)
    refine ⟨_, parseVTG_eq initialState _ s hs, ?_⟩
    show decodeGroundSpeed s.rawGroundSpeed = 1
    rw [r]
    exact decodeGroundSpeed_padded
  · rw [abs_of_nonpos (by norm_num), abs_of_nonneg (by norm_num)]
    norm_num

theorem decodeHeading_fresh_short : decodeHeading [0, 5, 16, 4, 0, 0] = 5 := by
  simp [decodeHeading, accumulate, accumLoop, List.range', finalMultiplier, divideDown,
    truncToInt]
  norm_num [Int.floor_eq_iff]

theorem decodeHeading_stale_short : decodeHeading [0, 5, 16, 4, 16, 7] = 547 := by
  simp [decodeHeading, accumulate, accumLoop, List.range', finalMultiplier, divideDown,
    truncToInt]
  norm_num [Int.floor_eq_iff]

theorem decodeGroundSpeed_fresh_short :
    decodeGroundSpeed [0, 1, 16, 2, 0, 0, 0, 0] = (12 : ℚ) / 10 := by
  simp [decodeGroundSpeed, accumulate, accumLoop, List.range', finalMultiplier, divideDown]
  norm_num

theorem decodeGroundSpeed_stale_short :
    decodeGroundSpeed [0, 1, 16, 2, 16, 2, 0, 0] = 122 := by
  simp [decodeGroundSpeed, accumulate, accumLoop, List.range', finalMultiplier, divideDown]
  norm_num

set_option maxRecDepth 4000 in
/-- Claim C19, evaluated on the code: the sentence `shortFieldsVTG` (course `5.4`, speed
`1.2`) decodes to heading 5 and ground speed 1.2 from the initial state, and again from
the state which that call leaves; from the state left by `sampleVTG` (course `054.7`,
speed `010.2`) it decodes to heading 547 and ground speed 122: the bytes `.7` and `.2` of
the earlier fields are still in `rawHeading[4..5]` and `rawGroundSpeed[4..5]`. -/
theorem parseVTG_depends_on_earlier_sentence :
    ∃ stB st1 st2 st3,
      parseVTG initialState (withChecksum sampleVTG) = some stB
      ∧ parseVTG initialState (withChecksum shortFieldsVTG) = some st1
      ∧ parseVTG stB (withChecksum shortFieldsVTG) = some st2
      ∧ parseVTG st1 (withChecksum shortFieldsVTG) = some st3
      ∧ st1.gps_data.heading = 5 ∧ st2.gps_data.heading = 547
      ∧ st3.gps_data.heading = 5
      ∧ st1.gps_data.groundSpeed = (12 : ℚ) / 10 ∧ st2.gps_data.groundSpeed = 122
      ∧ st3.gps_data.groundSpeed = (12 : ℚ) / 10 := by
  obtain ⟨sB, hB⟩ := fieldWalk_storeVTG_total (withChecksum sampleVTG)
    initialState.vtg (by decide)
  have bH := fieldWalk_storeVTG_rawHeading _ _ sB [48, 53, 52, 46, 55] hB (by decide)
  have bS := fieldWalk_storeVTG_rawGroundSpeed _ _ sB [48, 49, 48, 46, 50] hB (by decide)
  obtain ⟨s1, h1⟩ := fieldWalk_storeVTG_total (withChecksum shortFieldsVTG)
    initialState.vtg (by decide)
  have aH := fieldWalk_storeVTG_rawHeading _ _ s1 [53, 46, 52] h1 (by decide)
  have aS := fieldWalk_storeVTG_rawGroundSpeed _ _ s1 [49, 46, 50] h1 (by decide)
  obtain ⟨s2, h2⟩ := fieldWalk_storeVTG_total (withChecksum shortFieldsVTG) sB (by decide)
  have cH := fieldWalk_storeVTG_rawHeading _ _ s2 [53, 46, 52] h2 (by decide)
  have cS := fieldWalk_storeVTG_rawGroundSpeed _ _ s2 [49, 46, 50] h2 (by decide)
  obtain ⟨s3, h3⟩ := fieldWalk_storeVTG_total (withChecksum shortFieldsVTG) s1 (by decide)
  have dH := fieldWalk_storeVTG_rawHeading _ _ s3 [53, 46, 52] h3 (by decide)
  have dS := fieldWalk_storeVTG_rawGroundSpeed _ _ s3 [49, 46, 50] h3 (by decide)
  refine ⟨_, _, _, _, parseVTG_eq initialState _ sB hB, parseVTG_eq initialState _ s1 h1,
    parseVTG_eq _ _ s2 h2, parseVTG_eq _ _ s3 h3, ?_, ?_, ?_, ?_, ?_, ?_⟩
  · show decodeHeading s1.rawHeading = 5
    rw [aH]; exact decodeHeading_fresh_short
  · show decodeHeading s2.rawHeading = 547
    rw [cH, bH]; exact decodeHeading_stale_short
  · show decodeHeading s3.rawHeading = 5
    rw [dH, aH]; exact decodeHeading_fresh_short
  · show decodeGroundSpeed s1.rawGroundSpeed = (12 : ℚ) / 10
    rw [aS]; exact decodeGroundSpeed_fresh_short
  · show decodeGroundSpeed s2.rawGroundSpeed = 122
    rw [cS, bS]; exact decodeGroundSpeed_stale_short
  · show decodeGroundSpeed s3.rawGroundSpeed = (12 : ℚ) / 10
    rw [dS, aS]; exact decodeGroundSpeed_fresh_short

/-! ## Empty fields after earlier velocity sentences -/

theorem decodeHeading_zero : decodeHeading vtgScratch0.rawHeading = 0 := by
  simp [vtgScratch0, decodeHeading, accumulate, accumLoop, List.range', truncToInt]

theorem decodeGroundSpeed_zero : decodeGroundSpeed vtgScratch0.rawGroundSpeed = 0 := by
  simp [vtgScratch0, decodeGroundSpeed, accumulate, accumLoop, List.range']

/-- After calls of `parseVTG` from the initial state, `heading` and `groundSpeed` are what
the two rescale blocks compute from the scratch arrays. -/
theorem runVTG_record_matches_scratch :
    ∀ (bodies : List (List Nat)) (st : State),
      st.gps_data.heading = decodeHeading st.vtg.rawHeading →
      st.gps_data.groundSpeed = decodeGroundSpeed st.vtg.rawGroundSpeed →
      (∀ b ∈ bodies, vtgWithinWidths b) →
      ∃ st1, runVTG st bodies = some st1
        ∧ st1.gps_data.heading = decodeHeading st1.vtg.rawHeading
        ∧ st1.gps_data.groundSpeed = decodeGroundSpeed st1.vtg.rawGroundSpeed := by
  intro bodies
  induction bodies with
  | nil => intro st h1 h2 _; exact ⟨st, rfl, h1, h2⟩
  | cons b rest ih =>
    intro st h1 h2 hall
    obtain ⟨s, hs⟩ := fieldWalk_storeVTG_total b st.vtg (hall b (by simp))
    obtain ⟨st2, e, hv, hh, hg⟩ : ∃ st2, parseVTG st b = some st2 ∧ st2.vtg = s
        ∧ st2.gps_data.heading = decodeHeading s.rawHeading
        ∧ st2.gps_data.groundSpeed = decodeGroundSpeed s.rawGroundSpeed :=
      ⟨_, parseVTG_eq st b s hs, rfl, rfl, rfl⟩
    obtain ⟨st1, r1, r2, r3⟩ := ih st2 (by rw [hh, hv]) (by rw [hg, hv])
      (fun c hc => hall c (by simp [hc]))
    exact ⟨st1, by simp only [runVTG, e]; exact r1, r2, r3⟩

/-- Claim C16: in every state reached from the initial state by calls of `parseVTG` on
bodies within the scratch widths, a further body within the widths whose course field is
empty leaves `heading` at the value it had, and one whose km/h field is empty leaves
`groundSpeed` at the value it had. -/
theorem parseVTG_empty_field_keeps_value (bodies : List (List Nat)) (data : List Nat)
    (hbodies : ∀ b ∈ bodies, vtgWithinWidths b) (hfit : vtgWithinWidths data) :
    ∃ st st1, runVTG initialState bodies = some st ∧ parseVTG st data = some st1
      ∧ (fieldAfterComma 1 data = some [] → st1.gps_data.heading = st.gps_data.heading)
      ∧ (fieldAfterComma 7 data = some [] →
          st1.gps_data.groundSpeed = st.gps_data.groundSpeed) := by
  obtain ⟨st, hrun, i1, i2⟩ := runVTG_record_matches_scratch bodies initialState
    decodeHeading_zero.symm decodeGroundSpeed_zero.symm hbodies
  obtain ⟨s, hs⟩ := fieldWalk_storeVTG_total data st.vtg hfit
  refine ⟨st, _, hrun, parseVTG_eq st data s hs, ?_, ?_⟩
  · intro h
    have r := fieldWalk_storeVTG_rawHeading data _ s [] hs h
    show decodeHeading s.rawHeading = st.gps_data.heading
    rw [r, i1]; rfl
  · intro h
    have r := fieldWalk_storeVTG_rawGroundSpeed data _ s [] hs h
    show decodeGroundSpeed s.rawGroundSpeed = st.gps_data.groundSpeed
    rw [r, i2]; rfl

set_option maxRecDepth 4000 in
theorem parseVTG_empty_field_keeps_value_witness :
    ∃ st st1, runVTG initialState [withChecksum sampleVTG] = some st
      ∧ parseVTG st (withChecksum emptyFieldsVTG) = some st1
      ∧ st1.gps_data.heading = st.gps_data.heading
      ∧ st1.gps_data.groundSpeed = st.gps_data.groundSpeed := by
  obtain ⟨st, st1, h1, h2, h3, h4⟩ := parseVTG_empty_field_keeps_value
    [withChecksum sampleVTG] (withChecksum emptyFieldsVTG) (by decide) (by decide)
  exact ⟨st, st1, h1, h2, h3 (by decide), h4 (by decide)⟩

/-! ## Frames that are not staged, and bytes outside a frame -/

/-- The state after the scan of a block that holds a position frame and a velocity
frame. -/
theorem scanBlock_twoFrameBlock_state (st : State) (G noise V padding : List Nat)
    (hbuf : st.uart_buffer.length = GPS_UART_BUFFER_SIZE)
    (hblock : (twoFrameBlock G noise V padding).length = GPS_UART_BUFFER_SIZE)
    (hG : G.take 5 = GPS_GGA_MESSAGE) (hV : V.take 5 = GPS_VTG_MESSAGE)
    (hGc : ∀ c ∈ G, c ≠ 0x24 ∧ c ≠ 0x0D) (hVc : ∀ c ∈ V, c ≠ 0x24 ∧ c ≠ 0x0D)
    (hnoise : ∀ c ∈ noise, c ≠ 0x24) (hpad : ∀ c ∈ padding, c ≠ 0x24) :
    scanBlock st (twoFrameBlock G noise V padding) =
      { st with
        uart_buffer := writeAt (writeAt st.uart_buffer 0 G) 0 V
        buffer_index := V.length
        gga_buffer := writeAt st.uart_buffer 0 G
        new_gga_data := true
        vtg_buffer := writeAt (writeAt st.uart_buffer 0 G) 0 V
        new_vtg_data := true
        currently_parsing := false } := by
  simp only [twoFrameBlock, List.length_cons, List.length_append] at hblock
  have hGlen : G.length < GPS_UART_BUFFER_SIZE := by omega
  have hVlen : V.length < GPS_UART_BUFFER_SIZE := by omega
  have hl1 : G.length ≤ st.uart_buffer.length := by omega
  have hu1 : (writeAt st.uart_buffer 0 G).length = GPS_UART_BUFFER_SIZE := by
    rw [writeAt_length, hbuf]
  unfold twoFrameBlock
  rw [scanBlock_two_frames st G noise V padding hbuf hGlen hVlen hG hV hGc hVc hnoise hpad,
    afterFrame_gga st G hG hl1, afterFrame_vtg _ V hV (by simp only [hu1]; omega)]

/-- The extractor state after one call of `parseIncomingGPSData` on a block that holds a
position frame and a velocity frame, both with their correct checksum, whose field walks
succeed: both flags are consumed, the scan loop is idle, and the accumulation buffer still
holds the velocity sentence. -/
theorem parseIncomingGPSData_two_frames_state (st : State)
    (gbody vbody noise padding : List Nat) (s1 : GGAScratch) (s2 : VTGScratch)
    (hbuf : st.uart_buffer.length = GPS_UART_BUFFER_SIZE)
    (hblock : (twoFrameBlock (withChecksum gbody) noise (withChecksum vbody) padding).length
      = GPS_UART_BUFFER_SIZE)
    (hg5 : gbody.take 5 = GPS_GGA_MESSAGE) (hv5 : vbody.take 5 = GPS_VTG_MESSAGE)
    (hgb : ∀ c ∈ gbody, c < 256 ∧ c ≠ 0x2A ∧ c ≠ 0x24 ∧ c ≠ 0x0D)
    (hvb : ∀ c ∈ vbody, c < 256 ∧ c ≠ 0x2A ∧ c ≠ 0x24 ∧ c ≠ 0x0D)
    (hnoise : ∀ c ∈ noise, c ≠ 0x24) (hpad : ∀ c ∈ padding, c ≠ 0x24)
    (hw1 : fieldWalk storeGGA (gbody ++ [0x2A]) 0 0 st.gga = some s1)
    (hw2 : fieldWalk storeVTG (vbody ++ [0x2A]) 0 0 st.vtg = some s2) :
    ∃ st1 restV,
      parseIncomingGPSData st
          (twoFrameBlock (withChecksum gbody) noise (withChecksum vbody) padding) = some st1
      ∧ st1.new_gga_data = false ∧ st1.new_vtg_data = false
      ∧ st1.currently_parsing = false ∧ st1.data_available = true
      ∧ st1.uart_buffer = withChecksum vbody ++ restV
      ∧ st1.uart_buffer.length = GPS_UART_BUFFER_SIZE := by
  have hS := scanBlock_twoFrameBlock_state st (withChecksum gbody) noise (withChecksum vbody)
    padding hbuf hblock (withChecksum_take5 _ _ hg5 rfl) (withChecksum_take5 _ _ hv5 rfl)
    (withChecksum_no_marker _ hgb) (withChecksum_no_marker _ hvb) hnoise hpad
  simp only [twoFrameBlock, List.length_cons, List.length_append] at hblock
  have hwG : writeAt st.uart_buffer 0 (withChecksum gbody)
      = withChecksum gbody ++ st.uart_buffer.drop (withChecksum gbody).length := by
    rw [writeAt_eq _ _ 0 (by omega)]; simp
  have hu1 : (writeAt st.uart_buffer 0 (withChecksum gbody)).length
      = GPS_UART_BUFFER_SIZE := by
    rw [writeAt_length, hbuf]
  have hwV : writeAt (writeAt st.uart_buffer 0 (withChecksum gbody)) 0 (withChecksum vbody)
      = withChecksum vbody
        ++ (writeAt st.uart_buffer 0 (withChecksum gbody)).drop (withChecksum vbody).length := by
    rw [writeAt_eq _ _ 0 (by omega)]; simp
  have e1 : (scanBlock st (twoFrameBlock (withChecksum gbody) noise (withChecksum vbody)
      padding)).gga_buffer = writeAt st.uart_buffer 0 (withChecksum gbody) := by rw [hS]
  have e2 : (scanBlock st (twoFrameBlock (withChecksum gbody) noise (withChecksum vbody)
      padding)).vtg_buffer
      = writeAt (writeAt st.uart_buffer 0 (withChecksum gbody)) 0 (withChecksum vbody) := by
    rw [hS]
  have e3 : (scanBlock st (twoFrameBlock (withChecksum gbody) noise (withChecksum vbody)
      padding)).new_gga_data = true := by rw [hS]
  have e4 : (scanBlock st (twoFrameBlock (withChecksum gbody) noise (withChecksum vbody)
      padding)).new_vtg_data = true := by rw [hS]
  have e5 : (scanBlock st (twoFrameBlock (withChecksum gbody) noise (withChecksum vbody)
      padding)).gga = st.gga := by rw [hS]
  have e6 : (scanBlock st (twoFrameBlock (withChecksum gbody) noise (withChecksum vbody)
      padding)).vtg = st.vtg := by rw [hS]
  have e7 : (scanBlock st (twoFrameBlock (withChecksum gbody) noise (withChecksum vbody)
      padding)).uart_buffer
      = writeAt (writeAt st.uart_buffer 0 (withChecksum gbody)) 0 (withChecksum vbody) := by
    rw [hS]
  have e8 : (scanBlock st (twoFrameBlock (withChecksum gbody) noise (withChecksum vbody)
      padding)).currently_parsing = false := by rw [hS]
  unfold parseIncomingGPSData
  generalize scanBlock st (twoFrameBlock (withChecksum gbody) noise (withChecksum vbody) padding)
    = S at e1 e2 e3 e4 e5 e6 e7 e8
  have hG : ∃ S2, processGGA S = some S2 ∧ S2.new_vtg_data = true
      ∧ S2.vtg_buffer = S.vtg_buffer ∧ S2.vtg = S.vtg ∧ S2.uart_buffer = S.uart_buffer
      ∧ S2.currently_parsing = S.currently_parsing ∧ S2.new_gga_data = false :=
    ⟨_, processGGA_valid S gbody (st.uart_buffer.drop (withChecksum gbody).length) s1 e3
      (by rw [e1, hwG]; simp [withChecksum]) (fun b hb => ⟨(hgb b hb).1, (hgb b hb).2.1⟩)
      (by rw [e5]; exact hw1), e4, rfl, rfl, rfl, rfl, rfl⟩
  obtain ⟨S2, hS2, f1, f2, f3, f4, f5, f6⟩ := hG
  have hV := processVTG_valid S2 vbody
    ((writeAt st.uart_buffer 0 (withChecksum gbody)).drop (withChecksum vbody).length) s2 f1
    (by rw [f2, e2, hwV]; simp [withChecksum]) (fun b hb => ⟨(hvb b hb).1, (hvb b hb).2.1⟩)
    (by rw [f3, e6]; exact hw2)
  unfold processStaged
  simp only [e3, e4, Bool.not_true, Bool.and_self, Bool.false_eq_true, if_false, hS2, hV]
  refine ⟨_, (writeAt st.uart_buffer 0 (withChecksum gbody)).drop (withChecksum vbody).length,
    rfl, f6, rfl, ?_, rfl, ?_, ?_⟩
  · show S2.currently_parsing = false
    rw [f5, e8]
  · show S2.uart_buffer = _
    rw [f4, e7, hwV]
  · show S2.uart_buffer.length = _
    rw [f4, e7, writeAt_length, hu1]

set_option maxRecDepth 8000 in
/-- The extractor state after the sample block has been received in the initial state. -/
theorem parseIncomingGPSData_sampleBlock_state :
    ∃ st1 restV,
      parseIncomingGPSData initialState sampleBlock = some st1
      ∧ st1.new_gga_data = false ∧ st1.new_vtg_data = false
      ∧ st1.currently_parsing = false ∧ st1.data_available = true
      ∧ st1.uart_buffer = withChecksum sampleVTG ++ restV
      ∧ st1.uart_buffer.length = GPS_UART_BUFFER_SIZE := by
  obtain ⟨s1, hs1⟩ := fieldWalk_storeGGA_total (sampleGGA ++ [0x2A]) initialState.gga
    (by decide)
  obtain ⟨s2, hs2⟩ := fieldWalk_storeVTG_total (sampleVTG ++ [0x2A]) initialState.vtg
    (by decide)
  exact parseIncomingGPSData_two_frames_state initialState sampleGGA sampleVTG [0x0A]
    (0x0A :: List.replicate 390 0) s1 s2 initialState_uart_length sampleBlock_length
    (by decide) (by decide) (by decide) (by decide) (by decide) (padding_no_dollar 390)
    hs1 hs2

theorem afterFrame_other (st : State) (body : List Nat)
    (h5 : 5 ≤ body.length) (hlen : body.length ≤ st.uart_buffer.length)
    (hg : body.take 5 ≠ GPS_GGA_MESSAGE) (hv : body.take 5 ≠ GPS_VTG_MESSAGE) :
    afterFrame st body =
      { st with uart_buffer := writeAt st.uart_buffer 0 body, buffer_index := body.length,
                currently_parsing := false } := by
  have hu : (writeAt st.uart_buffer 0 body).take 5 = body.take 5 :=
    writeAt_zero_take5 _ _ hlen h5
  simp only [afterFrame, hu, if_neg hg, if_neg hv]

/-- Claim C15, as the code has it: for every extractor state whose accumulation buffer has
its 500 bytes and every frame '$' `body` CR in which `body` holds at least five and fewer
than 500 bytes, none of them '$' or CR, and does not start with "GNGGA" or "GNVTG":
scanning the frame leaves both staging buffers and both new-data flags unchanged. -/
theorem scan_ignores_unrecognised_sentence (st : State) (body : List Nat)
    (hbuf : st.uart_buffer.length = GPS_UART_BUFFER_SIZE)
    (h5 : 5 ≤ body.length) (hfit : body.length < GPS_UART_BUFFER_SIZE)
    (hbody : ∀ c ∈ body, c ≠ 0x24 ∧ c ≠ 0x0D)
    (hg : body.take 5 ≠ GPS_GGA_MESSAGE) (hv : body.take 5 ≠ GPS_VTG_MESSAGE) :
    (scanBlock st (0x24 :: (body ++ [0x0D]))).gga_buffer = st.gga_buffer
      ∧ (scanBlock st (0x24 :: (body ++ [0x0D]))).vtg_buffer = st.vtg_buffer
      ∧ (scanBlock st (0x24 :: (body ++ [0x0D]))).new_gga_data = st.new_gga_data
      ∧ (scanBlock st (0x24 :: (body ++ [0x0D]))).new_vtg_data = st.new_vtg_data := by
  rw [scanBlock_frame st body [] hbody hfit, afterFrame_other st body h5 (by omega) hg hv]
  exact ⟨rfl, rfl, rfl, rfl⟩

theorem scan_ignores_unrecognised_sentence_witness :
    (scanBlock initialState (0x24 :: (sampleGSA ++ [0x0D]))).gga_buffer
        = initialState.gga_buffer
      ∧ (scanBlock initialState (0x24 :: (sampleGSA ++ [0x0D]))).vtg_buffer
        = initialState.vtg_buffer
      ∧ (scanBlock initialState (0x24 :: (sampleGSA ++ [0x0D]))).new_gga_data
        = initialState.new_gga_data
      ∧ (scanBlock initialState (0x24 :: (sampleGSA ++ [0x0D]))).new_vtg_data
        = initialState.new_vtg_data :=
  scan_ignores_unrecognised_sentence initialState sampleGSA initialState_uart_length
    (by decide) (by decide) (by decide) (by decide) (by decide)

theorem writeAt_GN_take5 (l : List Nat) (h : l.take 5 = GPS_VTG_MESSAGE) :
    (writeAt l 0 [71, 78]).take 5 = GPS_VTG_MESSAGE := by
  rcases l with _ | ⟨a, _ | ⟨b, _ | ⟨c, _ | ⟨d, _ | ⟨e, r⟩⟩⟩⟩⟩ <;>
    simp [GPS_VTG_MESSAGE, writeAt] at h ⊢
  exact ⟨h.2.2.1, h.2.2.2.1, h.2.2.2.2⟩

theorem scanStep_last_slot (S : State) (c : Nat) (hc1 : c ≠ 0x24) (hc2 : c ≠ 0x0D)
    (hcap : S.currently_parsing = true)
    (hidx : S.buffer_index + 1 = GPS_UART_BUFFER_SIZE) :
    scanStep S c =
      { S with uart_buffer := S.uart_buffer.set S.buffer_index c, buffer_index := 0 } := by
  simp [scanStep, hc1, hc2, hcap, hidx]

/-- After '$' and as many bytes `X` as the accumulation buffer holds, the write cursor has
wrapped around to index 0, with the scan loop still capturing. -/
theorem scanBlock_wrapped (st : State) (n : Nat) (hn : n + 1 = GPS_UART_BUFFER_SIZE)
    (hbuf : st.uart_buffer.length = GPS_UART_BUFFER_SIZE) :
    (scanBlock st (0x24 :: List.replicate (n + 1) 0x58)).currently_parsing = true
      ∧ (scanBlock st (0x24 :: List.replicate (n + 1) 0x58)).buffer_index = 0
      ∧ (scanBlock st (0x24 :: List.replicate (n + 1) 0x58)).uart_buffer.length
          = GPS_UART_BUFFER_SIZE := by
  have h0 : scanStep st 0x24 = { st with currently_parsing := true, buffer_index := 0 } := by
    simp [scanStep]
  have hX : ∀ c ∈ List.replicate n 0x58, c ≠ 0x24 ∧ c ≠ 0x0D := by
    intro c hc
    rw [(List.mem_replicate.mp hc).2]
    decide
  rw [scanBlock_cons, h0, List.replicate_succ', scanBlock_append,
    scanBlock_capture (List.replicate n 0x58) _ rfl hX
      (by rw [List.length_replicate]; show 0 + n < _; omega),
    scanBlock_cons,
    scanStep_last_slot _ 0x58 (by decide) (by decide) rfl
      (by rw [List.length_replicate]; show 0 + n + 1 = _; omega)]
  refine ⟨rfl, rfl, ?_⟩
  show (List.set (writeAt st.uart_buffer 0 (List.replicate n 0x58)) _ _).length = _
  rw [List.length_set, writeAt_length, hbuf]

/-- A frame whose body fills the accumulation buffer exactly and goes on with `tail`
is classified by `tail`, which has overwritten the start of the buffer. -/
theorem scanBlock_wrapped_frame (st : State) (n : Nat) (tail : List Nat)
    (hn : n + 1 = GPS_UART_BUFFER_SIZE)
    (hbuf : st.uart_buffer.length = GPS_UART_BUFFER_SIZE)
    (ht5 : tail.take 5 = GPS_GGA_MESSAGE) (htl : tail.length < GPS_UART_BUFFER_SIZE)
    (htc : ∀ c ∈ tail, c ≠ 0x24 ∧ c ≠ 0x0D) :
    (scanBlock st (0x24 :: ((List.replicate (n + 1) 0x58 ++ tail) ++ [0x0D]))).new_gga_data
      = true := by
  obtain ⟨w1, w2, w3⟩ := scanBlock_wrapped st n hn hbuf
  have e : 0x24 :: ((List.replicate (n + 1) 0x58 ++ tail) ++ [0x0D])
      = (0x24 :: List.replicate (n + 1) 0x58) ++ (tail ++ [0x0D]) := by
    rw [List.append_assoc]; rfl
  rw [e, scanBlock_append]
  generalize scanBlock st (0x24 :: List.replicate (n + 1) 0x58) = S at w1 w2 w3
  have hS : scanStep S 0x24 = S := by
    cases S
    simp only [scanStep] at *
    simp [w1, w2]
  have e2 : scanBlock S (tail ++ [0x0D]) = scanBlock S (0x24 :: (tail ++ [0x0D])) := by
    rw [scanBlock_cons, hS]
  rw [e2, scanBlock_frame S tail [] htc htl, afterFrame_gga S tail ht5 (by omega)]
  rfl

set_option maxRecDepth 8000 in
/-- Claim C15 fails when the body is shorter than five characters, and when it is longer
than the accumulation buffer. Once the sample block has been received and decoded, the
accumulation buffer still holds the velocity sentence and the velocity flag is clear; the
frame '$' `GN` CR, whose body is not a recognised prefix, overwrites two bytes with the
same values, and the scan sets the velocity flag again. And in the initial state the frame
'$' `X...XGNGGA` CR with 500 bytes `X` wraps the write cursor around, so the buffer starts
with "GNGGA" at the CR and the position flag is set. -/
theorem scan_unrecognised_frame_sets_flag :
    (∃ st1, parseIncomingGPSData initialState sampleBlock = some st1
        ∧ st1.new_vtg_data = false
        ∧ ([71, 78] : List Nat).take 5 ≠ GPS_GGA_MESSAGE
        ∧ ([71, 78] : List Nat).take 5 ≠ GPS_VTG_MESSAGE
        ∧ (scanBlock st1 (0x24 :: ([71, 78] ++ [0x0D]))).new_vtg_data = true)
      ∧ initialState.new_gga_data = false
      ∧ (List.replicate 500 0x58 ++ GPS_GGA_MESSAGE).take 5 ≠ GPS_GGA_MESSAGE
      ∧ (List.replicate 500 0x58 ++ GPS_GGA_MESSAGE).take 5 ≠ GPS_VTG_MESSAGE
      ∧ (scanBlock initialState
          (0x24 :: ((List.replicate 500 0x58 ++ GPS_GGA_MESSAGE) ++ [0x0D]))).new_gga_data
          = true := by
  obtain ⟨st1, restV, h1, _, h3, _, _, h6, _⟩ := parseIncomingGPSData_sampleBlock_state
  have h5 : st1.uart_buffer.take 5 = GPS_VTG_MESSAGE := by rw [h6]; rfl
  have hu := writeAt_GN_take5 _ h5
  have hne : GPS_VTG_MESSAGE ≠ GPS_GGA_MESSAGE := by decide
  refine ⟨⟨st1, h1, h3, by decide, by decide, ?_⟩, rfl, by decide, by decide,
    scanBlock_wrapped_frame initialState 499 GPS_GGA_MESSAGE rfl initialState_uart_length rfl
      (by decide) (by decide)⟩
  rw [scanBlock_frame st1 [71, 78] [] (by decide) (by decide)]
  show (afterFrame st1 [71, 78]).new_vtg_data = true
  simp only [afterFrame, hu, if_neg hne, if_true]

theorem scanStep_cr_vtg (st : State) (h5 : st.uart_buffer.take 5 = GPS_VTG_MESSAGE) :
    scanStep st 0x0D =
      { st with vtg_buffer := st.uart_buffer, new_vtg_data := true,
                currently_parsing := false } := by
  have hne : GPS_VTG_MESSAGE ≠ GPS_GGA_MESSAGE := by decide
  simp [scanStep, h5, hne]

/-- One call of `parseIncomingGPSData` on a block that starts with CR and holds no '$',
while no position sentence is staged and the accumulation buffer still holds a velocity
sentence with its correct checksum: the call returns and publishes data. -/
theorem parseIncomingGPSData_idle_cr (st : State) (vbody rest padding : List Nat)
    (hgga : st.new_gga_data = false)
    (hu : st.uart_buffer = withChecksum vbody ++ rest)
    (hv5 : vbody.take 5 = GPS_VTG_MESSAGE)
    (hvb : ∀ c ∈ vbody, c < 256 ∧ c ≠ 0x2A)
    (hfit : vtgWithinWidths (vbody ++ [0x2A]))
    (hpad : ∀ c ∈ padding, c ≠ 0x24) :
    ∃ st3, parseIncomingGPSData st (0x0D :: padding) = some st3
      ∧ st3.data_available = true := by
  have hne : GPS_VTG_MESSAGE ≠ GPS_GGA_MESSAGE := by decide
  have hl := length_ge_of_take5 _ _ (withChecksum_take5 _ _ hv5 rfl) rfl
  have h5 : st.uart_buffer.take 5 = GPS_VTG_MESSAGE := by
    rw [hu, List.take_append_of_le_length hl, withChecksum_take5 _ _ hv5 rfl]
  have hstep := scanStep_cr_vtg st h5
  have hset : Settled (scanStep st 0x0D) := by
    rw [hstep]
    exact ⟨rfl, fun h1 => absurd (h5.symm.trans h1) hne, fun _ _ => ⟨rfl, rfl⟩⟩
  obtain ⟨s, hs⟩ := fieldWalk_storeVTG_total (vbody ++ [0x2A]) st.vtg hfit
  have g1 : (scanStep st 0x0D).new_gga_data = false := by rw [hstep]; exact hgga
  have g2 : (scanStep st 0x0D).new_vtg_data = true := by rw [hstep]
  have g3 : (scanStep st 0x0D).vtg_buffer = withChecksum vbody ++ rest := by
    rw [hstep]; exact hu
  have g4 : (scanStep st 0x0D).vtg = st.vtg := by rw [hstep]
  unfold parseIncomingGPSData
  rw [scanBlock_cons, scanBlock_settled padding _ hset hpad]
  generalize scanStep st 0x0D = S at g1 g2 g3 g4
  have hV := processVTG_valid S vbody rest s g2 (by rw [g3]; simp [withChecksum]) hvb
    (by rw [g4]; exact hs)
  have hG : processGGA S = some S := by simp [processGGA, g1]
  unfold processStaged
  simp only [g1, g2, hG, hV, Bool.not_false, Bool.not_true, Bool.and_false,
    Bool.false_eq_true, if_false]
  exact ⟨_, rfl, rfl⟩

set_option maxRecDepth 8000 in
/-- Claim C17, evaluated on the code: once the sample block has been received and decoded,
the scan loop is idle and the velocity flag is clear. A carriage return processed in that
state stages the accumulation buffer again and sets the velocity flag, so the state is
not left unchanged; and after the application has consumed the availability flag, a
block that holds only a carriage return and zero bytes makes `parseIncomingGPSData`
decode the old velocity sentence again and report new data. -/
theorem scanStep_idle_carriage_return_restages :
    ∃ st1, parseIncomingGPSData initialState sampleBlock = some st1
      ∧ st1.currently_parsing = false
      ∧ st1.new_vtg_data = false
      ∧ (scanStep st1 0x0D).new_vtg_data = true
      ∧ (isNewDataAvailable st1).1 = true
      ∧ ∃ st3, parseIncomingGPSData (isNewDataAvailable st1).2
            (0x0D :: List.replicate 499 0) = some st3
          ∧ (isNewDataAvailable st3).1 = true := by
  obtain ⟨st1, restV, h1, h2, h3, h4, h5, h6, _⟩ := parseIncomingGPSData_sampleBlock_state
  have ht : st1.uart_buffer.take 5 = GPS_VTG_MESSAGE := by rw [h6]; rfl
  have hcons : (isNewDataAvailable st1).2 = { st1 with data_available := false } := by
    simp [isNewDataAvailable, h5]
  refine ⟨st1, h1, h4, h3, ?_, ?_, ?_⟩
  · rw [scanStep_cr_vtg st1 ht]
  · simp [isNewDataAvailable, h5]
  · obtain ⟨st3, e1, e2⟩ := parseIncomingGPSData_idle_cr
      { st1 with data_available := false } sampleVTG restV (List.replicate 499 0)
      h2 h6 (by decide) (by decide) (by decide)
      (fun c hc => by rw [(List.mem_replicate.mp hc).2]; decide)
    rw [hcons]
    exact ⟨st3, e1, by simp [isNewDataAvailable, e2]⟩

/-! ## End-to-end decoding of fields outside the decoder formats -/

theorem decodeAltitude_no_point : decodeAltitude [0, 5, 4, 5, 0, 0, 0, 0] = 5 := by
  simp [decodeAltitude, accumulate, accumLoop, List.range', finalMultiplier, divideDown,
    truncToInt]
  norm_num [Int.floor_eq_iff]

set_option maxRecDepth 8000 in
/-- Claim C9 fails on fields that are within the scratch widths but not of the format the
rescale blocks read. The block `offFormatBlock` holds a GNGGA frame and a GNVTG frame with
their correct checksums and every stored field within its scratch array. Its altitude
field is `545`, without a decimal point, and the call leaves `altitude` = 5: with no
decimal point found the divisor stays at 100000. Its km/h field is `001.009`, seven
characters, and the call leaves `groundSpeed` = 1, the seventh character not being read. -/
theorem end_to_end_off_format_fields :
    offFormatBlock.length = GPS_UART_BUFFER_SIZE
      ∧ isNMEAChecksumValid (withChecksum noPointGGA) = some true
      ∧ isNMEAChecksumValid (withChecksum paddedSpeedVTG) = some true
      ∧ ggaWithinWidths (withChecksum noPointGGA)
      ∧ vtgWithinWidths (withChecksum paddedSpeedVTG)
      ∧ fieldAfterComma 9 (withChecksum noPointGGA) = some (digitChars [5, 4, 5])
      ∧ fieldAfterComma 7 (withChecksum paddedSpeedVTG)
          = some (digitChars [0, 0, 1] ++ 0x2E :: digitChars [0, 0, 9])
      ∧ ∃ st1, parseIncomingGPSData initialState offFormatBlock = some st1
          ∧ st1.gps_data.altitude = 5
          ∧ st1.gps_data.altitude ≠ (natOfDigits [5, 4, 5] : Int)
          ∧ st1.gps_data.groundSpeed = 1
          ∧ st1.gps_data.groundSpeed ≠ decimalValue [0, 0, 1] [0, 0, 9] := by
  have hlen : offFormatBlock.length = GPS_UART_BUFFER_SIZE := by
    simp only [offFormatBlock, twoFrameBlock, withChecksum, noPointGGA, paddedSpeedVTG,
      GPS_UART_BUFFER_SIZE, List.length_cons, List.length_append, List.length_replicate,
      List.length_nil]
  obtain ⟨s1, hs1⟩ := fieldWalk_storeGGA_total (noPointGGA ++ [0x2A]) initialState.gga
    (by decide)
  obtain ⟨s2, hs2⟩ := fieldWalk_storeVTG_total (paddedSpeedVTG ++ [0x2A]) initialState.vtg
    (by decide)
  have r1 := fieldWalk_storeGGA_rawAltitude _ _ s1 [53, 52, 53] hs1 (by decide)
  have r2 := fieldWalk_storeVTG_rawGroundSpeed _ _ s2 [48, 48, 49, 46, 48, 48, 57] hs2
    (by decide)
  obtain ⟨st1, h1, h2, _⟩ := parseIncomingGPSData_two_frames initialState noPointGGA
    paddedSpeedVTG [0x0A] (0x0A :: List.replicate 390 0) s1 s2 initialState_uart_length (le_of_eq hlen)
    (by decide) (by decide) (by decide) (by decide) (by decide) (padding_no_dollar 390)
    hs1 hs2
  have a1 : st1.gps_data.altitude = 5 := by
    rw [h2]
    show decodeAltitude s1.rawAltitude = 5
    rw [r1]
    exact decodeAltitude_no_point
  have a2 : st1.gps_data.groundSpeed = 1 := by
    rw [h2]
    show decodeGroundSpeed s2.rawGroundSpeed = 1
    rw [r2]
    exact decodeGroundSpeed_padded
  refine ⟨hlen, by decide, by decide, by decide, by decide, by decide, by decide,
    st1, h1, a1, ?_, a2, ?_⟩
  · rw [a1]; decide
  · rw [a2]; norm_num [decimalValue, natOfDigits]

end GPSDriver
